import Mathlib

/-!
# qlog: rotating file writer, rotation rules and retention

A shallow embedding of `internal/rotatelogger.go` (the `RotateLogger` entry
points `Write` and `Close`, the two rotation rules `DailyRotateRule` and
`SizeLimitRotateRule`) together with the pieces of the Go standard library the
rules call (`path/filepath`, `time.Format`, `sort.Strings`).

Conventions.
* A Go `string` / `[]byte` is the list of its bytes (`GoString`); string
  comparison is the bytewise lexicographic comparison of the Go runtime.
* Go `int` and `int64` are `Int`, wrapped by `wrap64` wherever the source
  does arithmetic that can overflow.
* Everything the code reads from the outside world (the clock, the directory,
  `os.Stat`, the disk probes, the scheduler's choice inside a `select`) is an
  explicit argument.
-/

set_option maxRecDepth 100000

namespace Qlog

/-! ## Strings -/

/-- A Go string: its bytes. -/
abbrev GoString := List Nat

/-- The bytes of an ASCII literal. -/
def lit (s : String) : GoString := s.toList.map Char.toNat

/-- Go's `a < b` on strings: bytewise lexicographic order. -/
def strLt : GoString → GoString → Bool
  | [], [] => false
  | [], _ :: _ => true
  | _ :: _, [] => false
  | a :: as, b :: bs => if a < b then true else if b < a then false else strLt as bs

/-- Go's `a >= b` on strings. -/
def strGe (a b : GoString) : Bool := !strLt a b

/-! ## Machine integers -/

/-- Two's complement wrap-around of a mathematical integer into `int64`. -/
def wrap64 (x : Int) : Int := (x + 2 ^ 63) % 2 ^ 64 - 2 ^ 63

/-- The largest `int64` (`math.MaxInt64`). -/
def maxInt64 : Int := 2 ^ 63 - 1

/-! ## Constants of `rotatelogger.go` -/

/-- Capacity of the record queue. -/
def maxLogItemBufferSize : Nat := 1000

def hoursPerDay : Int := 24

/-- The constant `1 << 20`. -/
def megaBytes : Int := 2 ^ 20

/-- The string `".gz"`. -/
def gzipExt : GoString := [46, 103, 122]

/-! ## Errors -/

/-- Go `error` values that the modelled code can return. `none` of
`Option GoError` is Go's `nil`. -/
inductive GoError where
  | ErrLogFileClosed
  | ioError (msg : GoString)
  | errorString (msg : GoString)
  deriving DecidableEq, Repr

/-! ## `RotateLogger`: the producer entry point and `Close` -/

/-- The part of `RotateLogger` that `Write` and `Close` touch.
`channel` is the content of the buffered channel (oldest record first),
`done` says whether the `done` channel has been closed, `closeOnce` whether the
`sync.Once` has fired, `stdlog` collects what was handed to `log.Println`. -/
structure RotateLogger where
  filename : GoString
  channel : List GoString
  done : Bool
  closeOnce : Bool
  stdlog : List GoString
  deriving DecidableEq, Repr

/-- The state `NewLogger` builds: empty queue of capacity
`maxLogItemBufferSize`, `done` open, latch not fired. -/
def NewLogger (filename : GoString) : RotateLogger :=
  { filename := filename, channel := [], done := false, closeOnce := false, stdlog := [] }

/-- `RotateLogger.Write`. The `select` has a send case, a receive on `done` and
a `default`. A send on a buffered channel can proceed when the buffer is not
full; a receive on a closed channel can always proceed. When both can proceed
Go chooses one of them pseudo-randomly: `pick` is that choice. When neither
can, `default` runs. -/
def Write (l : RotateLogger) (data : GoString) (pick : Nat) :
    RotateLogger × Int × Option GoError :=
  let sendReady : Bool := decide (l.channel.length < maxLogItemBufferSize)
  let doneReady : Bool := l.done
  let sent : RotateLogger × Int × Option GoError :=
    ({ l with channel := l.channel ++ [data] }, (data.length : Int), none)
  let closed : RotateLogger × Int × Option GoError :=
    ({ l with stdlog := l.stdlog ++ [data] }, 0, some GoError.ErrLogFileClosed)
  match sendReady, doneReady with
  | true, true => if pick % 2 = 0 then sent else closed
  | true, false => sent
  | false, true => closed
  | false, false => (l, 0, none)

/-- `RotateLogger.Close`. `syncErr` and `closeErr` are the outcomes of
`l.fp.Sync()` and `l.fp.Close()`. The body runs under `closeOnce.Do`; the
result variable `err` is local to the call and starts as `nil`. Closing `done`
and waiting for the workers leaves the queue drained. -/
def Close (l : RotateLogger) (syncErr closeErr : Option GoError) :
    RotateLogger × Option GoError :=
  if l.closeOnce then (l, none)
  else
    let l1 : RotateLogger := { l with closeOnce := true, done := true, channel := [] }
    match syncErr with
    | some e => (l1, some e)
    | none => (l1, closeErr)

/-! ## `sort.Strings` -/

/-- Insert a string into an ascending list, after the elements not greater
than it. -/
def insertSorted (x : GoString) : List GoString → List GoString
  | [] => [x]
  | y :: ys => if strLt x y then x :: y :: ys else y :: insertSorted x ys

/-- `sort.Strings`: the ascending rearrangement of the list (for a total order
on strings every sorting algorithm returns the same list). -/
def sortStrings : List GoString → List GoString
  | [] => []
  | x :: xs => insertSorted x (sortStrings xs)

/-! ## `path/filepath` (Unix) -/

/-- The `/`-separated elements of a path (`/` is byte 47). -/
def splitSlash : GoString → List GoString
  | [] => [[]]
  | c :: cs =>
    if c = 47 then [] :: splitSlash cs
    else
      match splitSlash cs with
      | [] => [[c]]
      | e :: es => (c :: e) :: es

/-- Elements joined by `/`. -/
def joinSlash : List GoString → GoString
  | [] => []
  | [e] => e
  | e :: es => e ++ 47 :: joinSlash es

/-- The output of `Clean` while it scans: `dotdot` leading `..` elements that
cannot be cancelled, followed by the real elements `elems` (last one first). -/
structure CleanState where
  dotdot : Nat
  elems : List GoString
  deriving DecidableEq, Repr

/-- One path element of `filepath.Clean`: empty and `.` elements are skipped,
`..` removes the last real element if there is one, is dropped at the root
and is kept otherwise; any other element is appended. -/
def cleanStep (rooted : Bool) (st : CleanState) (e : GoString) : CleanState :=
  if e = [] then st
  else if e = [46] then st
  else if e = [46, 46] then
    match st.elems with
    | _ :: rest => { st with elems := rest }
    | [] => if rooted then st else { st with dotdot := st.dotdot + 1 }
  else { st with elems := e :: st.elems }

/-- The elements `Clean` writes for a scan state, joined by `/`. -/
def renderClean (st : CleanState) : GoString :=
  joinSlash (List.replicate st.dotdot [46, 46] ++ st.elems.reverse)

/-- `filepath.Clean`. -/
def Clean (path : GoString) : GoString :=
  if path = [] then [46]
  else
    let rooted : Bool := decide (path.head? = some 47)
    let body := renderClean ((splitSlash path).foldl (cleanStep rooted) ⟨0, []⟩)
    if rooted then 47 :: body
    else if body = [] then [46] else body

/-- `filepath.Join` of two elements: leading empty elements are ignored, the
rest is joined by `/` and cleaned. -/
def Join (dir name : GoString) : GoString :=
  if dir ≠ [] then Clean (dir ++ 47 :: name)
  else if name ≠ [] then Clean name
  else []

/-- The path up to and including its last `/`. -/
def dirPart (path : GoString) : GoString :=
  (path.reverse.dropWhile (fun c => decide (c ≠ 47))).reverse

/-- `filepath.Dir`. -/
def Dir (path : GoString) : GoString := Clean (dirPart path)

/-- `filepath.Base`. -/
def Base (path : GoString) : GoString :=
  if path = [] then [46]
  else
    let stripped := path.reverse.dropWhile (fun c => decide (c = 47))
    let p := (stripped.takeWhile (fun c => decide (c ≠ 47))).reverse
    if p = [] then [47] else p

/-- The backwards scan of `filepath.Ext`: stop at a `/` (no extension) or at
the first `.` met (byte 46), which starts the extension. -/
def extScan : GoString → GoString → GoString
  | [], _ => []
  | c :: rest, acc =>
    if c = 47 then [] else if c = 46 then c :: acc else extScan rest (c :: acc)

/-- `filepath.Ext`. -/
def Ext (path : GoString) : GoString := extScan path.reverse []

/-- `strings.Replace(s, ":", ".", -1)`. -/
def replaceColons (s : GoString) : GoString := s.map (fun c => if c = 58 then 46 else c)

/-! ## `time` -/

/-- An instant: nanoseconds since 1970-01-01T00:00:00Z. -/
structure Time where
  unixNano : Int
  deriving DecidableEq, Repr

/-- A calendar date of the proleptic Gregorian calendar. -/
structure Date where
  year : Int
  month : Int
  day : Int
  deriving DecidableEq, Repr

/-- Day number since 0000-03-01 to 400-year cycle and day of the cycle. -/
def splitEra (z : Int) : Int × Int := (z / 146097, z % 146097)

/-- Day of a 400-year cycle to century and day of the century; the last
century of a cycle is a day longer. -/
def splitCentury (doe : Int) : Int × Int :=
  (min (doe / 36524) 3, doe - 36524 * min (doe / 36524) 3)

/-- Day of a century to 4-year cycle and day of that cycle. -/
def splitCycle (doc : Int) : Int × Int := (doc / 1461, doc % 1461)

/-- Day of a 4-year cycle to year and day of the year; the last year of a
cycle is a day longer. -/
def splitYear (r : Int) : Int × Int := (min (r / 365) 3, r - 365 * min (r / 365) 3)

/-- Day of a year that starts on March 1 to month (0 is March) and day of the
month (from 1). -/
def splitMonth (doy : Int) : Int × Int :=
  ((5 * doy + 2) / 153, doy - (153 * ((5 * doy + 2) / 153) + 2) / 5 + 1)

/-- The date of a day number (days since 1970-01-01), computed as package
`time` does: cut off 400-year cycles, then 100-year cycles, 4-year cycles and
years. The cycles are counted from 0000-03-01 so that a leap day ends its
cycle; January and February belong to the next calendar year. -/
def civilFromDays (days : Int) : Date :=
  let e := splitEra (days + 719468)
  let c := splitCentury e.2
  let q := splitCycle c.2
  let y := splitYear q.2
  let m := splitMonth y.2
  let year := 400 * e.1 + 100 * c.1 + 4 * q.1 + y.1
  { year := if m.1 < 10 then year else year + 1,
    month := if m.1 < 10 then m.1 + 3 else m.1 - 9,
    day := m.2 }

/-- `Time.Add` for a duration in nanoseconds (instants are unbounded here, so
the saturation at the ends of Go's range does not arise). -/
def Time.Add (t : Time) (d : Int) : Time := ⟨t.unixNano + d⟩

/-- Seconds since the epoch, rounded down. -/
def Time.unixSec (t : Time) : Int := t.unixNano / 1000000000

def Time.Nanosecond (t : Time) : Int := t.unixNano % 1000000000

/-- The UTC date of an instant. -/
def Time.Date (t : Time) : Date := civilFromDays (t.unixSec / 86400)

def Time.Hour (t : Time) : Int := t.unixSec % 86400 / 3600

def Time.Minute (t : Time) : Int := t.unixSec % 3600 / 60

def Time.Second (t : Time) : Int := t.unixSec % 60

/-- The low `w` decimal digits of `n` as ASCII, most significant first. -/
def fixedDigits : Nat → Nat → GoString
  | 0, _ => []
  | w + 1, n => fixedDigits w (n / 10) ++ [48 + n % 10]

/-- Decimal digits of `u`, padded with zeros to at least `width` digits. -/
def utod (u : Nat) (width : Nat) : GoString :=
  if u < 10 ^ width then fixedDigits width u
  else (Nat.toDigits 10 u).map Char.toNat

/-- The function `appendInt` of package `time`: a minus sign for a negative
number, then its digits padded with zeros to `width`. -/
def appendInt (x : Int) (width : Nat) : GoString :=
  if x < 0 then 45 :: utod (-x).toNat width else utod x.toNat width

/-- `t.Format(dateFormat)`, layout `2006-01-02`. -/
def formatDate (t : Time) : GoString :=
  appendInt t.Date.year 4 ++ [45] ++ appendInt t.Date.month 2 ++ [45] ++ appendInt t.Date.day 2

/-- `t.Format(fileTimeFormat)`, layout `2006-01-02T15:04:05.000000000Z`. -/
def formatFileTime (t : Time) : GoString :=
  formatDate t ++ [84] ++ appendInt t.Hour 2 ++ [58] ++ appendInt t.Minute 2 ++ [58]
    ++ appendInt t.Second 2 ++ [46] ++ fixedDigits 9 t.Nanosecond.toNat ++ [90]

/-- The constant `time.Hour` in nanoseconds. -/
def timeHour : Int := 3600000000000

/-- The duration `-time.Hour * time.Duration(hoursPerDay*days)`: an `int`
product converted to `int64` and multiplied in `int64`. -/
def keepDuration (days : Int) : Int := wrap64 (-timeHour * wrap64 (hoursPerDay * days))

/-! ## `int64(float64(x) * 0.8)` -/

/-- Number of binary digits of `n`, by halving at most `fuel` times. -/
def bitLenAux : Nat → Nat → Nat
  | 0, _ => 0
  | fuel + 1, n => if n = 0 then 0 else bitLenAux fuel (n / 2) + 1

/-- Number of binary digits of `n`. -/
def bitLen (n : Nat) : Nat := bitLenAux n n

/-- The integer nearest to `n / 2^k`, ties to the even one. -/
def roundShift (n k : Nat) : Nat :=
  let q := n / 2 ^ k
  let r := n % 2 ^ k
  if 2 * r < 2 ^ k then q
  else if 2 ^ k < 2 * r then q + 1
  else if q % 2 = 0 then q else q + 1

/-- `n` rounded to 53 significant bits (round to nearest even): the value of
`float64(n)`, which is again a natural number. -/
def toFloat64 (n : Nat) : Nat :=
  let k := bitLen n - 53
  roundShift n k * 2 ^ k

/-- The 53-bit significand of the `float64` constant `0.8`, whose value is
`7205759403792794 / 2^53`. -/
def significand08 : Nat := 7205759403792794

/-- For a natural number `x` that is a `float64`: the `float64` product
`x * 0.8` (the exact product rounded to 53 significant bits) truncated to an
integer. -/
def mul08Trunc (x : Nat) : Nat :=
  let n := x * significand08
  let k := bitLen n - 53
  roundShift n k * 2 ^ k / 2 ^ 53

/-- The Go expression `int64(float64(x) * 0.8)` for an `int64` value `x`. -/
def scale80 (x : Int) : Int :=
  if 0 ≤ x then (mul08Trunc (toFloat64 x.toNat) : Int)
  else -(mul08Trunc (toFloat64 (-x).toNat) : Int)

/-! ## The outside world -/

/-- What the rotation rules read from their environment.
`now` is `time.Now().UTC()`; `glob` is `filepath.Glob` (`none` for an error);
`stat f` is the size `os.Stat(f)` reports (`none` for an error);
`diskFree` and `diskTotal` are `GetDirOnDiskFreeSize` and
`GetDirOnDiskTotalSize` (`none` for an error). -/
structure Env where
  now : Time
  glob : GoString → Option (List GoString)
  stat : GoString → Option Nat
  diskFree : GoString → Option Int
  diskTotal : GoString → Option Int

/-! ## Rotation rules -/

/-- The struct `DailyRotateRule`. -/
structure DailyRotateRule where
  rotatedTime : GoString
  filename : GoString
  delimiter : GoString
  days : Int
  gzip : Bool
  deriving DecidableEq, Repr

/-- The struct `SizeLimitRotateRule`. -/
structure SizeLimitRotateRule extends DailyRotateRule where
  maxSize : Int
  maxBackups : Int
  deriving DecidableEq, Repr

/-- `getNowDate`. -/
def getNowDate (now : Time) : GoString := formatDate now

/-- `getNowDateInRFC3339Format`. -/
def getNowDateInRFC3339Format (now : Time) : GoString := formatFileTime now

/-- `DefaultRotateRule`, called at instant `now`. -/
def DefaultRotateRule (now : Time) (filename delimiter : GoString) (days : Int) (gzip : Bool) :
    DailyRotateRule :=
  { rotatedTime := getNowDate now, filename := filename, delimiter := delimiter,
    days := days, gzip := gzip }

/-- `DailyRotateRule.BackupFileName`, called at instant `now`. -/
def DailyRotateRule.BackupFileName (r : DailyRotateRule) (now : Time) : GoString :=
  r.filename ++ r.delimiter ++ getNowDate now

/-- The glob pattern of `DailyRotateRule.OutdatedFiles` (`*` is byte 42). -/
def DailyRotateRule.outdatedPattern (r : DailyRotateRule) : GoString :=
  if r.gzip then r.filename ++ r.delimiter ++ [42] ++ gzipExt
  else r.filename ++ r.delimiter ++ [42]

/-- The string `boundaryFile` of `DailyRotateRule.OutdatedFiles`. -/
def DailyRotateRule.boundaryFile (r : DailyRotateRule) (now : Time) : GoString :=
  r.filename ++ r.delimiter ++ formatDate (now.Add (keepDuration r.days))
    ++ (if r.gzip then gzipExt else [])

/-- `DailyRotateRule.OutdatedFiles`. -/
def DailyRotateRule.OutdatedFiles (r : DailyRotateRule) (env : Env) : List GoString :=
  if r.days ≤ 0 then []
  else
    match env.glob r.outdatedPattern with
    | none => []
    | some files => files.filter (fun file => strLt file (r.boundaryFile env.now))

/-- `NewSizeLimitRotateRule`, called at instant `now`; `maxSize` is converted
to `int64` and multiplied by `megaBytes` in `int64`. -/
def NewSizeLimitRotateRule (now : Time) (filename delimiter : GoString)
    (days maxSize maxBackups : Int) (gzip : Bool) : SizeLimitRotateRule :=
  { rotatedTime := getNowDateInRFC3339Format now, filename := filename,
    delimiter := delimiter, days := days, gzip := gzip,
    maxSize := wrap64 (maxSize * megaBytes), maxBackups := maxBackups }

/-- `SizeLimitRotateRule.parseFilename`: base name without extension, and the
extension. -/
def SizeLimitRotateRule.parseFilename (r : SizeLimitRotateRule) : GoString × GoString :=
  let logName := Base r.filename
  let ext := Ext r.filename
  (logName.take (logName.length - ext.length), ext)

/-- `SizeLimitRotateRule.BackupFileName`, called at instant `now`. -/
def SizeLimitRotateRule.BackupFileName (r : SizeLimitRotateRule) (now : Time) : GoString :=
  let dir := Dir r.filename
  let pe := r.parseFilename
  let timestamp := replaceColons (getNowDateInRFC3339Format now)
  Join dir (pe.1 ++ r.delimiter ++ timestamp ++ pe.2)

/-- `SizeLimitRotateRule.ShallRotate`. -/
def SizeLimitRotateRule.ShallRotate (r : SizeLimitRotateRule) (size : Int) : Bool :=
  decide (r.maxSize > 0 ∧ r.maxSize < size)

/-- The glob pattern of `SizeLimitRotateRule.OutdatedFiles`. -/
def SizeLimitRotateRule.outdatedPattern (r : SizeLimitRotateRule) : GoString :=
  let dir := Dir r.filename
  let pe := r.parseFilename
  if r.gzip then dir ++ [47] ++ pe.1 ++ r.delimiter ++ [42] ++ pe.2 ++ gzipExt
  else dir ++ [47] ++ pe.1 ++ r.delimiter ++ [42] ++ pe.2

/-- The string `boundaryFile` of `SizeLimitRotateRule.OutdatedFiles`. -/
def SizeLimitRotateRule.boundaryFile (r : SizeLimitRotateRule) (now : Time) : GoString :=
  let dir := Dir r.filename
  let pe := r.parseFilename
  let boundary := replaceColons (formatFileTime (now.Add (keepDuration r.days)))
  Join dir (pe.1 ++ r.delimiter ++ boundary ++ pe.2) ++ (if r.gzip then gzipExt else [])

/-- The statement `outdated[f] = Placeholder` on the key set of the map. -/
def markOutdated (outdated : List GoString) (f : GoString) : List GoString :=
  if f ∈ outdated then outdated else outdated ++ [f]

/-- The statement `outdated[f] = Placeholder` for every `f` of a list. -/
def markAll (outdated : List GoString) (fs : List GoString) : List GoString :=
  fs.foldl markOutdated outdated

/-- The loop that stats the files: returns `(totalSize, guessGzSize)`; a file
whose `Stat` fails is skipped. -/
def statLoop (env : Env) : List GoString → Int × Int → Int × Int
  | [], acc => acc
  | f :: rest, acc =>
    match env.stat f with
    | none => statLoop env rest acc
    | some sz =>
      statLoop env rest (wrap64 (acc.1 + (sz : Int)), if (sz : Int) > acc.2 then (sz : Int) else acc.2)

/-- The map lookup `fileSizes[f]`: the size recorded by the stat loop, and 0
for a file whose `Stat` failed. -/
def fileSizes (env : Env) (f : GoString) : Int :=
  match env.stat f with
  | none => 0
  | some sz => (sz : Int)

/-- The loop of the disk-pressure rule: mark files from the oldest on,
deducting their sizes, and stop as soon as the total is within the limit. -/
def pressureLoop (env : Env) (maxTotalSize : Int) :
    List GoString → List GoString → Int → List GoString
  | [], outdated, _ => outdated
  | f :: rest, outdated, totalSize =>
    let outdated1 := if f ∈ outdated then outdated else outdated ++ [f]
    let totalSize1 := if f ∈ outdated then totalSize else wrap64 (totalSize - fileSizes env f)
    if totalSize1 ≤ maxTotalSize then outdated1
    else pressureLoop env maxTotalSize rest outdated1 totalSize1

/-- The loop of the age rule: mark files until the first one that is not
before the boundary. -/
def ageLoop (boundaryFile : GoString) : List GoString → List GoString → List GoString
  | [], outdated => outdated
  | f :: rest, outdated =>
    if strGe f boundaryFile then outdated
    else ageLoop boundaryFile rest (markOutdated outdated f)

/-- Step 1 of `SizeLimitRotateRule.OutdatedFiles`, the count rule, on the
sorted glob result: returns the map `outdated` and the slice `files` that the
later steps work on. -/
def SizeLimitRotateRule.countRule (r : SizeLimitRotateRule) (sorted : List GoString) :
    List GoString × List GoString :=
  if r.maxBackups > 0 ∧ (sorted.length : Int) > r.maxBackups then
    (markAll [] (sorted.take ((sorted.length : Int) - r.maxBackups).toNat),
      sorted.drop ((sorted.length : Int) - r.maxBackups).toNat)
  else ([], sorted)

/-- The value `maxTotalSize` of step 2: 0.8 times the disk's total size, or,
when that cannot be read or is 0, 0.8 times `maxSize * maxBackups`. -/
def SizeLimitRotateRule.maxTotalSize (r : SizeLimitRotateRule) (env : Env) : Int :=
  match env.diskTotal (Dir r.filename) with
  | none => scale80 (wrap64 (r.maxSize * r.maxBackups))
  | some diskTotalSize =>
    if diskTotalSize = 0 then scale80 (wrap64 (r.maxSize * r.maxBackups))
    else scale80 diskTotalSize

/-- Step 2 of `SizeLimitRotateRule.OutdatedFiles`, the disk-pressure rule:
returns the map `outdated`. -/
def SizeLimitRotateRule.pressureRule (r : SizeLimitRotateRule) (env : Env)
    (files outdated : List GoString) : List GoString :=
  let sizes := statLoop env files (0, 0)
  let guessGzSize := sizes.2
  let probe : Bool := decide ((env.diskFree (Dir r.filename)).isSome ∧ files.length > 0)
  let totalSize :=
    if probe = true ∧ r.gzip = true ∧ guessGzSize > (env.diskFree (Dir r.filename)).getD 0
    then wrap64 (sizes.1 + wrap64 (guessGzSize * 2)) else sizes.1
  let freeSize := if probe = true then (env.diskFree (Dir r.filename)).getD 0 else maxInt64
  if r.maxSize > 0 ∧ r.maxBackups > 0 ∧
      (totalSize > r.maxTotalSize env ∨ freeSize < guessGzSize)
  then pressureLoop env (r.maxTotalSize env) files outdated totalSize
  else outdated

/-- Step 3 of `SizeLimitRotateRule.OutdatedFiles`, the age rule: returns the
map `outdated`. -/
def SizeLimitRotateRule.ageRule (r : SizeLimitRotateRule) (env : Env)
    (files outdated : List GoString) : List GoString :=
  if r.days > 0 then ageLoop (r.boundaryFile env.now) files outdated else outdated

/-- `SizeLimitRotateRule.OutdatedFiles`. The result is the key set of the map
`outdated`; Go returns the keys in an unspecified order, here they are in the
order of insertion. -/
def SizeLimitRotateRule.OutdatedFiles (r : SizeLimitRotateRule) (env : Env) : List GoString :=
  match env.glob r.outdatedPattern with
  | none => []
  | some globbed =>
    let step1 := r.countRule (sortStrings globbed)
    r.ageRule env step1.2 (r.pressureRule env step1.2 step1.1)

/-! ## Predicates used in the statements -/

/-- Ascending: no element is smaller than an earlier one. -/
def Ascending (l : List GoString) : Prop := l.Pairwise (fun a b => strLt b a = false)

/-- The layout of `fileTimeFormat` for given field values, the fields of the
time of day separated by the byte `sep`. -/
def fileStamp (sep : Nat) (year month day hour minute second nano : Nat) : GoString :=
  fixedDigits 4 year ++ 45 :: (fixedDigits 2 month ++ 45 :: (fixedDigits 2 day ++ 84 ::
    (fixedDigits 2 hour ++ sep :: (fixedDigits 2 minute ++ sep :: (fixedDigits 2 second ++ 46 ::
      (fixedDigits 9 nano ++ [90]))))))

/-! ## Example directories -/

/-- The instant 2026-11-01T00:00:00Z. -/
def exampleNow : Time := ⟨1793491200000000000⟩

/-- Four archives of `logs/app.log` under the size rule, oldest first. -/
def exampleArchives : List GoString :=
  [lit "logs/app-2026-10-01T00.00.00.000000000Z.log",
   lit "logs/app-2026-10-20T00.00.00.000000000Z.log",
   lit "logs/app-2026-10-30T00.00.00.000000000Z.log",
   lit "logs/app-2026-10-31T12.00.00.000000000Z.log"]

/-- A directory holding `exampleArchives`, 100 bytes each, on a disk of 10^10
bytes with 10^9 bytes free. -/
def exampleEnv : Env :=
  { now := exampleNow
    glob := fun p => if p = lit "logs/app-*.log" then some exampleArchives else some []
    stat := fun f => if f ∈ exampleArchives then some 100 else none
    diskFree := fun _ => some 1000000000
    diskTotal := fun _ => some 10000000000 }

/-- The size rule of `logs/app.log` with delimiter `-`: no age limit, 1 MiB,
3 backups, no compression. -/
def exampleSizeRule : SizeLimitRotateRule :=
  NewSizeLimitRotateRule exampleNow (lit "logs/app.log") (lit "-") 0 1 3 false

/-- A directory for the daily rule of `app.log` with delimiter `-`. -/
def exampleDailyEnv : Env :=
  { now := exampleNow
    glob := fun p =>
      if p = lit "app.log-*" then
        some [lit "app.log-2026-10-27", lit "app.log-2026-10-29", lit "app.log-2026-10-31"]
      else some []
    stat := fun _ => some 100
    diskFree := fun _ => some 1000000000
    diskTotal := fun _ => some 10000000000 }

/-- A directory that holds only the active file `app.log`; the pattern
`app.log*` of a rule with an empty delimiter matches it. -/
def emptyDelimiterEnv : Env :=
  { now := exampleNow
    glob := fun p => if p = lit "app.log*" then some [lit "app.log"] else some []
    stat := fun _ => some 100
    diskFree := fun _ => some 1000000000
    diskTotal := fun _ => some 10000000000 }


/-! ## `ShallRotate` and `MarkRotated` of the daily rule -/

/-- `DailyRotateRule.MarkRotated`, called at instant `now`. -/
def DailyRotateRule.MarkRotated (r : DailyRotateRule) (now : Time) : DailyRotateRule :=
  { r with rotatedTime := getNowDate now }

/-- `DailyRotateRule.ShallRotate`, called at instant `now`; the size argument
is not used. -/
def DailyRotateRule.ShallRotate (r : DailyRotateRule) (now : Time) (_size : Int) : Bool :=
  decide (r.rotatedTime.length > 0 ∧ getNowDate now ≠ r.rotatedTime)

/-- A daily rule of `app.log` whose `rotatedTime` is empty. -/
def unmarkedDailyRule : DailyRotateRule :=
  { rotatedTime := [], filename := lit "app.log", delimiter := lit "-", days := 0, gzip := false }

/-! ## `gzipFile` -/

/-- The calls `gzipFile` makes on its `fileSystem` and on the output file. -/
inductive FsOp where
  | Open (name : GoString)
  | Create (name : GoString)
  | Chmod (name : GoString) (mode : Nat)
  | Copy
  | CloseGzipWriter
  | CloseOut
  | CloseIn
  | Remove (name : GoString)
  deriving DecidableEq, Repr

/-- The outcome of every call `gzipFile` can make (`none` is success). -/
structure GzipOutcomes where
  openErr : Option GoError
  createErr : Option GoError
  chmodPreErr : Option GoError
  copyErr : Option GoError
  closeGzipWriterErr : Option GoError
  closeOutErr : Option GoError
  closeInErr : Option GoError
  removeErr : Option GoError
  deriving DecidableEq, Repr

/-- The file mode `preGzipFileMode` (0o600). -/
def preGzipFileMode : Nat := 384

/-- The file mode `gzipFileMode` (0o400). -/
def gzipFileMode : Nat := 256

/-- The first deferred function of `gzipFile`: close the source, and remove
it when the named result `err` is `nil`. -/
def gzipDeferIn (file : GoString) (o : GzipOutcomes) (st : List FsOp × Option GoError) :
    List FsOp × Option GoError :=
  match st.2 with
  | none => (st.1 ++ [FsOp.CloseIn, FsOp.Remove file], o.removeErr)
  | some e => (st.1 ++ [FsOp.CloseIn], some e)

/-- The second deferred function of `gzipFile`: close the output file and keep
its error when `err` is `nil`. -/
def gzipDeferOut (o : GzipOutcomes) (st : List FsOp × Option GoError) :
    List FsOp × Option GoError :=
  match st.2 with
  | none => (st.1 ++ [FsOp.CloseOut], o.closeOutErr)
  | some e => (st.1 ++ [FsOp.CloseOut], some e)

/-- `gzipFile(file, fsys)`: the calls made, in order, and the error returned.
Deferred functions run last in, first out. A failure of the first `Chmod` is
only logged and its error is overwritten by the result of `Copy`. -/
def gzipFile (file : GoString) (o : GzipOutcomes) : List FsOp × Option GoError :=
  match o.openErr with
  | some e => ([FsOp.Open file], some e)
  | none =>
    match o.createErr with
    | some e => gzipDeferIn file o ([FsOp.Open file, FsOp.Create (file ++ gzipExt)], some e)
    | none =>
      let ops := [FsOp.Open file, FsOp.Create (file ++ gzipExt),
        FsOp.Chmod (file ++ gzipExt) preGzipFileMode, FsOp.Copy]
      match o.copyErr with
      | some e => gzipDeferIn file o (gzipDeferOut o (ops, some e))
      | none =>
        gzipDeferIn file o (gzipDeferOut o
          (ops ++ [FsOp.Chmod (file ++ gzipExt) gzipFileMode, FsOp.CloseGzipWriter],
            o.closeGzipWriterErr))

/-- Every step of a compression succeeded: `Open`, `Create`, `Copy`, closing
the gzip writer and closing the output file. -/
abbrev GzipOutcomes.stepsOk (o : GzipOutcomes) : Prop :=
  o.openErr = none ∧ o.createErr = none ∧ o.copyErr = none ∧
    o.closeGzipWriterErr = none ∧ o.closeOutErr = none

/-- Outcomes in which only the copy fails. -/
def copyFails : GzipOutcomes :=
  { openErr := none, createErr := none, chmodPreErr := none,
    copyErr := some (GoError.ioError (lit "ENOSPC")), closeGzipWriterErr := none,
    closeOutErr := none, closeInErr := none, removeErr := none }


/-! ## Levels (`internal/vars.go`) and the level maps (`glog.go`) -/

def TraceLevel : Nat := 0

def DebugLevel : Nat := 1

def InfoLevel : Nat := 2

def WarnLevel : Nat := 3

def ErrorLevel : Nat := 4

/-- The constant `DisableLevel = 0xff`. -/
def DisableLevel : Nat := 255

/-- The string `"INF"`. -/
def LevelInfo : GoString := [73, 78, 70]

/-- The string `"ERR"`. -/
def LevelError : GoString := [69, 82, 82]

/-- The string `"WAR"`. -/
def LevelWarn : GoString := [87, 65, 82]

/-- The string `"DEB"`. -/
def LevelDebug : GoString := [68, 69, 66]

/-- The string `"TRA"`. -/
def LevelTrace : GoString := [84, 82, 65]

/-- The string `"OFF"`. -/
def LevelDisable : GoString := [79, 70, 70]

/-- The string `"access"`. -/
def levelAccessRecord : GoString := [97, 99, 99, 101, 115, 115]

/-- The string `"size"`. -/
def sizeRotationRule : GoString := [115, 105, 122, 101]

/-- The string `"manager.log"`. -/
def managerFilename : GoString := lit "manager.log"

/-- The string `"server.log"`. -/
def serverFilename : GoString := lit "server.log"

/-- The string `"file"`. -/
def fileMode : GoString := [102, 105, 108, 101]

/-- The string `"-"`. -/
def backupFileDelimiter : GoString := [45]

/-- The error `ErrLogPathNotSet`. -/
def ErrLogPathNotSet : GoError := GoError.errorString (lit "log path must be set")

/-- The rune `utf8.RuneError`, U+FFFD. -/
def RuneError : Nat := 65533

/-- The bounds `utf8` accepts for the second byte after the first byte `b0` of
an encoding of three or four bytes. -/
def acceptRange (b0 : Nat) : Nat × Nat :=
  if b0 = 224 then (160, 191)
  else if b0 = 237 then (128, 159)
  else if b0 = 240 then (144, 191)
  else if b0 = 244 then (128, 143)
  else (128, 191)

/-- `utf8.DecodeRuneInString`: the rune at the head of the string and its
width in bytes; an encoding that is invalid or cut short gives `RuneError` and
width 1, the empty string `RuneError` and width 0. -/
def DecodeRune : GoString → Nat × Nat
  | [] => (RuneError, 0)
  | b0 :: rest =>
    if b0 < 128 then (b0, 1)
    else if 194 ≤ b0 ∧ b0 ≤ 223 then
      match rest with
      | b1 :: _ =>
        if 128 ≤ b1 ∧ b1 ≤ 191 then (b0 % 32 * 64 + b1 % 64, 2) else (RuneError, 1)
      | _ => (RuneError, 1)
    else if 224 ≤ b0 ∧ b0 ≤ 239 then
      match rest with
      | b1 :: b2 :: _ =>
        if (acceptRange b0).1 ≤ b1 ∧ b1 ≤ (acceptRange b0).2 ∧ 128 ≤ b2 ∧ b2 ≤ 191 then
          (b0 % 16 * 4096 + b1 % 64 * 64 + b2 % 64, 3)
        else (RuneError, 1)
      | _ => (RuneError, 1)
    else if 240 ≤ b0 ∧ b0 ≤ 244 then
      match rest with
      | b1 :: b2 :: b3 :: _ =>
        if (acceptRange b0).1 ≤ b1 ∧ b1 ≤ (acceptRange b0).2 ∧ 128 ≤ b2 ∧ b2 ≤ 191 ∧
            128 ≤ b3 ∧ b3 ≤ 191 then
          (b0 % 8 * 262144 + b1 % 64 * 4096 + b2 % 64 * 64 + b3 % 64, 4)
        else (RuneError, 1)
      | _ => (RuneError, 1)
    else (RuneError, 1)

/-- `utf8.AppendRune`: the UTF-8 encoding of a rune; a surrogate or a value
above U+10FFFF is encoded as `RuneError`. -/
def EncodeRune (r : Nat) : GoString :=
  if r < 128 then [r]
  else if r < 2048 then [192 + r / 64, 128 + r % 64]
  else if 1114111 < r ∨ (55296 ≤ r ∧ r ≤ 57343) then [239, 191, 189]
  else if r < 65536 then [224 + r / 4096, 128 + r / 64 % 64, 128 + r % 64]
  else [240 + r / 262144, 128 + r / 4096 % 64, 128 + r / 64 % 64, 128 + r % 64]

/-- The table `unicode.CaseRanges` for the mapping to upper case, outside
ASCII, as entries `(lo, hi, stride, delta)`: a rune `lo + k * stride` up to `hi`
maps to itself plus `delta`. These are the simple upper-case mappings of the
Unicode Character Database, version 14.0.0. -/
def upperCaseRanges : List (Nat × Nat × Nat × Int) :=
  [(181, 181, 1, 743), (224, 246, 1, -32), (248, 254, 1, -32), (255, 255, 1, 121),
   (257, 303, 2, -1), (305, 305, 1, -232), (307, 311, 2, -1), (314, 328, 2, -1),
   (331, 375, 2, -1), (378, 382, 2, -1), (383, 383, 1, -300), (384, 384, 1, 195),
   (387, 389, 2, -1), (392, 392, 1, -1), (396, 396, 1, -1), (402, 402, 1, -1), (405, 405, 1, 97),
   (409, 409, 1, -1), (410, 410, 1, 163), (414, 414, 1, 130), (417, 421, 2, -1),
   (424, 424, 1, -1), (429, 429, 1, -1), (432, 432, 1, -1), (436, 438, 2, -1), (441, 441, 1, -1),
   (445, 445, 1, -1), (447, 447, 1, 56), (453, 453, 1, -1), (454, 454, 1, -2), (456, 456, 1, -1),
   (457, 457, 1, -2), (459, 459, 1, -1), (460, 460, 1, -2), (462, 476, 2, -1),
   (477, 477, 1, -79), (479, 495, 2, -1), (498, 498, 1, -1), (499, 499, 1, -2),
   (501, 501, 1, -1), (505, 543, 2, -1), (547, 563, 2, -1), (572, 572, 1, -1),
   (575, 576, 1, 10815), (578, 578, 1, -1), (583, 591, 2, -1), (592, 592, 1, 10783),
   (593, 593, 1, 10780), (594, 594, 1, 10782), (595, 595, 1, -210), (596, 596, 1, -206),
   (598, 599, 1, -205), (601, 601, 1, -202), (603, 603, 1, -203), (604, 604, 1, 42319),
   (608, 608, 1, -205), (609, 609, 1, 42315), (611, 611, 1, -207), (613, 613, 1, 42280),
   (614, 614, 1, 42308), (616, 616, 1, -209), (617, 617, 1, -211), (618, 618, 1, 42308),
   (619, 619, 1, 10743), (620, 620, 1, 42305), (623, 623, 1, -211), (625, 625, 1, 10749),
   (626, 626, 1, -213), (629, 629, 1, -214), (637, 637, 1, 10727), (640, 640, 1, -218),
   (642, 642, 1, 42307), (643, 643, 1, -218), (647, 647, 1, 42282), (648, 648, 1, -218),
   (649, 649, 1, -69), (650, 651, 1, -217), (652, 652, 1, -71), (658, 658, 1, -219),
   (669, 669, 1, 42261), (670, 670, 1, 42258), (837, 837, 1, 84), (881, 883, 2, -1),
   (887, 887, 1, -1), (891, 893, 1, 130), (940, 940, 1, -38), (941, 943, 1, -37),
   (945, 961, 1, -32), (962, 962, 1, -31), (963, 971, 1, -32), (972, 972, 1, -64),
   (973, 974, 1, -63), (976, 976, 1, -62), (977, 977, 1, -57), (981, 981, 1, -47),
   (982, 982, 1, -54), (983, 983, 1, -8), (985, 1007, 2, -1), (1008, 1008, 1, -86),
   (1009, 1009, 1, -80), (1010, 1010, 1, 7), (1011, 1011, 1, -116), (1013, 1013, 1, -96),
   (1016, 1016, 1, -1), (1019, 1019, 1, -1), (1072, 1103, 1, -32), (1104, 1119, 1, -80),
   (1121, 1153, 2, -1), (1163, 1215, 2, -1), (1218, 1230, 2, -1), (1231, 1231, 1, -15),
   (1233, 1327, 2, -1), (1377, 1414, 1, -48), (4304, 4346, 1, 3008), (4349, 4351, 1, 3008),
   (5112, 5117, 1, -8), (7296, 7296, 1, -6254), (7297, 7297, 1, -6253), (7298, 7298, 1, -6244),
   (7299, 7300, 1, -6242), (7301, 7301, 1, -6243), (7302, 7302, 1, -6236),
   (7303, 7303, 1, -6181), (7304, 7304, 1, 35266), (7545, 7545, 1, 35332), (7549, 7549, 1, 3814),
   (7566, 7566, 1, 35384), (7681, 7829, 2, -1), (7835, 7835, 1, -59), (7841, 7935, 2, -1),
   (7936, 7943, 1, 8), (7952, 7957, 1, 8), (7968, 7975, 1, 8), (7984, 7991, 1, 8),
   (8000, 8005, 1, 8), (8017, 8023, 2, 8), (8032, 8039, 1, 8), (8048, 8049, 1, 74),
   (8050, 8053, 1, 86), (8054, 8055, 1, 100), (8056, 8057, 1, 128), (8058, 8059, 1, 112),
   (8060, 8061, 1, 126), (8064, 8071, 1, 8), (8080, 8087, 1, 8), (8096, 8103, 1, 8),
   (8112, 8113, 1, 8), (8115, 8115, 1, 9), (8126, 8126, 1, -7205), (8131, 8131, 1, 9),
   (8144, 8145, 1, 8), (8160, 8161, 1, 8), (8165, 8165, 1, 7), (8179, 8179, 1, 9),
   (8526, 8526, 1, -28), (8560, 8575, 1, -16), (8580, 8580, 1, -1), (9424, 9449, 1, -26),
   (11312, 11359, 1, -48), (11361, 11361, 1, -1), (11365, 11365, 1, -10795),
   (11366, 11366, 1, -10792), (11368, 11372, 2, -1), (11379, 11379, 1, -1),
   (11382, 11382, 1, -1), (11393, 11491, 2, -1), (11500, 11502, 2, -1), (11507, 11507, 1, -1),
   (11520, 11557, 1, -7264), (11559, 11559, 1, -7264), (11565, 11565, 1, -7264),
   (42561, 42605, 2, -1), (42625, 42651, 2, -1), (42787, 42799, 2, -1), (42803, 42863, 2, -1),
   (42874, 42876, 2, -1), (42879, 42887, 2, -1), (42892, 42892, 1, -1), (42897, 42899, 2, -1),
   (42900, 42900, 1, 48), (42903, 42921, 2, -1), (42933, 42947, 2, -1), (42952, 42954, 2, -1),
   (42961, 42961, 1, -1), (42967, 42969, 2, -1), (42998, 42998, 1, -1), (43859, 43859, 1, -928),
   (43888, 43967, 1, -38864), (65345, 65370, 1, -32), (66600, 66639, 1, -40),
   (66776, 66811, 1, -40), (66967, 67003, 2, -39), (66968, 66977, 1, -39),
   (66980, 66993, 1, -39), (66996, 67001, 1, -39), (67004, 67004, 1, -39),
   (68800, 68850, 1, -64), (71872, 71903, 1, -32), (93792, 93823, 1, -32),
   (125218, 125251, 1, -34)]

/-- `unicode.ToUpper`: in ASCII the letters `a` to `z` become `A` to `Z`;
outside ASCII the rune is looked up in the case ranges. -/
def unicodeToUpper (r : Nat) : Nat :=
  if r ≤ 127 then (if 97 ≤ r ∧ r ≤ 122 then r - 32 else r)
  else
    match upperCaseRanges.find?
      (fun e => decide (e.1 ≤ r ∧ r ≤ e.2.1 ∧ (r - e.1) % e.2.2.1 = 0)) with
    | some e => ((r : Int) + e.2.2.2).toNat
    | none => r

/-- `strings.Map(mapping, s)` for a mapping that drops no rune: the runes of
`s` are decoded one after the other, a byte that starts no valid encoding
counting as `RuneError`, and the mapped runes are encoded. `fuel` bounds the
number of runes (the length of `s` is enough). -/
def mapRunes (mapping : Nat → Nat) : Nat → GoString → GoString
  | 0, _ => []
  | _ + 1, [] => []
  | fuel + 1, b :: rest =>
    EncodeRune (mapping (DecodeRune (b :: rest)).1)
      ++ mapRunes mapping fuel ((b :: rest).drop (DecodeRune (b :: rest)).2)

/-- `strings.ToUpper`: a string of ASCII bytes takes the fast path, in which
the letters `a` to `z` become `A` to `Z`; any other string is mapped rune by
rune with `unicode.ToUpper`. -/
def ToUpper (s : GoString) : GoString :=
  if s.all (fun c => decide (c < 128)) = true then
    s.map (fun c => if 97 ≤ c ∧ c ≤ 122 then c - 32 else c)
  else mapRunes unicodeToUpper s.length s

/-- The map `levelMap`: level name to level. -/
def levelMap (name : GoString) : Option Nat :=
  if name = LevelTrace then some TraceLevel
  else if name = LevelDebug then some DebugLevel
  else if name = LevelInfo then some InfoLevel
  else if name = LevelWarn then some WarnLevel
  else if name = LevelError then some ErrorLevel
  else if name = LevelDisable then some DisableLevel
  else none

/-- The map `levelStrMap`: level to level name. -/
def levelStrMap (level : Nat) : Option GoString :=
  if level = TraceLevel then some LevelTrace
  else if level = DebugLevel then some LevelDebug
  else if level = InfoLevel then some LevelInfo
  else if level = WarnLevel then some LevelWarn
  else if level = ErrorLevel then some LevelError
  else if level = DisableLevel then some LevelDisable
  else none

/-! ## Writers (`internal/writer.go`, `internal/color_console_writer.go`) -/

/-- A value of the interface `RotateRule`. -/
inductive RotateRule where
  | daily (r : DailyRotateRule)
  | sizeLimit (r : SizeLimitRotateRule)
  deriving DecidableEq, Repr

/-- The `keepDays` of a rule. -/
def RotateRule.days : RotateRule → Int
  | RotateRule.daily r => r.days
  | RotateRule.sizeLimit r => r.days

/-- `OutdatedFiles` of a rule. -/
def RotateRule.OutdatedFiles : RotateRule → Env → List GoString
  | RotateRule.daily r, env => r.OutdatedFiles env
  | RotateRule.sizeLimit r, env => r.OutdatedFiles env

/-- The `io.WriteCloser` a writer writes to: a `RotateLogger` made by
`NewLogger(filename, rule, compress)`, or the log writer on standard output. -/
inductive Dest where
  | rotateLogger (filename : GoString) (rule : RotateRule) (compress : Bool)
  | stdout
  deriving DecidableEq, Repr

/-- The implementations of the interface `Writer`. A `comboWriter` is only
ever built by `AddWriter`, with two members. -/
inductive Writer where
  | empty
  | concrete (serverLog managerLog : Dest)
  | colorConsole (outLog : Dest)
  | combo (first second : Writer)
  deriving DecidableEq, Repr

/-- A value of type `any` handed to a writer, by the case of the type switch
it takes: a string, an `error` (with the result of `Error()`), a
`fmt.Stringer` (with the result of `String()`), or another value (with the
bytes `json.Encoder.Encode` writes for it). -/
inductive Payload where
  | str (v : GoString)
  | err (msg : GoString)
  | stringer (text : GoString)
  | other (json : GoString)
  deriving DecidableEq, Repr

/-- What a log call reads from outside: the string `getTimestamp()` returns,
whether standard output is a terminal, and the colouring of a level name by
package `color`. -/
structure Ctx where
  timestamp : GoString
  isColorSupported : Bool
  paint : GoString → GoString

/-- The common head of `formatPlainText` and `formatPlainValue`: the level in
brackets unless it is empty or the access level, then the time stamp and a
space. -/
def formatHead (ts level : GoString) : GoString :=
  (if level ≠ [] ∧ level ≠ levelAccessRecord then [91] ++ level ++ [93] ++ [32] else [])
    ++ ts ++ [32]

/-- `formatPlainText(level, msg)` with the time stamp `ts`. -/
def formatPlainText (ts level msg : GoString) : GoString :=
  formatHead ts level ++ msg ++ [10]

/-- `formatPlainValue(level, val)` with the time stamp `ts`, `json` being what
the JSON encoder writes. -/
def formatPlainValue (ts level json : GoString) : GoString :=
  formatHead ts level ++ json ++ [10]

/-- `GetOutputStringFormatted(level, val)`. -/
def GetOutputStringFormatted (ts level : GoString) : Payload → GoString
  | Payload.str v => formatPlainText ts level v
  | Payload.err msg => formatPlainText ts level msg
  | Payload.stringer text => formatPlainText ts level text
  | Payload.other json => formatPlainValue ts level json

/-- `writePlainAny(writer, level, val)`: the bytes handed to `writer.Write`. -/
def writePlainAny (ts level : GoString) : Payload → GoString
  | Payload.str v => formatPlainText ts level v
  | Payload.err msg => formatPlainText ts level msg
  | Payload.stringer text => formatPlainText ts level text
  | Payload.other json => formatPlainValue ts level json

/-- The truncation step of `output`: only a string is cut, to its first
`maxLen` bytes, when `maxLen > 0` and the string is longer. -/
def truncatePayload (maxLen : Nat) : Payload → Payload
  | Payload.str v => if maxLen > 0 ∧ v.length > maxLen then Payload.str (v.take maxLen)
      else Payload.str v
  | val => val

/-- `output(writer, level, val)`: the bytes handed to `writer.Write`;
`maxLen` is the value of `maxContentLength`. -/
def output (maxLen : Nat) (ts level : GoString) (val : Payload) : GoString :=
  writePlainAny ts level (truncatePayload maxLen val)

/-- The methods `Trace`, `Debug`, `Info`, `Warn` and `Error` of a writer, for
the level name `level` of the method: the writes made, as pairs of
destination and bytes. The colour console paints the level name when standard
output is a terminal. -/
def Writer.leveled (ctx : Ctx) (maxLen : Nat) (level : GoString) (v : Payload) :
    Writer → List (Dest × GoString)
  | Writer.empty => []
  | Writer.concrete serverLog _ => [(serverLog, output maxLen ctx.timestamp level v)]
  | Writer.colorConsole outLog =>
    [(outLog, output maxLen ctx.timestamp
      (if ctx.isColorSupported then ctx.paint level else level) v)]
  | Writer.combo first second =>
    Writer.leveled ctx maxLen level v first ++ Writer.leveled ctx maxLen level v second

def Writer.Trace (w : Writer) (ctx : Ctx) (maxLen : Nat) (v : Payload) : List (Dest × GoString) :=
  Writer.leveled ctx maxLen LevelTrace v w

def Writer.Debug (w : Writer) (ctx : Ctx) (maxLen : Nat) (v : Payload) : List (Dest × GoString) :=
  Writer.leveled ctx maxLen LevelDebug v w

def Writer.Info (w : Writer) (ctx : Ctx) (maxLen : Nat) (v : Payload) : List (Dest × GoString) :=
  Writer.leveled ctx maxLen LevelInfo v w

def Writer.Warn (w : Writer) (ctx : Ctx) (maxLen : Nat) (v : Payload) : List (Dest × GoString) :=
  Writer.leveled ctx maxLen LevelWarn v w

def Writer.Error (w : Writer) (ctx : Ctx) (maxLen : Nat) (v : Payload) : List (Dest × GoString) :=
  Writer.leveled ctx maxLen LevelError v w

/-- The method `AccessRecord` of a writer. -/
def Writer.AccessRecord (ctx : Ctx) (maxLen : Nat) (v : Payload) :
    Writer → List (Dest × GoString)
  | Writer.empty => []
  | Writer.concrete _ managerLog =>
    [(managerLog, output maxLen ctx.timestamp levelAccessRecord v)]
  | Writer.colorConsole outLog => [(outLog, output maxLen ctx.timestamp levelAccessRecord v)]
  | Writer.combo first second =>
    Writer.AccessRecord ctx maxLen v first ++ Writer.AccessRecord ctx maxLen v second

/-- The method `WriteRawString` of a writer. -/
def Writer.WriteRawString (v : GoString) : Writer → List (Dest × GoString)
  | Writer.empty => []
  | Writer.concrete serverLog _ => [(serverLog, v)]
  | Writer.colorConsole outLog => [(outLog, v)]
  | Writer.combo first second =>
    Writer.WriteRawString v first ++ Writer.WriteRawString v second


/-! ## The process-wide state (`internal/logs.go`, `glog.go`, `elog.go`) -/

/-- The struct `logOptions`. -/
structure logOptions where
  gzipEnabled : Bool
  keepDays : Int
  maxBackups : Int
  maxSize : Int
  rotationRule : GoString
  deriving DecidableEq, Repr

/-- The struct `internal.LogConf`. -/
structure LogConf where
  ServiceName : GoString
  Mode : GoString
  ServerLogDir : GoString
  ManagerLogDir : GoString
  Level : GoString
  MaxContentLength : Nat
  Compress : Bool
  KeepDays : Int
  MaxBackups : Int
  MaxSize : Int
  Rotation : GoString
  ColorConsole : Bool
  deriving DecidableEq, Repr

/-- The struct `Config` of the public package. -/
structure Config where
  ServiceName : GoString
  ServerLogDir : GoString
  ManagerLogDir : GoString
  MaxBackups : Int
  MaxSize : Int
  KeepDays : Int
  Level : GoString
  Compress : Bool
  Rotation : GoString
  Mode : GoString
  ToConsole : Bool
  ColorConsole : Bool
  deriving DecidableEq, Repr

/-- The struct `ELogItem`. -/
structure ELogItem where
  Level : Nat
  Content : GoString
  deriving DecidableEq, Repr

/-- An armed elevation timer: the callback given to `SetOpenTime`, if any
(callbacks are told apart by a number). -/
structure Timer where
  callback : Option Nat
  deriving DecidableEq, Repr

/-- The package-level variables of `internal` (`logLevel`, `maxContentLength`,
`options`, `writer`, `setupOnce`) and of the public package
(`defaultLogLevel`, `openTimer`, `currentOpenTime`, `eLogItems`), together with
two records of what happened: `written`, the calls of `Write` on the
destinations, and `callbacks`, the calls of elevation callbacks with their
argument. -/
structure LogState where
  logLevel : Nat
  maxContentLength : Nat
  options : logOptions
  writer : Option Writer
  setupOnce : Bool
  defaultLogLevel : GoString
  openTimer : Option Timer
  currentOpenTime : Int
  eLogItems : List ELogItem
  written : List (Dest × GoString)
  callbacks : List (Nat × GoString)
  deriving DecidableEq, Repr

/-- The state of a fresh process: every variable has its declared initial
value (`logLevel` and the others have none, so they are zero;
`defaultLogLevel` is `"TRA"`). -/
def freshState : LogState :=
  { logLevel := 0, maxContentLength := 0,
    options :=
      { gzipEnabled := false, keepDays := 0, maxBackups := 0, maxSize := 0, rotationRule := [] },
    writer := none, setupOnce := false, defaultLogLevel := LevelTrace, openTimer := none,
    currentOpenTime := 0, eLogItems := [], written := [], callbacks := [] }

/-- `SetLevel`. -/
def SetLevel (s : LogState) (level : Nat) : LogState := { s with logLevel := level }

/-- `GetLevel`. -/
def GetLevel (s : LogState) : Nat := s.logLevel

/-- `shallLog`. -/
def shallLog (s : LogState) (level : Nat) : Bool := decide (s.logLevel ≤ level)

/-- `SetWriter`: the writer is stored unless the level is `DisableLevel`. -/
def SetWriter (s : LogState) (w : Writer) : LogState :=
  if s.logLevel ≠ DisableLevel then { s with writer := some w } else s

/-- `getWriter`: the stored writer; when there is none, the empty writer is
stored and returned. -/
def getWriter (s : LogState) : LogState × Writer :=
  match s.writer with
  | some w => (s, w)
  | none => ({ s with writer := some Writer.empty }, Writer.empty)

/-- `AddWriter`: `Reset` swaps the stored writer out, then `SetWriter` stores
the new writer, combined with the old one if there was one. -/
def AddWriter (s : LogState) (w : Writer) : LogState :=
  match s.writer with
  | none => SetWriter { s with writer := none } w
  | some ow => SetWriter { s with writer := none } (Writer.combo ow w)

/-- `setupLogLevel`: a switch on the upper-cased `Level`; no case matches an
unknown or empty level. -/
def setupLogLevel (s : LogState) (c : LogConf) : LogState :=
  if ToUpper c.Level = LevelTrace then SetLevel s TraceLevel
  else if ToUpper c.Level = LevelDebug then SetLevel s DebugLevel
  else if ToUpper c.Level = LevelInfo then SetLevel s InfoLevel
  else if ToUpper c.Level = LevelWarn then SetLevel s WarnLevel
  else if ToUpper c.Level = LevelError then SetLevel s ErrorLevel
  else if ToUpper c.Level = LevelDisable then SetLevel s DisableLevel
  else s

/-- `createOutput(path)` at instant `now`: the rule is built from the global
`options`; `newLoggerErr` is the outcome of `NewLogger` for a path. -/
def createOutput (s : LogState) (now : Time) (newLoggerErr : GoString → Option GoError)
    (path : GoString) : Except GoError Dest :=
  if path.length = 0 then Except.error ErrLogPathNotSet
  else
    let rule :=
      if s.options.rotationRule = sizeRotationRule then
        RotateRule.sizeLimit (NewSizeLimitRotateRule now path backupFileDelimiter
          s.options.keepDays s.options.maxSize s.options.maxBackups s.options.gzipEnabled)
      else
        RotateRule.daily (DefaultRotateRule now path backupFileDelimiter s.options.keepDays
          s.options.gzipEnabled)
    match newLoggerErr path with
    | some e => Except.error e
    | none => Except.ok (Dest.rotateLogger path rule s.options.gzipEnabled)

/-- The options `newFileWriter` collects and `handleOptions` applies to the
global `options`. -/
def applyFileOptions (o : logOptions) (c : LogConf) : logOptions :=
  let o1 := if c.Compress then { o with gzipEnabled := true } else o
  let o2 := if c.KeepDays > 0 then { o1 with keepDays := c.KeepDays } else o1
  let o3 := if c.MaxBackups > 0 then { o2 with maxBackups := c.MaxBackups } else o2
  let o4 := if c.MaxSize > 0 then { o3 with maxSize := c.MaxSize } else o3
  { o4 with rotationRule := c.Rotation }

/-- `newFileWriter`. -/
def newFileWriter (s : LogState) (c : LogConf) (now : Time)
    (newLoggerErr : GoString → Option GoError) : LogState × Except GoError Writer :=
  if c.ServerLogDir.length = 0 ∨ c.ManagerLogDir.length = 0 then (s, Except.error ErrLogPathNotSet)
  else
    let managerFile := Join c.ManagerLogDir (c.ServiceName ++ [95] ++ managerFilename)
    let serverFile := Join c.ServerLogDir (c.ServiceName ++ [95] ++ serverFilename)
    let s1 := setupLogLevel { s with options := applyFileOptions s.options c } c
    match createOutput s1 now newLoggerErr serverFile with
    | Except.error e => (s1, Except.error e)
    | Except.ok serverLog =>
      match createOutput s1 now newLoggerErr managerFile with
      | Except.error e => (s1, Except.error e)
      | Except.ok managerLog => (s1, Except.ok (Writer.concrete serverLog managerLog))

/-- `setupWithFiles`. -/
def setupWithFiles (s : LogState) (c : LogConf) (now : Time)
    (newLoggerErr : GoString → Option GoError) : LogState × Option GoError :=
  match newFileWriter s c now newLoggerErr with
  | (s1, Except.error e) => (s1, some e)
  | (s1, Except.ok w) => (SetWriter s1 w, none)

/-- `setupWithConsole`. -/
def setupWithConsole (s : LogState) (c : LogConf) : LogState :=
  if c.ColorConsole then SetWriter s (Writer.colorConsole Dest.stdout)
  else SetWriter s (Writer.concrete Dest.stdout Dest.stdout)

/-- `SetUp`: the body runs once per process. -/
def SetUp (s : LogState) (c : LogConf) (now : Time)
    (newLoggerErr : GoString → Option GoError) : LogState × Option GoError :=
  if s.setupOnce then (s, none)
  else
    let s1 := setupLogLevel { s with setupOnce := true } c
    let s2 := { s1 with maxContentLength := c.MaxContentLength }
    if c.Mode = fileMode then setupWithFiles s2 c now newLoggerErr
    else (setupWithConsole s2 c, none)


/-! ## Module loggers (`internal/richlogger.go`) -/

/-- The struct `richLogger`. -/
structure richLogger where
  moduleName : GoString
  traceId : GoString
  deriving DecidableEq, Repr

/-- `WithModuleName`. -/
def WithModuleName (moduleName : GoString) : richLogger :=
  { moduleName := moduleName, traceId := [] }

/-- `richLogger.WithTraceId`. -/
def richLogger.WithTraceId (l : richLogger) (traceId : GoString) : richLogger :=
  { moduleName := l.moduleName, traceId := traceId }

/-- `richLogger.formatMessage`: `[module] msg`, or `[module] [trace] msg` when
there is a trace id. -/
def richLogger.formatMessage (l : richLogger) (msg : GoString) : GoString :=
  if l.traceId ≠ [] then
    [91] ++ l.moduleName ++ [93, 32, 91] ++ l.traceId ++ [93, 32] ++ msg
  else [91] ++ l.moduleName ++ [93, 32] ++ msg

/-- The common body of the leveled methods of `richLogger`: return when
`shallLog(level)` is false, else hand the formatted message to the method of
the current writer that belongs to the level. `msg` is the result of
`fmt.Sprint` or `fmt.Sprintf`; `name` is the level name the writer's method
uses. -/
def richLogger.leveled (l : richLogger) (s : LogState) (ctx : Ctx) (level : Nat)
    (name msg : GoString) : LogState :=
  if !shallLog s level then s
  else
    { (getWriter s).1 with
      written := s.written ++ Writer.leveled ctx s.maxContentLength name
        (Payload.str (l.formatMessage msg)) (getWriter s).2 }

/-- `richLogger.Trace` and `Tracef`. -/
def richLogger.Trace (l : richLogger) (s : LogState) (ctx : Ctx) (msg : GoString) : LogState :=
  l.leveled s ctx TraceLevel LevelTrace msg

/-- `richLogger.Debug` and `Debugf`. -/
def richLogger.Debug (l : richLogger) (s : LogState) (ctx : Ctx) (msg : GoString) : LogState :=
  l.leveled s ctx DebugLevel LevelDebug msg

/-- `richLogger.Info` and `Infof`. -/
def richLogger.Info (l : richLogger) (s : LogState) (ctx : Ctx) (msg : GoString) : LogState :=
  l.leveled s ctx InfoLevel LevelInfo msg

/-- `richLogger.Warn` and `Warnf`. -/
def richLogger.Warn (l : richLogger) (s : LogState) (ctx : Ctx) (msg : GoString) : LogState :=
  l.leveled s ctx WarnLevel LevelWarn msg

/-- `richLogger.Error` and `Errorf`. -/
def richLogger.Error (l : richLogger) (s : LogState) (ctx : Ctx) (msg : GoString) : LogState :=
  l.leveled s ctx ErrorLevel LevelError msg

/-- `richLogger.Print` and `Printf`: no level test. -/
def richLogger.Print (_l : richLogger) (s : LogState) (ctx : Ctx) (msg : GoString) : LogState :=
  { (getWriter s).1 with
    written := s.written ++ Writer.AccessRecord ctx s.maxContentLength (Payload.str msg)
      (getWriter s).2 }

/-- `richLogger.WriteRawString`: no level test. -/
def richLogger.WriteRawString (_l : richLogger) (s : LogState) (msg : GoString) : LogState :=
  { (getWriter s).1 with written := s.written ++ Writer.WriteRawString msg (getWriter s).2 }

/-! ## The public package (`glog.go`, `config.go`) -/

/-- An `int` printed by the verb `%d`. -/
def itoa (x : Int) : GoString := appendInt x 1

/-- The string `"size"` (`rotationSize`). -/
def rotationSize : GoString := [115, 105, 122, 101]

/-- The string `"time"` (`rotationTime`). -/
def rotationTime : GoString := [116, 105, 109, 101]

/-- The string `"file"` (`modeFile`). -/
def modeFile : GoString := [102, 105, 108, 101]

/-- The string `"console"` (`modeConsole`). -/
def modeConsole : GoString := [99, 111, 110, 115, 111, 108, 101]

def minLogSize : Int := 1

def maxLogSize : Int := 1024

def minBackups : Int := 1

def maxBackups : Int := 100

/-- `CheckLogLevelStr`. -/
def CheckLogLevelStr (level : GoString) : Option GoError :=
  match levelMap (ToUpper level) with
  | some _ => none
  | none => some (GoError.errorString (lit "invalid log level: " ++ level))

/-- `Config.ValidateConfig` (byte 39 is the apostrophe of the messages). -/
def Config.ValidateConfig (c : Config) : Option GoError :=
  if c.Mode = modeFile ∧ c.ServerLogDir = [] then
    some (GoError.errorString (lit "server log directory cannot be empty in file mode"))
  else if c.Mode = modeFile ∧ c.ManagerLogDir = [] then
    some (GoError.errorString (lit "manager log directory cannot be empty in file mode"))
  else if c.MaxSize > 0 ∧ (c.MaxSize < minLogSize ∨ c.MaxSize > maxLogSize) then
    some (GoError.errorString (lit "invalid max size: " ++ itoa c.MaxSize
      ++ lit ", should be between " ++ itoa minLogSize ++ lit " and " ++ itoa maxLogSize
      ++ lit " MB"))
  else if c.MaxBackups > 0 ∧ (c.MaxBackups < minBackups ∨ c.MaxBackups > maxBackups) then
    some (GoError.errorString (lit "invalid max backups: " ++ itoa c.MaxBackups
      ++ lit ", should be between " ++ itoa minBackups ++ lit " and " ++ itoa maxBackups))
  else if c.Level.length > 0 ∧ (CheckLogLevelStr c.Level).isSome then
    some (GoError.errorString (lit "invalid log level: " ++ c.Level
      ++ lit ", valid levels are: DEB,INF,WAR,ERR,OFF"))
  else if c.Rotation.length > 0 ∧ c.Rotation ≠ rotationSize ∧ c.Rotation ≠ rotationTime then
    some (GoError.errorString (lit "invalid rotation: " ++ c.Rotation
      ++ lit ", should be either " ++ [39] ++ rotationSize ++ [39] ++ lit " or "
      ++ [39] ++ rotationTime ++ [39]))
  else if c.Mode.length > 0 ∧ c.Mode ≠ modeFile ∧ c.Mode ≠ modeConsole then
    some (GoError.errorString (lit "invalid mode: " ++ c.Mode
      ++ lit ", should be either " ++ [39] ++ modeFile ++ [39] ++ lit " or "
      ++ [39] ++ modeConsole ++ [39]))
  else none

/-- The `internal.LogConf` that `InitWithConfig` builds from a `Config`: the
fields it does not name (`MaxContentLength`, `KeepDays`) are zero. -/
def internalConfig (config : Config) : LogConf :=
  { ServiceName := config.ServiceName, ServerLogDir := config.ServerLogDir,
    ManagerLogDir := config.ManagerLogDir, MaxBackups := config.MaxBackups,
    MaxSize := config.MaxSize, Level := config.Level, Compress := config.Compress,
    Rotation := config.Rotation, Mode := config.Mode, ColorConsole := config.ColorConsole,
    MaxContentLength := 0, KeepDays := 0 }

/-- `InitWithConfig` at instant `now`. The deferred function adds the console
writer after `SetUp` returned. -/
def InitWithConfig (s : LogState) (config : Config) (now : Time)
    (newLoggerErr : GoString → Option GoError) : LogState × Option GoError :=
  match config.ValidateConfig with
  | some (GoError.errorString msg) =>
    (s, some (GoError.errorString (lit "invalid config: " ++ msg)))
  | some e => (s, some e)
  | none =>
    let r := SetUp { s with defaultLogLevel := config.Level } (internalConfig config) now
      newLoggerErr
    if config.ToConsole ∧ config.Mode = modeFile then
      (AddWriter r.1 (Writer.concrete Dest.stdout Dest.stdout), r.2)
    else r

/-- `GetLogLevelStr`. -/
def GetLogLevelStr (s : LogState) : GoString :=
  match levelStrMap (GetLevel s) with
  | some level => level
  | none => lit "INVALID"

/-- The module logger `mlog` of the public package. -/
def mlog : richLogger := WithModuleName (lit "xlog")

/-- `SetLogLevelStr`. -/
def SetLogLevelStr (s : LogState) (ctx : Ctx) (level : GoString) : LogState :=
  match levelMap (ToUpper level) with
  | some logLevel => mlog.Info (SetLevel s logLevel) ctx (lit "set log level to " ++ level)
  | none => mlog.Warn s ctx (lit "invalid log level: " ++ level)

/-- `SetOpenTime(duration, callback)`: a timer that is already armed is
stopped; for a duration other than 0 a new timer is armed. -/
def SetOpenTime (s : LogState) (ctx : Ctx) (duration : Int) (callback : Option Nat) : LogState :=
  let s1 := { s with openTimer := none, currentOpenTime := duration }
  if duration = 0 then
    mlog.Info s1 ctx (lit "log level (" ++ GetLogLevelStr s1 ++ lit ") set permanently")
  else { s1 with openTimer := some { callback := callback } }

/-- The function of the armed timer, run when the timer expires: it logs,
calls `SetLogLevelStr(defaultLogLevel)`, stores `-1` in `currentOpenTime`,
clears the timer and calls the callback, if any, with `defaultLogLevel`.
`ctx1` and `ctx2` serve its two log calls. -/
def timerExpires (s : LogState) (ctx1 ctx2 : Ctx) : LogState :=
  match s.openTimer with
  | none => s
  | some t =>
    let s1 := mlog.Info s ctx1
      (lit "log level temporary elevation timeout, restoring (" ++ GetLogLevelStr s
        ++ lit ") to default level: " ++ s.defaultLogLevel)
    let s2 := SetLogLevelStr s1 ctx2 s1.defaultLogLevel
    let s3 := { s2 with currentOpenTime := -1, openTimer := none }
    match t.callback with
    | none => s3
    | some cb => { s3 with callbacks := s3.callbacks ++ [(cb, s3.defaultLogLevel)] }

/-- `GetOpenTime`. -/
def GetOpenTime (s : LogState) : Int := s.currentOpenTime

/-! ## The cross-process logger (`elog.go`) -/

/-- The struct `eLogger`. -/
structure eLogger where
  moduleName : GoString
  traceId : GoString
  deriving DecidableEq, Repr

/-- `eLogger.formatMessage`. -/
def eLogger.formatMessage (e : eLogger) (msg : GoString) : GoString :=
  if e.traceId ≠ [] then
    [91] ++ e.moduleName ++ [93, 32, 91] ++ e.traceId ++ [93, 32] ++ msg
  else [91] ++ e.moduleName ++ [93, 32] ++ msg

/-- `sendToELogItems`: a send on the channel of capacity 1024 with a
`default` case. -/
def sendToELogItems (s : LogState) (item : ELogItem) : LogState :=
  if s.eLogItems.length < 1024 then { s with eLogItems := s.eLogItems ++ [item] } else s

/-- The common body of the methods of `eLogger`: nothing for an empty message,
else an item with the level and the formatted record is sent. -/
def eLogger.leveled (e : eLogger) (s : LogState) (ts : GoString) (level : Nat)
    (name val : GoString) : LogState :=
  if val.length = 0 then s
  else sendToELogItems s
    { Level := level,
      Content := GetOutputStringFormatted ts name (Payload.str (e.formatMessage val)) }

/-- `eLogger.Trace` and `Tracef`. -/
def eLogger.Trace (e : eLogger) (s : LogState) (ts val : GoString) : LogState :=
  e.leveled s ts TraceLevel LevelTrace val

/-- `eLogger.Debug` and `Debugf`. -/
def eLogger.Debug (e : eLogger) (s : LogState) (ts val : GoString) : LogState :=
  e.leveled s ts DebugLevel LevelDebug val

/-- `eLogger.Info` and `Infof`. -/
def eLogger.Info (e : eLogger) (s : LogState) (ts val : GoString) : LogState :=
  e.leveled s ts InfoLevel LevelInfo val

/-- `eLogger.Warn` and `Warnf`. -/
def eLogger.Warn (e : eLogger) (s : LogState) (ts val : GoString) : LogState :=
  e.leveled s ts WarnLevel LevelWarn val

/-- `eLogger.Error` and `Errorf`. -/
def eLogger.Error (e : eLogger) (s : LogState) (ts val : GoString) : LogState :=
  e.leveled s ts ErrorLevel LevelError val


/-! ## Records and examples for the statements about logging -/

/-- A log call at 2026-11-01T00:00:00.000Z with standard output not a
terminal. -/
def exampleCtx : Ctx :=
  { timestamp := lit "2026-11-01T00:00:00.000Z", isColorSupported := false, paint := id }

/-- A `Config` with every field zero. -/
def zeroConfig : Config :=
  { ServiceName := [], ServerLogDir := [], ManagerLogDir := [], MaxBackups := 0, MaxSize := 0,
    KeepDays := 0, Level := [], Compress := false, Rotation := [], Mode := [],
    ToConsole := false, ColorConsole := false }

/-- The configuration of the first case of `TestInit` and of
`TestSetAndGetOpenTime`: two directories, 3 backups, 100 MiB, no level. -/
def testConfig : Config :=
  { zeroConfig with
    ServerLogDir := lit "./logs/server", ManagerLogDir := lit "./logs/manager",
    MaxBackups := 3, MaxSize := 100 }

/-- The configuration of the second case of `TestInit`: `MaxBackups = -1`. -/
def negativeBackupsConfig : Config := { testConfig with MaxBackups := -1 }

/-- A console configuration with level `OFF`. -/
def offConfig : Config := { zeroConfig with Level := LevelDisable, Mode := modeConsole }

/-- A file configuration with the daily rule and `KeepDays = 2`. -/
def keepDaysConfig : Config :=
  { zeroConfig with
    ServiceName := lit "svc", ServerLogDir := lit "logs", ManagerLogDir := lit "logs",
    KeepDays := 2, Rotation := rotationTime, Mode := modeFile }

/-- A directory with archives of `logs/svc_server.log` dated 5, 3 and 1 days
before 2026-11-01. -/
def keepDaysEnv : Env :=
  { now := exampleNow
    glob := fun p =>
      if p = lit "logs/svc_server.log-*" then
        some [lit "logs/svc_server.log-2026-10-27", lit "logs/svc_server.log-2026-10-29",
          lit "logs/svc_server.log-2026-10-31"]
      else some []
    stat := fun _ => some 100
    diskFree := fun _ => some 1000000000
    diskTotal := fun _ => some 10000000000 }

/-- `NewLogger` succeeds for every path. -/
def newLoggerOk : GoString → Option GoError := fun _ => none

/-- The server log `logs/app_server.log` with the daily rule. -/
def exampleServerLog : Dest :=
  Dest.rotateLogger (lit "logs/app_server.log")
    (RotateRule.daily (DefaultRotateRule exampleNow (lit "logs/app_server.log") (lit "-") 0 false))
    false

/-- The manager log `logs/app_manager.log` with the daily rule. -/
def exampleManagerLog : Dest :=
  Dest.rotateLogger (lit "logs/app_manager.log")
    (RotateRule.daily (DefaultRotateRule exampleNow (lit "logs/app_manager.log") (lit "-") 0
      false))
    false

/-- A state with the file writer of the two example logs installed, level
`TraceLevel`. -/
def exampleFileState : LogState :=
  { freshState with writer := some (Writer.concrete exampleServerLog exampleManagerLog) }

/-- The state `exampleFileState` with level `DisableLevel`. -/
def disabledFileState : LogState := { exampleFileState with logLevel := DisableLevel }

/-- What holds of a state at level `DisableLevel` with the writer `w` stored
(or none) and the writes `out` made. -/
def offInvariant (w : Option Writer) (out : List (Dest × GoString)) (s : LogState) : Prop :=
  s.logLevel = DisableLevel ∧ s.writer = w ∧ s.written = out

/-- A file configuration with level `OFF`. -/
def offFileConfig : Config :=
  { zeroConfig with
    ServiceName := lit "svc", ServerLogDir := lit "logs", ManagerLogDir := lit "logs",
    Level := LevelDisable, Mode := modeFile, ToConsole := true }


/-- The configuration `testConfig` with `MaxSize = -5`. -/
def negativeSizeConfig : Config := { testConfig with MaxSize := -5 }

/-- The state after `InitWithConfig(testConfig)` in a fresh process. -/
def testInitState : LogState := (InitWithConfig freshState testConfig exampleNow newLoggerOk).1

/-- The steps of `TestSetAndGetOpenTime`: after `InitWithConfig(testConfig)`,
`SetLogLevelStr("DEB")`, then `SetOpenTime(3 s, callback)`, then the timer
expires. The callback is the one numbered 7. -/
def testOpenTimeState : LogState :=
  timerExpires
    (SetOpenTime (SetLogLevelStr testInitState exampleCtx LevelDebug) exampleCtx 3000000000
      (some 7))
    exampleCtx exampleCtx

/-- The state after `InitWithConfig(keepDaysConfig)` in a fresh process. -/
def keepDaysState : LogState :=
  (InitWithConfig freshState keepDaysConfig exampleNow newLoggerOk).1

/-- The rule of the server log of a writer, when it is a file writer. -/
def Writer.serverRule : Writer → Option RotateRule
  | Writer.concrete (Dest.rotateLogger _ rule _) _ => some rule
  | _ => none

/-- The rule of the manager log of a writer, when it is a file writer. -/
def Writer.managerRule : Writer → Option RotateRule
  | Writer.concrete _ (Dest.rotateLogger _ rule _) => some rule
  | _ => none


/-- Two states agree on the level, the saved default level, the timer, the
open time and the calls made to callbacks. -/
def sameControl (a b : LogState) : Prop :=
  a.logLevel = b.logLevel ∧ a.defaultLogLevel = b.defaultLogLevel ∧ a.openTimer = b.openTimer ∧
    a.currentOpenTime = b.currentOpenTime ∧ a.callbacks = b.callbacks


/-- A console configuration with level `ERR`. -/
def errConfig : Config := { zeroConfig with Level := LevelError }

/-- A console configuration with level `DEB`. -/
def debConfig : Config := { zeroConfig with Level := LevelDebug }

/-- Two calls of `InitWithConfig` in one process, with level `ERR` and then
with level `DEB`. -/
def secondInitState : LogState :=
  (InitWithConfig (InitWithConfig freshState errConfig exampleNow newLoggerOk).1 debConfig
    exampleNow newLoggerOk).1


/-- The six level names `TRA`, `DEB`, `INF`, `WAR`, `ERR`, `OFF`. -/
def levelNames : List GoString :=
  [LevelTrace, LevelDebug, LevelInfo, LevelWarn, LevelError, LevelDisable]

/-- An item of the cross-process queue, for examples. -/
def exampleItem : ELogItem := { Level := InfoLevel, Content := lit "x" }


/-! ## The health checker (`internal/health_checker.go`) -/

/-- The text `Error()` returns for an error value. -/
def GoError.Error : GoError → GoString
  | GoError.ErrLogFileClosed => lit "error: log file closed"
  | GoError.ioError msg => msg
  | GoError.errorString msg => msg

/-- The struct `HealthChecker`. `healthChan` is the content of the channel of
capacity 1 (oldest first), `recoverChan` the number of signals held by the
channel of capacity 1; `done` and `logger` are held by the logger state. -/
structure HealthChecker where
  healthChan : List GoError
  recoverChan : Nat
  lastError : Option GoError
  errorTime : Time
  deriving DecidableEq, Repr

/-- `NewHealthChecker`: both channels empty; `errorTime` is the zero
`time.Time`, 0001-01-01T00:00:00Z. -/
def NewHealthChecker : HealthChecker :=
  { healthChan := [], recoverChan := 0, lastError := none,
    errorTime := ⟨-62135596800000000000⟩ }

/-- `HealthChecker.ReportError`: a send on `healthChan` with a `default`
case. -/
def HealthChecker.ReportError (h : HealthChecker) (err : GoError) : HealthChecker :=
  if h.healthChan.length < 1 then { h with healthChan := h.healthChan ++ [err] } else h

/-- The case `err := <-h.healthChan` of the worker of `Start`, at instant
`now`, up to the call of `tryRecover`: the notice is taken from the channel and
stored in `lastError`, the time in `errorTime`. Returns `none` when the channel
is empty (the case cannot proceed), else the state `tryRecover` starts from
and the notice taken. -/
def HealthChecker.takeNotice (h : HealthChecker) (now : Time) :
    Option (HealthChecker × GoError) :=
  match h.healthChan with
  | [] => none
  | err :: rest => some ({ h with healthChan := rest, lastError := some err, errorTime := now }, err)

/-- The send on `recoverChan` with a `default` case, made by `tryRecover`
after a test write that succeeded. -/
def HealthChecker.signalRecover (h : HealthChecker) : HealthChecker :=
  if h.recoverChan < 1 then { h with recoverChan := h.recoverChan + 1 } else h

/-- `HealthChecker.WaitRecover`: a `select` on `recoverChan` and `done` with no
`default`. `none` when neither case can proceed (the caller stays blocked);
when both can, `pick` is Go's choice. -/
def HealthChecker.WaitRecover (h : HealthChecker) (done : Bool) (pick : Nat) :
    Option (HealthChecker × Bool) :=
  match decide (0 < h.recoverChan), done with
  | true, true =>
    if pick % 2 = 0 then some ({ h with recoverChan := h.recoverChan - 1 }, true)
    else some (h, false)
  | true, false => some ({ h with recoverChan := h.recoverChan - 1 }, true)
  | false, true => some (h, false)
  | false, false => none

/-- The error of a full disk, for examples. -/
def errNoSpace : GoError := GoError.ioError (lit "no space left on device")

/-- A second error, for examples. -/
def errReadOnly : GoError := GoError.ioError (lit "read-only file system")


/-! ## Compression and the free-space guard (`rotatelogger.go`, `compress.go`) -/

/-- `RotateLogger.compressLogFile(file)`: the calls made on the file system
and the result. The body is one call of `gzipFile`; the log calls before and
after it are left out. -/
def compressLogFile (file : GoString) (o : GzipOutcomes) : List FsOp × Bool :=
  match gzipFile file o with
  | (ops, some _) => (ops, false)
  | (ops, none) => (ops, true)

/-- What `ensureEnoughSpace` reads from its environment: `statSize f` is the
size `os.Stat(f)` reports (`none` for an error), `modTime f` its modification
time, `diskTotal` is `GetDirOnDiskTotalSize`, `diskFree removed dir` is
`GetDirOnDiskFreeSize(dir)` once the files `removed` are gone, `glob` is
`filepath.Glob`, `removeErr f` the outcome of `os.Remove(f)`. -/
structure SpaceEnv where
  statSize : GoString → Option Int
  modTime : GoString → Int
  diskTotal : GoString → Option Int
  diskFree : List GoString → GoString → Option Int
  glob : GoString → Option (List GoString)
  removeErr : GoString → Option GoError

/-- Insertion of a file into a list ordered by modification time. -/
def insertByModTime (env : SpaceEnv) (x : GoString) : List GoString → List GoString
  | [] => [x]
  | y :: ys =>
    if env.modTime x < env.modTime y then x :: y :: ys else y :: insertByModTime env x ys

/-- The call of `sort.Slice` in `ensureEnoughSpace`: oldest modification time
first. (Go leaves the order of files with equal times open; here they keep
the order of the glob result.) -/
def sortByModTime (env : SpaceEnv) : List GoString → List GoString
  | [] => []
  | x :: xs => insertByModTime env x (sortByModTime env xs)

/-- The loop of `ensureEnoughSpace` that removes files, oldest first: returns
the files removed, and `some` result when the loop returns from the function
(`some none` is `return nil`). -/
def spaceLoop (env : SpaceEnv) (file dir : GoString) (requiredSpace : Int) :
    List GoString → List GoString → List GoString × Option (Option GoError)
  | [], removed => (removed, none)
  | f :: rest, removed =>
    if f = file then spaceLoop env file dir requiredSpace rest removed
    else
      match env.removeErr f with
      | some _ => spaceLoop env file dir requiredSpace rest removed
      | none =>
        match env.diskFree (removed ++ [f]) dir with
        | none =>
          (removed ++ [f],
            some (some (GoError.errorString (lit "failed to get available disk space"))))
        | some available =>
          if available ≥ requiredSpace then (removed ++ [f], some none)
          else spaceLoop env file dir requiredSpace rest (removed ++ [f])

/-- `ensureEnoughSpace(file)`: the files removed and the error returned. The
first probe reads `GetDirOnDiskTotalSize`, the later ones
`GetDirOnDiskFreeSize`. The texts of the wrapped errors are shortened to their
first part. -/
def ensureEnoughSpace (env : SpaceEnv) (file : GoString) : List GoString × Option GoError :=
  let dir := Dir file
  match env.statSize file with
  | none => ([], some (GoError.errorString (lit "failed to get file info")))
  | some requiredSpace =>
    match env.diskTotal dir with
    | none => ([], some (GoError.errorString (lit "failed to get available disk space")))
    | some available =>
      if available ≥ requiredSpace then ([], none)
      else
        match env.glob (file.take (file.length - (Ext file).length) ++ lit ".*") with
        | none => ([], some (GoError.errorString (lit "failed to list log files")))
        | some files =>
          let fileInfos := sortByModTime env (files.filter (fun f => (env.statSize f).isSome))
          match spaceLoop env file dir requiredSpace fileInfos [] with
          | (removed, some result) => (removed, result)
          | (removed, none) =>
            if (env.diskFree removed dir).getD 0 < requiredSpace then
              (removed, some (GoError.errorString
                (lit "still insufficient disk space after cleanup (available: "
                  ++ itoa ((env.diskFree removed dir).getD 0) ++ lit ", required: "
                  ++ itoa requiredSpace ++ lit ")")))
            else (removed, none)

/-- Outcomes in which every call of `gzipFile` succeeds. -/
def gzipAllOk : GzipOutcomes :=
  { openErr := none, createErr := none, chmodPreErr := none, copyErr := none,
    closeGzipWriterErr := none, closeOutErr := none, closeInErr := none, removeErr := none }

/-- A volume of 10000 bytes with 600 bytes free that holds the archive
`logs/app-1.log` of 1000 bytes and no other archive. -/
def fullDiskEnv : SpaceEnv :=
  { statSize := fun f => if f = lit "logs/app-1.log" then some 1000 else none
    modTime := fun _ => 0
    diskTotal := fun _ => some 10000
    diskFree := fun _ _ => some 600
    glob := fun _ => some [lit "logs/app-1.log"]
    removeErr := fun _ => none }

/-- The volume `fullDiskEnv` with a total size of 900 bytes reported. -/
def tinyDiskEnv : SpaceEnv := { fullDiskEnv with diskTotal := fun _ => some 900 }

/-! ## Payloads whose rendering can panic (`writer.go`, `logs.go`) -/

/-- The string `nilAngleString`. -/
def nilAngleString : GoString := lit "<nil>"

/-- The outcome of a call of `Error()`, of `String()` or of the JSON encoder:
the text it returns (for the encoder: the bytes it writes), or a panic, with
the text the verb `%v` prints for the value of the panic. -/
inductive Rendering where
  | returns (text : GoString)
  | panics (cause : GoString)
  deriving DecidableEq, Repr

/-- A value of type `any` by the case of the type switch it takes, with
whether it is a nil pointer and what its rendering does. -/
inductive AnyValue where
  | str (v : GoString)
  | err (nilPtr : Bool) (call : Rendering)
  | stringer (nilPtr : Bool) (call : Rendering)
  | other (nilPtr : Bool) (encode : Rendering)
  deriving DecidableEq, Repr

/-- `encodeWithRecover(arg, fn)`: the deferred function recovers a panic of
`fn` and returns `<nil>` for a nil pointer and `panic: ` with the cause
otherwise. -/
def encodeWithRecover (nilPtr : Bool) (fn : Rendering) : GoString :=
  match fn with
  | Rendering.returns text => text
  | Rendering.panics cause => if nilPtr then nilAngleString else lit "panic: " ++ cause

/-- `encodeError(err)`. -/
def encodeError (nilPtr : Bool) (call : Rendering) : GoString := encodeWithRecover nilPtr call

/-- `encodeStringer(v)`. -/
def encodeStringer (nilPtr : Bool) (call : Rendering) : GoString := encodeWithRecover nilPtr call

/-- The result of formatting a record when the rendering of the payload can
panic: `Except.error cause` is a panic that leaves the function. -/
def formatRendered (ts level : GoString) (format : GoString → GoString → GoString → GoString) :
    Rendering → Except GoString GoString
  | Rendering.returns text => Except.ok (format ts level text)
  | Rendering.panics cause => Except.error cause

/-- `writePlainAny(writer, level, val)` on such a value: the bytes handed to
`writer.Write`, or the panic. The type switch calls `v.Error()` and
`v.String()` directly, and `formatPlainValue` calls the JSON encoder, with no
deferred function in between. -/
def writePlainAnyValue (ts level : GoString) : AnyValue → Except GoString GoString
  | AnyValue.str v => Except.ok (formatPlainText ts level v)
  | AnyValue.err _ call => formatRendered ts level formatPlainText call
  | AnyValue.stringer _ call => formatRendered ts level formatPlainText call
  | AnyValue.other _ encode => formatRendered ts level formatPlainValue encode

/-- `GetOutputStringFormatted(level, val)` on such a value. -/
def GetOutputStringFormattedValue (ts level : GoString) : AnyValue → Except GoString GoString
  | AnyValue.str v => Except.ok (formatPlainText ts level v)
  | AnyValue.err _ call => formatRendered ts level formatPlainText call
  | AnyValue.stringer _ call => formatRendered ts level formatPlainText call
  | AnyValue.other _ encode => formatRendered ts level formatPlainValue encode

/-- The payload of the first three cases of the type switch for a value whose
rendering returns. -/
def AnyValue.toPayload : AnyValue → Option Payload
  | AnyValue.str v => some (Payload.str v)
  | AnyValue.err _ (Rendering.returns text) => some (Payload.err text)
  | AnyValue.stringer _ (Rendering.returns text) => some (Payload.stringer text)
  | AnyValue.other _ (Rendering.returns text) => some (Payload.other text)
  | _ => none

/-- A nil pointer of a type whose method `Error()` reads a field of the
receiver. -/
def nilPointerError : AnyValue :=
  AnyValue.err true
    (Rendering.panics (lit "runtime error: invalid memory address or nil pointer dereference"))

/-- A `fmt.Stringer` whose method `String()` panics with the value `boom`. -/
def panickingStringer : AnyValue := AnyValue.stringer false (Rendering.panics (lit "boom"))


/-! ## The active file: `initialize`, `rotate`, the consumer, the test write -/

/-- `SizeLimitRotateRule.MarkRotated`, called at instant `now`. -/
def SizeLimitRotateRule.MarkRotated (r : SizeLimitRotateRule) (now : Time) :
    SizeLimitRotateRule :=
  { r with rotatedTime := getNowDateInRFC3339Format now }

/-- `BackupFileName` of a rule, called at instant `now`. -/
def RotateRule.BackupFileName : RotateRule → Time → GoString
  | RotateRule.daily r, now => r.BackupFileName now
  | RotateRule.sizeLimit r, now => r.BackupFileName now

/-- `MarkRotated` of a rule, called at instant `now`. -/
def RotateRule.MarkRotated : RotateRule → Time → RotateRule
  | RotateRule.daily r, now => RotateRule.daily (r.MarkRotated now)
  | RotateRule.sizeLimit r, now => RotateRule.sizeLimit (r.MarkRotated now)

/-- `ShallRotate(size)` of a rule, called at instant `now`. -/
def RotateRule.ShallRotate : RotateRule → Time → Int → Bool
  | RotateRule.daily r, now, size => r.ShallRotate now size
  | RotateRule.sizeLimit r, _, size => r.ShallRotate size

/-- An open `*os.File` on the active log file: the size of the file when the
descriptor was opened (0 when `os.Create` made or truncated it) and the number
of bytes written through the descriptor since. -/
structure OsFile where
  sizeAtOpen : Int
  written : Int
  deriving DecidableEq, Repr

/-- The outcome of `fp.Write(data)`: all of `data` written and a `nil` error,
or an error after `n` bytes. -/
inductive WriteOutcome where
  | ok
  | fails (n : Nat) (err : GoError)
  deriving DecidableEq, Repr

/-- `fp.Write(data)` for data of `len` bytes. -/
def OsFile.Write (f : OsFile) (len : Nat) : WriteOutcome → OsFile × Option GoError
  | WriteOutcome.ok => ({ f with written := f.written + (len : Int) }, none)
  | WriteOutcome.fails n err => ({ f with written := f.written + (n : Int) }, some err)

/-- The fields of `RotateLogger` that the consumer goroutine and the health
checker use: `filename`, `backup`, `fp` (`none` is `nil`), `rule`,
`currentSize`, `health` and whether `done` is closed. `postRotated` lists the
files handed to `postRotate`. Calls of `log.Println` are left out. -/
structure ActiveLogger where
  filename : GoString
  backup : GoString
  fp : Option OsFile
  rule : RotateRule
  currentSize : Int
  health : HealthChecker
  done : Bool
  postRotated : List GoString
  deriving DecidableEq, Repr

/-- The struct literal of `NewLogger`, before `initialize` runs. -/
def newActiveLogger (filename : GoString) (rule : RotateRule) : ActiveLogger :=
  { filename := filename, backup := [], fp := none, rule := rule, currentSize := 0,
    health := NewHealthChecker, done := false, postRotated := [] }

/-- `RotateLogger.getBackupFilename`, called at instant `now`. -/
def ActiveLogger.getBackupFilename (l : ActiveLogger) (now : Time) : GoString :=
  if l.backup.length = 0 then l.rule.BackupFileName now else l.backup

/-- The outcome of every call `RotateLogger.initialize` can make, and the
instant at which it runs: `statFile` is the size `os.Stat(l.filename)` reports
(`none` for an error); the others are the errors of `os.Stat(basePath)`,
`os.MkdirAll`, `os.Create`, `Chmod` and `os.OpenFile` (`none` is success). -/
structure InitOutcomes where
  now : Time
  statFile : Option Int
  statDirErr : Option GoError
  mkdirAllErr : Option GoError
  createErr : Option GoError
  chmodErr : Option GoError
  openFileErr : Option GoError
  deriving DecidableEq, Repr

/-- `RotateLogger.initialize`. When `Stat` fails the file is created and
`currentSize` is not assigned; when `Stat` succeeds the file is opened for
appending and `currentSize` becomes its size. A failed `os.Create` or
`os.OpenFile` stores `nil` in `fp`. -/
def ActiveLogger.initLogger (l : ActiveLogger) (o : InitOutcomes) :
    ActiveLogger × Option GoError :=
  let l1 : ActiveLogger := { l with backup := l.rule.BackupFileName o.now }
  match o.statFile with
  | none =>
    match (if o.statDirErr.isSome then o.mkdirAllErr else none) with
    | some e => (l1, some e)
    | none =>
      match o.createErr with
      | some e => ({ l1 with fp := none }, some e)
      | none =>
        ({ l1 with fp := some { sizeAtOpen := 0, written := 0 } }, o.chmodErr)
  | some size =>
    match o.openFileErr with
    | some e => ({ l1 with fp := none }, some e)
    | none => ({ l1 with fp := some { sizeAtOpen := size, written := 0 }, currentSize := size }, none)

/-- The outcome of every call `RotateLogger.rotate` can make, and the instant
at which it runs: the errors of `l.fp.Close()`, `os.Stat(l.filename)`,
`os.Rename`, `os.Create` and `Chmod`. -/
structure RotateOutcomes where
  now : Time
  closeErr : Option GoError
  statErr : Option GoError
  renameErr : Option GoError
  createErr : Option GoError
  chmodErr : Option GoError
  deriving DecidableEq, Repr

/-- The second half of `RotateLogger.rotate`: the new backup name and
`os.Create`. -/
def ActiveLogger.rotateCreate (l : ActiveLogger) (o : RotateOutcomes) :
    ActiveLogger × Option GoError :=
  let l1 : ActiveLogger := { l with backup := l.rule.BackupFileName o.now }
  match o.createErr with
  | some e => ({ l1 with fp := none }, some e)
  | none => ({ l1 with fp := some { sizeAtOpen := 0, written := 0 } }, o.chmodErr)

/-- `RotateLogger.rotate`: close the active file and store `nil` in `fp`;
rename the file to the backup name when it exists and a backup name is set,
and hand the backup to `postRotate`; then create the file anew. -/
def ActiveLogger.rotate (l : ActiveLogger) (o : RotateOutcomes) :
    ActiveLogger × Option GoError :=
  let l1 : ActiveLogger := { l with fp := none }
  match (if l.fp.isSome then o.closeErr else none) with
  | some e => (l1, some e)
  | none =>
    if o.statErr = none ∧ l1.backup.length > 0 then
      match o.renameErr with
      | some e => (l1, some e)
      | none =>
        ActiveLogger.rotateCreate
          { l1 with postRotated := l1.postRotated ++ [l1.getBackupFilename o.now] } o
    else ActiveLogger.rotateCreate l1 o


/-- What one pass of the loop of `RotateLogger.write` reads: the instants of
`ShallRotate` and `MarkRotated`, the outcomes of `rotate` and the outcome of
`l.fp.Write(v)`. -/
structure WriteOutcomes where
  nowShall : Time
  rotate : RotateOutcomes
  nowMark : Time
  write : WriteOutcome
  deriving DecidableEq, Repr

/-- The result of one pass of the loop of `RotateLogger.write`: the state,
the result of `rotate` when it was called, whether the record was written (the
function returns), the error handed to `ReportError` when it was called, and
whether the pass reached `WaitRecover`. -/
structure PassResult where
  logger : ActiveLogger
  rotated : Option (Option GoError)
  wrote : Bool
  reported : Option GoError
  waits : Bool
  deriving DecidableEq, Repr

/-- The first statement of the loop body of `RotateLogger.write`: rotate when
the rule asks for it; after a rotation without error the rule is marked and
`currentSize` becomes 0. -/
def ActiveLogger.maybeRotate (l : ActiveLogger) (v : GoString) (o : WriteOutcomes) :
    ActiveLogger × Option (Option GoError) :=
  if l.rule.ShallRotate o.nowShall (wrap64 (l.currentSize + (v.length : Int))) = true then
    match l.rotate o.rotate with
    | (l1, some e) => (l1, some (some e))
    | (l1, none) => ({ l1 with rule := l1.rule.MarkRotated o.nowMark, currentSize := 0 }, some none)
  else (l, none)

/-- One pass of the loop body of `RotateLogger.write(v)`, up to the `return`
after a write without error or up to the call of `WaitRecover`. With `fp` nil
the pass goes to `WaitRecover` without a call of `ReportError`. -/
def ActiveLogger.writePass (l : ActiveLogger) (v : GoString) (o : WriteOutcomes) : PassResult :=
  let r := l.maybeRotate v o
  match r.1.fp with
  | none => { logger := r.1, rotated := r.2, wrote := false, reported := none, waits := true }
  | some f =>
    match f.Write v.length o.write with
    | (f1, none) =>
      { logger := { r.1 with fp := some f1,
                             currentSize := wrap64 (r.1.currentSize + (v.length : Int)) },
        rotated := r.2, wrote := true, reported := none, waits := false }
    | (f1, some e) =>
      { logger := { r.1 with fp := some f1, health := r.1.health.ReportError e },
        rotated := r.2, wrote := false, reported := some e, waits := true }

/-- The outcome of every call `HealthChecker.testWrite` can make: those of the
first `initialize` (run when `fp` is nil), whether `os.Stat(filename)` fails
with an error for which `os.IsNotExist` holds, the error of closing the old
file, the outcomes of the second `initialize`, and the outcome of the
write. -/
structure TestWriteOutcomes where
  init1 : InitOutcomes
  notExist : Bool
  closeErr : Option GoError
  init2 : InitOutcomes
  write : WriteOutcome
  deriving DecidableEq, Repr

/-- The last statement of `testWrite`: `h.logger.fp.Write([]byte(msg))`;
`currentSize` is not touched. A nil `*os.File` returns `os.ErrInvalid`. -/
def ActiveLogger.testWriteFile (l : ActiveLogger) (msg : GoString) (w : WriteOutcome) :
    ActiveLogger × Option GoError :=
  match l.fp with
  | none => (l, some (GoError.errorString (lit "invalid argument")))
  | some f => ({ l with fp := some (f.Write msg.length w).1 }, (f.Write msg.length w).2)

/-- The middle of `testWrite`: when the file does not exist, close the old
descriptor, store `nil` in `fp` and run `initialize` again; then write. -/
def ActiveLogger.testWriteCheck (l : ActiveLogger) (msg : GoString) (o : TestWriteOutcomes) :
    ActiveLogger × Option GoError :=
  if o.notExist = true then
    match (if l.fp.isSome then o.closeErr else none) with
    | some e => (l, some (GoError.errorString (lit "failed to close old file: " ++ e.Error)))
    | none =>
      match ActiveLogger.initLogger { l with fp := none } o.init2 with
      | (l1, some e) =>
        (l1, some (GoError.errorString (lit "re-initialization failed: " ++ e.Error)))
      | (l1, none) => l1.testWriteFile msg o.write
  else l.testWriteFile msg o.write

/-- `HealthChecker.testWrite(msg)`. -/
def ActiveLogger.testWrite (l : ActiveLogger) (msg : GoString) (o : TestWriteOutcomes) :
    ActiveLogger × Option GoError :=
  match l.fp with
  | none =>
    match l.initLogger o.init1 with
    | (l1, some e) => (l1, some (GoError.errorString (lit "initialization failed: " ++ e.Error)))
    | (l1, none) => l1.testWriteCheck msg o
  | some _ => l.testWriteCheck msg o

/-- A step of the worker of the health checker.
`tick`: the ticker case; `notExist` is the error of `os.Stat(filename)` when
`os.IsNotExist` holds for it, and is then reported.
`notice`: the case `err := <-h.healthChan`, up to the call of `tryRecover`.
`round`: one round of the loop of `tryRecover`; `text` is the result of
`fmt.Sprintf` for the recovery message and `ts` the time stamp of its record;
after a test write without error a signal is sent on `recoverChan`. -/
inductive HealthAction where
  | tick (notExist : Option GoError)
  | notice (now : Time)
  | round (ts text : GoString) (o : TestWriteOutcomes)
  deriving DecidableEq, Repr

/-- The recovery message of `tryRecover`: a record of level `ERR`. -/
def recoverMsg (ts text : GoString) : GoString :=
  GetOutputStringFormatted ts LevelError (Payload.str text)

/-- The effect of a step of the health worker on the logger. -/
def ActiveLogger.healthAct (l : ActiveLogger) : HealthAction → ActiveLogger
  | HealthAction.tick none => l
  | HealthAction.tick (some e) =>
    let err := GoError.errorString (lit "log file does not exist: " ++ e.Error)
    { l with health := l.health.ReportError err }
  | HealthAction.notice now =>
    match l.health.takeNotice now with
    | none => l
    | some (h, _) => { l with health := h }
  | HealthAction.round ts text o =>
    match l.testWrite (recoverMsg ts text) o with
    | (l1, none) => { l1 with health := l1.health.signalRecover }
    | (l1, some _) => l1

/-- One turn of the loop of `RotateLogger.write`: the outcomes of the pass,
the steps the health worker takes while the consumer is in `WaitRecover`, and
the choice of the `select` of `WaitRecover`. -/
structure WriteTurn where
  outcomes : WriteOutcomes
  health : List HealthAction
  pick : Nat
  deriving DecidableEq, Repr

/-- `RotateLogger.write(v)` along a schedule: the results of the passes made.
The run ends with the pass that writes the record, with a `WaitRecover` that
returns false or cannot proceed, or when the schedule ends. -/
def ActiveLogger.write (v : GoString) : List WriteTurn → ActiveLogger → List PassResult
  | [], _ => []
  | turn :: rest, l =>
    let r := l.writePass v turn.outcomes
    if r.wrote = true then [r]
    else
      let l1 := turn.health.foldl ActiveLogger.healthAct r.logger
      match l1.health.WaitRecover l1.done turn.pick with
      | some (h, true) => r :: ActiveLogger.write v rest { l1 with health := h }
      | _ => [r]

/-- The size invariant: while the active file is open, `currentSize` is the
size of the file when it was opened plus the bytes written to it since. -/
def ActiveLogger.sizeInvariant (l : ActiveLogger) : Bool :=
  match l.fp with
  | none => true
  | some f => decide (l.currentSize = f.sizeAtOpen + f.written)

/-- The limit of a rule in bytes, when it is a size-limit rule. -/
def RotateRule.maxBytes : RotateRule → Option Int
  | RotateRule.daily _ => none
  | RotateRule.sizeLimit r => some r.maxSize


/-! ## Example runs of the consumer and the health checker -/

/-- The size-limit rule of `logs/app.log` with a limit of 1 MiB. -/
def mebiRule : RotateRule :=
  RotateRule.sizeLimit (NewSizeLimitRotateRule exampleNow (lit "logs/app.log") (lit "-") 0 1 3 false)

/-- Outcomes of `initialize` in which the file does not exist and is
created. -/
def createOk : InitOutcomes :=
  { now := exampleNow, statFile := none, statDirErr := none, mkdirAllErr := none,
    createErr := none, chmodErr := none, openFileErr := none }

/-- Outcomes of `initialize` in which the file exists with `size` bytes and is
opened. -/
def openOk (size : Int) : InitOutcomes := { createOk with statFile := some size }

/-- Outcomes of `rotate` in which every call succeeds. -/
def rotateOk : RotateOutcomes :=
  { now := exampleNow, closeErr := none, statErr := none, renameErr := none,
    createErr := none, chmodErr := none }

/-- Outcomes of `rotate` in which `os.Rename` fails. -/
def renameFails : RotateOutcomes :=
  { rotateOk with renameErr := some (GoError.ioError (lit "permission denied")) }

/-- Outcomes of a pass in which rotation and write succeed. -/
def passOk : WriteOutcomes :=
  { nowShall := exampleNow, rotate := rotateOk, nowMark := exampleNow, write := WriteOutcome.ok }

/-- Outcomes of a test write on a file that exists. -/
def testWriteOk : TestWriteOutcomes :=
  { init1 := createOk, notExist := false, closeErr := none, init2 := createOk,
    write := WriteOutcome.ok }

/-- Outcomes of a test write on a file that was deleted: the old descriptor
is closed and the file is created again. -/
def testWriteDeleted : TestWriteOutcomes := { testWriteOk with notExist := true }

/-- A record of 20 bytes. -/
def record20 : GoString := List.replicate 20 120

/-- The text of a recovery message, 40 bytes. -/
def recoverText : GoString := lit "[qlog] system recovered from(...)       "

/-- A logger made by `NewLogger` on a file that did not exist. -/
def createdLogger : ActiveLogger :=
  ((newActiveLogger (lit "logs/app.log") mebiRule).initLogger createOk).1

/-- A logger made by `NewLogger` on an existing file of `size` bytes. -/
def openedLogger (size : Int) : ActiveLogger :=
  ((newActiveLogger (lit "logs/app.log") mebiRule).initLogger (openOk size)).1

/-- The logger `createdLogger` after a write of `record20` failed on a full
disk, the health worker took the notice and its test write succeeded. -/
def bannerLogger : ActiveLogger :=
  [HealthAction.notice exampleNow,
    HealthAction.round exampleCtx.timestamp recoverText testWriteOk].foldl
    ActiveLogger.healthAct
    (createdLogger.writePass record20
      { passOk with write := WriteOutcome.fails 0 errNoSpace }).logger

/-- The logger `openedLogger 500` after the file was deleted, the ticker of
the health worker reported it, the worker took the notice and its test write
created the file again. -/
def recreatedLogger : ActiveLogger :=
  [HealthAction.tick (some (GoError.ioError (lit "stat logs/app.log: no such file or directory"))),
    HealthAction.notice exampleNow,
    HealthAction.round exampleCtx.timestamp recoverText testWriteDeleted].foldl
    ActiveLogger.healthAct (openedLogger 500)


/-- The boundary file name in the words of the specification: the directory of
the file joined with the base name without its extension, the delimiter, the
instant `now - keepDays * 24h` in the file time format with dots for colons,
and the extension; followed by `.gz` when compression is on. -/
def ageBoundaryName (filename delimiter : GoString) (keepDays : Int) (gzip : Bool)
    (now : Time) : GoString :=
  Join (Dir filename)
    ((Base filename).take ((Base filename).length - (Ext filename).length) ++ delimiter
      ++ replaceColons (formatFileTime ⟨now.unixNano - keepDays * 24 * 3600000000000⟩)
      ++ Ext filename)
    ++ (if gzip then gzipExt else [])

/-- The size rule of `logs/app.log` with delimiter `-`, `keepDays = 7`, 1 MiB
and 3 backups. -/
def weekSizeRule : SizeLimitRotateRule :=
  NewSizeLimitRotateRule exampleNow (lit "logs/app.log") (lit "-") 7 1 3 false


/-- The size-limit rule of `logs/app.log` with an empty delimiter,
`keepDays = 7`, 1 MiB and 3 backups. -/
def emptyDelimiterSizeRule : SizeLimitRotateRule :=
  NewSizeLimitRotateRule exampleNow (lit "logs/app.log") [] 7 1 3 false

/-- A directory that holds the active file `logs/app.log` and one archive of
2026-10-31; the pattern `logs/app*.log` of a rule with an empty delimiter
matches both. -/
def emptyDelimiterSizeEnv : Env :=
  { now := exampleNow
    glob := fun p =>
      if p = lit "logs/app*.log" then
        some [lit "logs/app.log", lit "logs/app2026-10-31T12.00.00.000000000Z.log"]
      else some []
    stat := fun _ => some 100
    diskFree := fun _ => some 1000000000
    diskTotal := fun _ => some 10000000000 }


/-- The size of the file behind an open descriptor: its size when it was
opened plus the bytes written to it since. -/
def OsFile.size (f : OsFile) : Int := f.sizeAtOpen + f.written

/-- A run of `write(record20)` on a logger that opened a file of 1048500
bytes, under the limit of 1 MiB: the first write fails on a full disk and is
reported, the health worker takes the notice and writes its recovery message of
72 bytes, `WaitRecover` returns true, and the second pass writes the record. No
rotation is attempted. -/
def overLimitRun : List PassResult :=
  ActiveLogger.write record20
    [{ outcomes := { passOk with write := WriteOutcome.fails 0 errNoSpace },
       health := [HealthAction.notice exampleNow,
         HealthAction.round exampleCtx.timestamp recoverText testWriteOk],
       pick := 0 },
     { outcomes := passOk, health := [], pick := 0 }]
    (openedLogger 1048500)


/-- The level name `inf` written with a dotless i, U+0131 (bytes `C4 B1`). -/
def dotlessInf : GoString := [196, 177, 110, 102]


theorem strLt_irrefl (a : GoString) : strLt a a = false := by
  induction a with
  | nil => rfl
  | cons x xs ih => simp [strLt, ih]

theorem strLt_asymm : ∀ (a b : GoString), strLt a b = true → strLt b a = false
  | [], [], h => by simp [strLt] at h
  | [], _ :: _, _ => by simp [strLt]
  | _ :: _, [], h => by simp [strLt] at h
  | x :: xs, y :: ys, h => by
    simp only [strLt] at h ⊢
    by_cases h1 : x < y
    · have h2 : ¬ y < x := by omega
      simp [h1, h2]
    · by_cases h2 : y < x
      · simp [h1, h2] at h
      · simp only [h1, h2, if_false] at h ⊢
        exact strLt_asymm xs ys h

theorem strLt_trans : ∀ (a b c : GoString), strLt a b = true → strLt b c = true →
    strLt a c = true
  | [], _, [], _, h2 => by
    cases ‹GoString› <;> simp [strLt] at h2
  | [], _, _ :: _, _, _ => by simp [strLt]
  | _ :: _, [], _, h1, _ => by simp [strLt] at h1
  | _ :: _, _ :: _, [], _, h2 => by simp [strLt] at h2
  | x :: xs, y :: ys, z :: zs, h1, h2 => by
    simp only [strLt] at h1 h2 ⊢
    by_cases hxy : x < y
    · by_cases hyz : y < z
      · have : x < z := by omega
        simp [this]
      · by_cases hzy : z < y
        · simp [hyz, hzy] at h2
        · have : x < z := by omega
          simp [this]
    · by_cases hyx : y < x
      · simp [hxy, hyx] at h1
      · simp only [hxy, hyx, if_false] at h1
        have hxy2 : x = y := by omega
        subst hxy2
        by_cases hxz : x < z
        · simp [hxz]
        · by_cases hzx : z < x
          · simp [hxz, hzx] at h2
          · simp only [hxz, hzx, if_false] at h2 ⊢
            exact strLt_trans xs ys zs h1 h2

theorem strLt_connex : ∀ (a b : GoString), strLt a b = false → strLt b a = false → a = b
  | [], [], _, _ => rfl
  | [], _ :: _, h, _ => by simp [strLt] at h
  | _ :: _, [], _, h => by simp [strLt] at h
  | x :: xs, y :: ys, h1, h2 => by
    simp only [strLt] at h1 h2
    by_cases hxy : x < y
    · simp [hxy] at h1
    · by_cases hyx : y < x
      · simp [hyx] at h2
      · simp only [hxy, hyx, if_false] at h1 h2
        have : x = y := by omega
        rw [this, strLt_connex xs ys h1 h2]

/-- `a ≤ b` and `b < c` give `a < c`. -/
theorem strLt_of_le_of_lt (a b c : GoString) (h1 : strLt b a = false)
    (h2 : strLt b c = true) : strLt a c = true := by
  by_cases hab : strLt a b = true
  · exact strLt_trans a b c hab h2
  · have : a = b := strLt_connex a b (by simpa using hab) h1
    rw [this]
    exact h2

/-- `a ≤ b` and `b ≤ c` give `a ≤ c`. -/
theorem strLe_trans (a b c : GoString) (h1 : strLt b a = false) (h2 : strLt c b = false) :
    strLt c a = false := by
  by_contra h
  have hca : strLt c a = true := by simpa using h
  have := strLt_of_le_of_lt b c a h2 hca
  rw [h1] at this
  exact Bool.noConfusion this

theorem strLt_append_left (p a b : GoString) : strLt (p ++ a) (p ++ b) = strLt a b := by
  induction p with
  | nil => rfl
  | cons x xs ih => simp [strLt, ih]

theorem strLt_append_of_lt : ∀ (a b c d : GoString), a.length = b.length →
    strLt a b = true → strLt (a ++ c) (b ++ d) = true
  | [], [], _, _, _, h => by simp [strLt] at h
  | [], _ :: _, _, _, hl, _ => by simp at hl
  | _ :: _, [], _, _, hl, _ => by simp at hl
  | x :: xs, y :: ys, c, d, hl, h => by
    simp only [strLt, List.cons_append] at h ⊢
    by_cases h1 : x < y
    · simp [h1]
    · by_cases h2 : y < x
      · simp [h1, h2] at h
      · simp only [h1, h2, if_false] at h ⊢
        exact strLt_append_of_lt xs ys c d (by simpa using hl) h

/-! ## `sort.Strings` returns an ascending rearrangement -/

theorem insertSorted_perm (x : GoString) (l : List GoString) :
    (insertSorted x l).Perm (x :: l) := by
  induction l with
  | nil => exact List.Perm.refl _
  | cons y ys ih =>
    simp only [insertSorted]
    split
    · exact List.Perm.refl _
    · exact (List.Perm.cons y ih).trans (List.Perm.swap x y ys)

theorem sortStrings_perm (l : List GoString) : (sortStrings l).Perm l := by
  induction l with
  | nil => exact List.Perm.refl _
  | cons x xs ih =>
    simp only [sortStrings]
    exact (insertSorted_perm x _).trans (List.Perm.cons x ih)

theorem insertSorted_ascending (x : GoString) (l : List GoString) (h : Ascending l) :
    Ascending (insertSorted x l) := by
  induction l with
  | nil => simp [insertSorted, Ascending]
  | cons y ys ih =>
    unfold Ascending at h ih ⊢
    rw [List.pairwise_cons] at h
    simp only [insertSorted]
    by_cases hxy : strLt x y = true
    · simp only [hxy, if_true]
      rw [List.pairwise_cons]
      refine ⟨?_, List.pairwise_cons.mpr h⟩
      intro z hz
      rcases List.mem_cons.mp hz with hz | hz
      · rw [hz]
        exact strLt_asymm x y hxy
      · by_contra hc
        have hzx : strLt z x = true := by simpa using hc
        have := strLt_trans z x y hzx hxy
        rw [h.1 z hz] at this
        exact Bool.noConfusion this
    · have hxy2 : strLt x y = false := by simpa using hxy
      simp only [hxy2, Bool.false_eq_true, if_false]
      rw [List.pairwise_cons]
      refine ⟨?_, ih h.2⟩
      intro z hz
      have hz2 : z ∈ x :: ys := (insertSorted_perm x ys).mem_iff.mp hz
      rcases List.mem_cons.mp hz2 with hz3 | hz3
      · rw [hz3]
        by_contra hc
        exact hxy (by simpa using hc)
      · exact h.1 z hz3

theorem sortStrings_ascending (l : List GoString) : Ascending (sortStrings l) := by
  induction l with
  | nil => simp [sortStrings, Ascending]
  | cons x xs ih => exact insertSorted_ascending x _ ih

/-! ## The map `outdated` only grows -/

theorem markOutdated_mem (out : List GoString) (f g : GoString) :
    g ∈ markOutdated out f ↔ g ∈ out ∨ g = f := by
  unfold markOutdated
  by_cases h : f ∈ out
  · simp only [h, if_true]
    constructor
    · intro hg
      exact Or.inl hg
    · rintro (hg | hg)
      · exact hg
      · rw [hg]
        exact h
  · simp [h]

theorem markAll_mem (fs out : List GoString) (g : GoString) :
    g ∈ markAll out fs ↔ g ∈ out ∨ g ∈ fs := by
  induction fs generalizing out with
  | nil => simp [markAll]
  | cons f fs ih =>
    have : markAll out (f :: fs) = markAll (markOutdated out f) fs := rfl
    rw [this, ih, markOutdated_mem]
    simp only [List.mem_cons]
    tauto

theorem pressureLoop_cons (env : Env) (m : Int) (f : GoString) (fs out : List GoString)
    (t : Int) :
    pressureLoop env m (f :: fs) out t =
      if f ∈ out then (if t ≤ m then out else pressureLoop env m fs out t)
      else (if wrap64 (t - fileSizes env f) ≤ m then out ++ [f]
        else pressureLoop env m fs (out ++ [f]) (wrap64 (t - fileSizes env f))) := by
  by_cases h : f ∈ out <;> simp [pressureLoop, h]

theorem pressureLoop_mono (env : Env) (m : Int) (files out : List GoString) (t : Int)
    (g : GoString) (hg : g ∈ out) : g ∈ pressureLoop env m files out t := by
  induction files generalizing out t with
  | nil => simpa [pressureLoop] using hg
  | cons f fs ih =>
    rw [pressureLoop_cons]
    by_cases h : f ∈ out
    · simp only [h, if_true]
      by_cases h2 : t ≤ m
      · simpa [h2] using hg
      · simp only [h2, if_false]
        exact ih _ _ hg
    · simp only [h, if_false]
      have hg2 : g ∈ out ++ [f] := List.mem_append_left _ hg
      by_cases h2 : wrap64 (t - fileSizes env f) ≤ m
      · simpa [h2] using Or.inl hg
      · simp only [h2, if_false]
        exact ih _ _ hg2

theorem pressureLoop_subset (env : Env) (m : Int) (files out : List GoString) (t : Int)
    (g : GoString) (hg : g ∈ pressureLoop env m files out t) : g ∈ out ∨ g ∈ files := by
  induction files generalizing out t with
  | nil => left; simpa [pressureLoop] using hg
  | cons f fs ih =>
    rw [pressureLoop_cons] at hg
    by_cases h : f ∈ out
    · simp only [h, if_true] at hg
      by_cases h2 : t ≤ m
      · simp only [h2, if_true] at hg
        exact Or.inl hg
      · simp only [h2, if_false] at hg
        rcases ih _ _ hg with h3 | h3
        · exact Or.inl h3
        · exact Or.inr (List.mem_cons_of_mem _ h3)
    · simp only [h, if_false] at hg
      have key : g ∈ out ++ [f] → g ∈ out ∨ g ∈ f :: fs := by
        intro h3
        rcases List.mem_append.mp h3 with h4 | h4
        · exact Or.inl h4
        · right
          rw [List.mem_singleton.mp h4]
          exact List.mem_cons_self _ _
      by_cases h2 : wrap64 (t - fileSizes env f) ≤ m
      · simp only [h2, if_true] at hg
        exact key hg
      · simp only [h2, if_false] at hg
        rcases ih _ _ hg with h3 | h3
        · exact key h3
        · exact Or.inr (List.mem_cons_of_mem _ h3)

theorem ageLoop_mono (b : GoString) (files out : List GoString)
    (g : GoString) (hg : g ∈ out) : g ∈ ageLoop b files out := by
  induction files generalizing out with
  | nil => simpa [ageLoop] using hg
  | cons f fs ih =>
    simp only [ageLoop]
    split
    · exact hg
    · exact ih _ ((markOutdated_mem out f g).mpr (Or.inl hg))

theorem ageLoop_subset (b : GoString) (files out : List GoString)
    (g : GoString) (hg : g ∈ ageLoop b files out) : g ∈ out ∨ g ∈ files := by
  induction files generalizing out with
  | nil => left; simpa [ageLoop] using hg
  | cons f fs ih =>
    simp only [ageLoop] at hg
    split at hg
    · exact Or.inl hg
    · rcases ih _ hg with h | h
      · rcases (markOutdated_mem out f g).mp h with h | h
        · exact Or.inl h
        · right; rw [h]; exact List.mem_cons_self _ _
      · right; exact List.mem_cons_of_mem _ h

theorem pressureRule_mono (r : SizeLimitRotateRule) (env : Env) (files out : List GoString)
    (g : GoString) (hg : g ∈ out) : g ∈ r.pressureRule env files out := by
  unfold SizeLimitRotateRule.pressureRule
  simp only
  split_ifs
  all_goals first
    | exact hg
    | exact pressureLoop_mono _ _ _ _ _ _ hg

theorem pressureRule_subset (r : SizeLimitRotateRule) (env : Env) (files out : List GoString)
    (g : GoString) (hg : g ∈ r.pressureRule env files out) : g ∈ out ∨ g ∈ files := by
  unfold SizeLimitRotateRule.pressureRule at hg
  simp only at hg
  split_ifs at hg
  all_goals first
    | exact Or.inl hg
    | exact pressureLoop_subset _ _ _ _ _ _ hg

theorem ageRule_mono (r : SizeLimitRotateRule) (env : Env) (files out : List GoString)
    (g : GoString) (hg : g ∈ out) : g ∈ r.ageRule env files out := by
  unfold SizeLimitRotateRule.ageRule
  split
  · exact ageLoop_mono _ _ _ _ hg
  · exact hg

theorem ageRule_subset (r : SizeLimitRotateRule) (env : Env) (files out : List GoString)
    (g : GoString) (hg : g ∈ r.ageRule env files out) : g ∈ out ∨ g ∈ files := by
  unfold SizeLimitRotateRule.ageRule at hg
  split at hg
  · exact ageLoop_subset _ _ _ _ hg
  · exact Or.inl hg

/-! ## `Write` and `Close` -/

/-- C1. While `done` is not set, `Write` is deterministic whatever the
scheduler's choice: with fewer than 1000 queued records it appends `data` at
the tail of the queue and returns `(len(data), nil)`; with 1000 queued records
it leaves the logger unchanged and returns `(0, nil)`. -/
theorem Write_open (l : RotateLogger) (data : GoString) (pick : Nat)
    (hdone : l.done = false) :
    (l.channel.length < 1000 →
      Write l data pick = ({ l with channel := l.channel ++ [data] }, (data.length : Int), none)) ∧
    (l.channel.length = 1000 → Write l data pick = (l, 0, none)) := by
  constructor
  · intro h
    simp [Write, hdone, maxLogItemBufferSize, h]
  · intro h
    simp [Write, hdone, maxLogItemBufferSize, h]

/-- C1, witness: a fresh logger and the record `hi`. -/
theorem Write_open_witness :
    ((NewLogger (lit "app.log")).channel.length < 1000 →
      Write (NewLogger (lit "app.log")) (lit "hi") 7 =
        ({ NewLogger (lit "app.log") with
            channel := (NewLogger (lit "app.log")).channel ++ [lit "hi"] },
          ((lit "hi").length : Int), none)) ∧
    ((NewLogger (lit "app.log")).channel.length = 1000 →
      Write (NewLogger (lit "app.log")) (lit "hi") 7 = (NewLogger (lit "app.log"), 0, none)) :=
  Write_open (NewLogger (lit "app.log")) (lit "hi") 7 rfl

/-- C2, the code at the failing input. After `Close` has returned on a fresh
logger the queue is empty and `done` is closed, so both the send case and the
`done` case of the `select` can proceed; when the scheduler picks the send
case, `Write` enqueues the record and returns `(1, nil)` instead of
`(0, ErrLogFileClosed)`. -/
theorem Write_after_Close_enqueues :
    Write (Close (NewLogger (lit "app.log")) none none).1 (lit "x") 0 =
      ({ (Close (NewLogger (lit "app.log")) none none).1 with channel := [lit "x"] },
        1, none) := by
  decide

/-- After `Close`, `Write` returns `(0, ErrLogFileClosed)` without enqueuing
whenever the scheduler picks the `done` case or the queue is full. -/
theorem Write_closed_done_case (l : RotateLogger) (data : GoString) (pick : Nat)
    (hdone : l.done = true) (h : pick % 2 = 1 ∨ 1000 ≤ l.channel.length) :
    Write l data pick =
      ({ l with stdlog := l.stdlog ++ [data] }, 0, some GoError.ErrLogFileClosed) := by
  rcases h with h | h
  · by_cases hs : l.channel.length < 1000 <;>
      simp [Write, hdone, maxLogItemBufferSize, hs, h]
  · have hs : ¬ l.channel.length < 1000 := by omega
    simp [Write, hdone, maxLogItemBufferSize, hs]

/-- Once the latch has fired, `Close` does nothing and returns `nil`. -/
theorem Close_latched (l : RotateLogger) (s c : Option GoError) (h : l.closeOnce = true) :
    Close l s c = (l, none) := by
  simp [Close, h]

/-- C3, counterexample. When the final `Sync` fails with an error `e`, the
first `Close` returns `e` and the second returns `nil`. -/
theorem Close_twice_differs :
    ¬ ((Close (Close (NewLogger (lit "app.log")) (some (GoError.ioError (lit "EIO"))) none).1
          (some (GoError.ioError (lit "EIO"))) none).2 =
        (Close (NewLogger (lit "app.log")) (some (GoError.ioError (lit "EIO"))) none).2) := by
  decide

/-- C3, amended. For every logger and every outcome of `Sync` and `Close`, the
second of two successive calls of `Close` skips the body (one-shot latch): it
leaves the logger as the first call left it and returns `nil`; hence it returns
the first call's error exactly when the first call returned `nil`. -/
theorem Close_second_nil (l : RotateLogger) (s1 c1 s2 c2 : Option GoError) :
    Close (Close l s1 c1).1 s2 c2 = ((Close l s1 c1).1, none) ∧
    ((Close (Close l s1 c1).1 s2 c2).2 = (Close l s1 c1).2 ↔ (Close l s1 c1).2 = none) := by
  have h1 : (Close l s1 c1).1.closeOnce = true := by
    unfold Close
    by_cases h : l.closeOnce = true
    · simp [h]
    · cases s1 <;> simp [h]
  have h2 : Close (Close l s1 c1).1 s2 c2 = ((Close l s1 c1).1, none) :=
    Close_latched _ s2 c2 h1
  refine ⟨h2, ?_⟩
  rw [h2]
  constructor
  · intro h
    exact h.symm
  · intro h
    exact h.symm

/-! ## `ShallRotate` of the size-limit rule -/

/-- The limit in bytes is not wrapped when `m` MiB fits in `int64`. -/
theorem NewSizeLimitRotateRule_maxSize (now : Time) (filename delimiter : GoString)
    (days m maxBackups : Int) (gzip : Bool) (hm : -(2 ^ 43) ≤ m ∧ m < 2 ^ 43) :
    (NewSizeLimitRotateRule now filename delimiter days m maxBackups gzip).maxSize
      = m * 2 ^ 20 := by
  simp only [NewSizeLimitRotateRule, wrap64, megaBytes]
  omega

/-- C4. For the rule built by `NewSizeLimitRotateRule` with a limit of `m` MiB
(`m` MiB being an `int64` number of bytes) and every projected size `s`,
`ShallRotate s` is true exactly when `m > 0` and `s > m * 2^20`. -/
theorem ShallRotate_iff (now : Time) (filename delimiter : GoString)
    (days m maxBackups : Int) (gzip : Bool) (s : Int) (hm : -(2 ^ 43) ≤ m ∧ m < 2 ^ 43) :
    (NewSizeLimitRotateRule now filename delimiter days m maxBackups gzip).ShallRotate s = true
      ↔ (m > 0 ∧ s > m * 2 ^ 20) := by
  have h := NewSizeLimitRotateRule_maxSize now filename delimiter days m maxBackups gzip hm
  simp only [SizeLimitRotateRule.ShallRotate, h, decide_eq_true_eq]
  constructor
  · rintro ⟨h1, h2⟩
    exact ⟨by omega, h2⟩
  · rintro ⟨h1, h2⟩
    exact ⟨by omega, h2⟩

/-- C4, witness: a limit of 1 MiB and a projected size of 1 MiB plus one byte. -/
theorem ShallRotate_iff_witness :
    (-(2 ^ 43) ≤ (1 : Int) ∧ (1 : Int) < 2 ^ 43) ∧
    ((NewSizeLimitRotateRule ⟨0⟩ (lit "logs/app.log") (lit "-") 0 1 3 false).ShallRotate 1048577
        = true ↔ ((1 : Int) > 0 ∧ (1048577 : Int) > 1 * 2 ^ 20)) :=
  ⟨by decide, ShallRotate_iff ⟨0⟩ (lit "logs/app.log") (lit "-") 0 1 3 false 1048577 (by decide)⟩

/-- With `maxSize = 0` the size rule never rotates. -/
theorem ShallRotate_zero (now : Time) (filename delimiter : GoString)
    (days maxBackups : Int) (gzip : Bool) (s : Int) :
    (NewSizeLimitRotateRule now filename delimiter days 0 maxBackups gzip).ShallRotate s
      = false := by
  simp [SizeLimitRotateRule.ShallRotate, NewSizeLimitRotateRule, wrap64]

/-- A projected size equal to the limit does not rotate. -/
theorem ShallRotate_at_limit (r : SizeLimitRotateRule) :
    r.ShallRotate r.maxSize = false := by
  simp [SizeLimitRotateRule.ShallRotate]

/-- Outside the `int64` range the byte limit wraps around: `2^44 + 1` MiB
becomes a limit of 1 MiB. -/
theorem ShallRotate_wrapped :
    (NewSizeLimitRotateRule ⟨0⟩ (lit "logs/app.log") (lit "-") 0 (2 ^ 44 + 1) 3 false).ShallRotate
      1048577 = true := by
  decide

/-! ## Retention: the daily rule -/

/-- As long as the product does not overflow (up to 106751 days, about 292
years) the duration is `days` times 24 hours back. -/
theorem keepDuration_eq (days : Int) (h0 : 0 ≤ days) (h1 : days ≤ 106751) :
    keepDuration days = -(days * 86400000000000) := by
  simp only [keepDuration, wrap64, timeHour, hoursPerDay]
  omega

/-- C8. For the daily rule: with `keepDays <= 0` `OutdatedFiles` is empty;
otherwise, for every list of files the glob returns, `OutdatedFiles` is exactly
the sub-list of the files whose name is strictly less than
`<filename><delim><date of now - keepDays>` (followed by `.gz` when gzip is
on); sizes and counts play no part. -/
theorem Daily_OutdatedFiles_exact (r : DailyRotateRule) (env : Env) :
    (r.days ≤ 0 → r.OutdatedFiles env = []) ∧
    (∀ files : List GoString, 0 < r.days → env.glob r.outdatedPattern = some files →
      r.OutdatedFiles env =
        files.filter (fun file =>
          strLt file (r.filename ++ r.delimiter ++ formatDate (env.now.Add (keepDuration r.days))
            ++ (if r.gzip then gzipExt else [])))) := by
  constructor
  · intro h
    simp [DailyRotateRule.OutdatedFiles, h]
  · intro files hd hg
    have hd2 : ¬ r.days ≤ 0 := by omega
    simp [DailyRotateRule.OutdatedFiles, hd2, hg, DailyRotateRule.boundaryFile]

/-- C8, witness: `app.log` with archives of October 27, 29 and 31 on
2026-11-01, for `keepDays = 0` and `keepDays = 2`. -/
theorem Daily_OutdatedFiles_exact_witness :
    (DefaultRotateRule exampleNow (lit "app.log") (lit "-") 0 false).OutdatedFiles exampleDailyEnv
      = [] ∧
    (DefaultRotateRule exampleNow (lit "app.log") (lit "-") 2 false).OutdatedFiles exampleDailyEnv
      = [lit "app.log-2026-10-27", lit "app.log-2026-10-29"] :=
  ⟨(Daily_OutdatedFiles_exact (DefaultRotateRule exampleNow (lit "app.log") (lit "-") 0 false)
      exampleDailyEnv).1 (by decide),
   ((Daily_OutdatedFiles_exact (DefaultRotateRule exampleNow (lit "app.log") (lit "-") 2 false)
      exampleDailyEnv).2
      [lit "app.log-2026-10-27", lit "app.log-2026-10-29", lit "app.log-2026-10-31"]
      (by decide) (by decide)).trans (by decide)⟩

/-! ## Retention: the size-limit rule -/

theorem countRule_marked (r : SizeLimitRotateRule) (sorted : List GoString)
    (hb : 0 < r.maxBackups) (hn : (sorted.length : Int) > r.maxBackups) :
    r.countRule sorted =
      (markAll [] (sorted.take ((sorted.length : Int) - r.maxBackups).toNat),
        sorted.drop ((sorted.length : Int) - r.maxBackups).toNat) := by
  unfold SizeLimitRotateRule.countRule
  rw [if_pos ⟨hb, hn⟩]

/-- A file of the sorted glob result is marked by the count rule or is still
in the slice `files`. -/
theorem countRule_cover (r : SizeLimitRotateRule) (sorted : List GoString) (f : GoString)
    (hf : f ∈ sorted) : f ∈ (r.countRule sorted).1 ∨ f ∈ (r.countRule sorted).2 := by
  unfold SizeLimitRotateRule.countRule
  split_ifs
  · simp only
    rw [markAll_mem]
    have : f ∈ sorted.take ((sorted.length : Int) - r.maxBackups).toNat ++
        sorted.drop ((sorted.length : Int) - r.maxBackups).toNat := by
      rw [List.take_append_drop]
      exact hf
    rcases List.mem_append.mp this with h | h
    · exact Or.inl (Or.inr h)
    · exact Or.inr h
  · exact Or.inr hf

/-- The slice `files` of the count rule is a sublist of the sorted list. -/
theorem countRule_sublist (r : SizeLimitRotateRule) (sorted : List GoString) :
    (r.countRule sorted).2.Sublist sorted := by
  unfold SizeLimitRotateRule.countRule
  split_ifs
  · exact List.drop_sublist _ _
  · exact List.Sublist.refl _

/-- What the count rule marks comes from the sorted list. -/
theorem countRule_subset (r : SizeLimitRotateRule) (sorted : List GoString) (f : GoString)
    (hf : f ∈ (r.countRule sorted).1) : f ∈ sorted := by
  unfold SizeLimitRotateRule.countRule at hf
  split_ifs at hf
  · simp only at hf
    rw [markAll_mem] at hf
    rcases hf with h | h
    · simp at h
    · exact List.mem_of_mem_take h
  · simp at hf

/-- Everything the count rule marked is in the result. -/
theorem OutdatedFiles_of_count (r : SizeLimitRotateRule) (env : Env) (globbed : List GoString)
    (hg : env.glob r.outdatedPattern = some globbed) (f : GoString)
    (hf : f ∈ (r.countRule (sortStrings globbed)).1) : f ∈ r.OutdatedFiles env := by
  simp only [SizeLimitRotateRule.OutdatedFiles, hg]
  exact ageRule_mono _ _ _ _ _ (pressureRule_mono _ _ _ _ _ hf)

/-- The result holds only paths that the glob returned. -/
theorem OutdatedFiles_subset_glob (r : SizeLimitRotateRule) (env : Env) (f : GoString)
    (hf : f ∈ r.OutdatedFiles env) :
    ∃ globbed, env.glob r.outdatedPattern = some globbed ∧ f ∈ globbed := by
  unfold SizeLimitRotateRule.OutdatedFiles at hf
  cases hg : env.glob r.outdatedPattern with
  | none => simp [hg] at hf
  | some globbed =>
    refine ⟨globbed, rfl, ?_⟩
    simp only [hg] at hf
    have hsub : ∀ g, g ∈ (r.countRule (sortStrings globbed)).2 → g ∈ globbed := fun g hg2 =>
      (sortStrings_perm globbed).mem_iff.mp ((countRule_sublist r _).subset hg2)
    rcases ageRule_subset _ _ _ _ _ hf with h | h
    · rcases pressureRule_subset _ _ _ _ _ h with h2 | h2
      · exact (sortStrings_perm globbed).mem_iff.mp (countRule_subset r _ f h2)
      · exact hsub f h2
    · exact hsub f h

/-- C5. For the size-limit rule with `maxBackups > 0` and every list of
archives the glob returns: when their number `n` exceeds `maxBackups`, the
`n - maxBackups` smallest names (the first ones of the sorted list) are all in
`OutdatedFiles`, and at most `maxBackups` archives are not in `OutdatedFiles`. -/
theorem OutdatedFiles_count (r : SizeLimitRotateRule) (env : Env) (globbed : List GoString)
    (hb : 0 < r.maxBackups) (hg : env.glob r.outdatedPattern = some globbed)
    (hn : (globbed.length : Int) > r.maxBackups) :
    (∀ f ∈ (sortStrings globbed).take ((globbed.length : Int) - r.maxBackups).toNat,
        f ∈ r.OutdatedFiles env) ∧
    (((globbed.filter (fun f => decide (f ∉ r.OutdatedFiles env))).length : Int)
        ≤ r.maxBackups) := by
  have hlen : (sortStrings globbed).length = globbed.length := (sortStrings_perm globbed).length_eq
  have hn2 : ((sortStrings globbed).length : Int) > r.maxBackups := by rw [hlen]; exact hn
  have hcount := countRule_marked r (sortStrings globbed) hb hn2
  rw [hlen] at hcount
  have hfirst : ∀ f ∈ (sortStrings globbed).take ((globbed.length : Int) - r.maxBackups).toNat,
      f ∈ r.OutdatedFiles env := by
    intro f hf
    apply OutdatedFiles_of_count r env globbed hg
    rw [hcount]
    simp only
    rw [markAll_mem]
    exact Or.inr hf
  refine ⟨hfirst, ?_⟩
  have hperm := (sortStrings_perm globbed).filter (fun f => decide (f ∉ r.OutdatedFiles env))
  rw [← hperm.length_eq]
  have hsplit : sortStrings globbed =
      (sortStrings globbed).take ((globbed.length : Int) - r.maxBackups).toNat ++
      (sortStrings globbed).drop ((globbed.length : Int) - r.maxBackups).toNat :=
    (List.take_append_drop _ _).symm
  rw [hsplit, List.filter_append]
  have hnil : ((sortStrings globbed).take ((globbed.length : Int) - r.maxBackups).toNat).filter
      (fun f => decide (f ∉ r.OutdatedFiles env)) = [] := by
    rw [List.filter_eq_nil_iff]
    intro f hf
    simp [hfirst f hf]
  rw [hnil, List.nil_append]
  have hle := List.length_filter_le (fun f => decide (f ∉ r.OutdatedFiles env))
    ((sortStrings globbed).drop ((globbed.length : Int) - r.maxBackups).toNat)
  rw [List.length_drop, hlen] at hle
  omega

/-- C5, witness: four archives and `maxBackups = 3`. -/
theorem OutdatedFiles_count_witness :
    (0 < exampleSizeRule.maxBackups ∧
      exampleEnv.glob exampleSizeRule.outdatedPattern = some exampleArchives ∧
      (exampleArchives.length : Int) > exampleSizeRule.maxBackups) ∧
    ((∀ f ∈ (sortStrings exampleArchives).take
          ((exampleArchives.length : Int) - exampleSizeRule.maxBackups).toNat,
        f ∈ exampleSizeRule.OutdatedFiles exampleEnv) ∧
      (((exampleArchives.filter
          (fun f => decide (f ∉ exampleSizeRule.OutdatedFiles exampleEnv))).length : Int)
        ≤ exampleSizeRule.maxBackups)) :=
  ⟨⟨by decide, by decide, by decide⟩,
    OutdatedFiles_count exampleSizeRule exampleEnv exampleArchives
      (by decide) (by decide) (by decide)⟩

/-- On an ascending list the age loop marks every file before the boundary. -/
theorem ageLoop_marks (b : GoString) (files out : List GoString) (hs : Ascending files)
    (f : GoString) (hf : f ∈ files) (hlt : strLt f b = true) : f ∈ ageLoop b files out := by
  induction files generalizing out with
  | nil => simp at hf
  | cons g rest ih =>
    unfold Ascending at hs
    rw [List.pairwise_cons] at hs
    simp only [ageLoop]
    by_cases hge : strGe g b = true
    · exfalso
      have hgb : strLt g b = false := by simpa [strGe] using hge
      rcases List.mem_cons.mp hf with h | h
      · rw [h, hgb] at hlt
        exact Bool.noConfusion hlt
      · have := strLt_of_le_of_lt g f b (hs.1 f h) hlt
        rw [hgb] at this
        exact Bool.noConfusion this
    · simp only [hge]
      rcases List.mem_cons.mp hf with h | h
      · rw [h]
        exact ageLoop_mono _ _ _ _ ((markOutdated_mem out g g).mpr (Or.inr rfl))
      · exact ih _ hs.2 h

/-- Every archive whose name is strictly less than the string `boundaryFile`
of the code is in `OutdatedFiles`. -/
theorem OutdatedFiles_before_boundaryFile (r : SizeLimitRotateRule) (env : Env)
    (globbed : List GoString)
    (f : GoString) (hd : 0 < r.days) (hg : env.glob r.outdatedPattern = some globbed)
    (hf : f ∈ globbed) (hlt : strLt f (r.boundaryFile env.now) = true) :
    f ∈ r.OutdatedFiles env := by
  have hfs : f ∈ sortStrings globbed := (sortStrings_perm globbed).mem_iff.mpr hf
  rcases countRule_cover r (sortStrings globbed) f hfs with h | h
  · exact OutdatedFiles_of_count r env globbed hg f h
  · simp only [SizeLimitRotateRule.OutdatedFiles, hg]
    unfold SizeLimitRotateRule.ageRule
    rw [if_pos hd]
    have hasc : Ascending (r.countRule (sortStrings globbed)).2 :=
      List.Pairwise.sublist (countRule_sublist r _) (sortStrings_ascending globbed)
    exact ageLoop_marks _ _ _ hasc f h hlt

/-- The string `boundaryFile` of the code is the boundary file name of the
specification, as long as `keepDays * 24h` is an `int64` number of
nanoseconds. -/
theorem boundaryFile_eq (r : SizeLimitRotateRule) (now : Time) (h0 : 0 ≤ r.days)
    (h1 : r.days ≤ 106751) :
    r.boundaryFile now = ageBoundaryName r.filename r.delimiter r.days r.gzip now := by
  have ht : now.Add (keepDuration r.days) = ⟨now.unixNano - r.days * 24 * 3600000000000⟩ := by
    rw [keepDuration_eq r.days h0 h1]
    show (⟨now.unixNano + -(r.days * 86400000000000)⟩ : Time) = _
    congr 1
    ring
  unfold SizeLimitRotateRule.boundaryFile ageBoundaryName SizeLimitRotateRule.parseFilename
  simp only [ht]

/-- C7. For the size-limit rule with `keepDays > 0` (at most 106751 days, so
that `keepDays * 24h` is an `int64` number of nanoseconds), every instant `now`
and every list of archives the glob returns: every archive whose name is
strictly less than the boundary file name (directory, base name without
extension, delimiter, the instant `now - keepDays * 24h` in the file time
format with dots for colons, extension, and `.gz` when compression is on) is in
`OutdatedFiles`; so every archive that is not in `OutdatedFiles` has a name
that is not less than the boundary file name. -/
theorem OutdatedFiles_age (r : SizeLimitRotateRule) (env : Env) (globbed : List GoString)
    (hd : 0 < r.days) (hmax : r.days ≤ 106751)
    (hg : env.glob r.outdatedPattern = some globbed) :
    (∀ f ∈ globbed,
      strLt f (ageBoundaryName r.filename r.delimiter r.days r.gzip env.now) = true →
        f ∈ r.OutdatedFiles env) ∧
    (∀ f ∈ globbed, f ∉ r.OutdatedFiles env →
      strLt f (ageBoundaryName r.filename r.delimiter r.days r.gzip env.now) = false) := by
  have hb := boundaryFile_eq r env.now (le_of_lt hd) hmax
  have key : ∀ f ∈ globbed,
      strLt f (ageBoundaryName r.filename r.delimiter r.days r.gzip env.now) = true →
        f ∈ r.OutdatedFiles env := by
    intro f hf hlt
    rw [← hb] at hlt
    exact OutdatedFiles_before_boundaryFile r env globbed f hd hg hf hlt
  refine ⟨key, ?_⟩
  intro f hf hnot
  cases hlt : strLt f (ageBoundaryName r.filename r.delimiter r.days r.gzip env.now) with
  | false => rfl
  | true => exact absurd (key f hf hlt) hnot

/-- C7, witness: `logs/app.log` with `keepDays = 7` on 2026-11-01. The
boundary file name is that of 2026-10-25; the archives of October 1 and 20 are
outdated; those of October 30 and 31 are not and are not less than the
boundary. -/
theorem OutdatedFiles_age_witness :
    (0 < weekSizeRule.days ∧ weekSizeRule.days ≤ 106751 ∧
      exampleEnv.glob weekSizeRule.outdatedPattern = some exampleArchives) ∧
    ageBoundaryName (lit "logs/app.log") (lit "-") 7 false exampleNow
      = lit "logs/app-2026-10-25T00.00.00.000000000Z.log" ∧
    weekSizeRule.OutdatedFiles exampleEnv =
      [lit "logs/app-2026-10-01T00.00.00.000000000Z.log",
        lit "logs/app-2026-10-20T00.00.00.000000000Z.log"] ∧
    ((∀ f ∈ exampleArchives,
      strLt f (ageBoundaryName weekSizeRule.filename weekSizeRule.delimiter weekSizeRule.days
        weekSizeRule.gzip exampleEnv.now) = true → f ∈ weekSizeRule.OutdatedFiles exampleEnv) ∧
    (∀ f ∈ exampleArchives, f ∉ weekSizeRule.OutdatedFiles exampleEnv →
      strLt f (ageBoundaryName weekSizeRule.filename weekSizeRule.delimiter weekSizeRule.days
        weekSizeRule.gzip exampleEnv.now) = false)) :=
  ⟨⟨by decide, by decide, by decide⟩, by decide, by decide,
    OutdatedFiles_age weekSizeRule exampleEnv exampleArchives (by decide) (by decide)
      (by decide)⟩

/-! ## `int64(float64(x) * 0.8)` is at most `0.8 * x` below `2^50` -/

/-- From `2^50` on the rounding of the `float64` product can exceed `0.8 * x`. -/
theorem scale80_above : 4 * 1788332159189501 < 5 * scale80 1788332159189501 := by
  decide

/-! ## Retention: disk pressure -/

theorem wrap64_id (x : Int) (h0 : -(2 ^ 63) ≤ x) (h1 : x ≤ maxInt64) : wrap64 x = x := by
  simp only [wrap64, maxInt64] at *
  omega

/-- C9, at the failing inputs. A daily rule for `app.log` with an empty
delimiter and `keepDays = 1` globs `app.log*`, which matches the active file;
the active file is a proper prefix of the boundary file name, so it is reported
as outdated. A size-limit rule for `logs/app.log` with an empty delimiter and
`keepDays = 7` globs `logs/app*.log`, which matches the active file; its name
sorts before the boundary file name and before the archive, so it is reported
as outdated, and the archive, which is newer than the boundary, is not. -/
theorem OutdatedFiles_contains_active :
    emptyDelimiterEnv.glob
      (DefaultRotateRule exampleNow (lit "app.log") [] 1 false).outdatedPattern
        = some [lit "app.log"] ∧
    (DefaultRotateRule exampleNow (lit "app.log") [] 1 false).filename ∈
      (DefaultRotateRule exampleNow (lit "app.log") [] 1 false).OutdatedFiles
        emptyDelimiterEnv ∧
    emptyDelimiterSizeRule.outdatedPattern = lit "logs/app*.log" ∧
    emptyDelimiterSizeRule.filename = lit "logs/app.log" ∧
    emptyDelimiterSizeRule.OutdatedFiles emptyDelimiterSizeEnv = [lit "logs/app.log"] := by
  decide

/-- A string is smaller than each of its proper extensions. -/
theorem strLt_extension (a b : GoString) (hb : b ≠ []) : strLt a (a ++ b) = true := by
  have h := strLt_append_left a [] b
  rw [List.append_nil] at h
  rw [h]
  cases b with
  | nil => exact absurd rfl hb
  | cons c cs => rfl

/-- The active file is smaller than the boundary file name of the daily rule. -/
theorem Daily_filename_lt_boundary (r : DailyRotateRule) (now : Time) :
    strLt r.filename (r.boundaryFile now) = true := by
  unfold DailyRotateRule.boundaryFile
  rw [List.append_assoc, List.append_assoc]
  apply strLt_extension
  intro h
  have hlen := congrArg List.length h
  simp [formatDate] at hlen

/-- For both rule variants `OutdatedFiles` holds only paths that the glob
returned and has no filter of its own for the active file: whenever
the glob does not yield the rule's filename (also when the glob fails),
`OutdatedFiles` does not contain it; and the daily rule reports the active
file as outdated exactly when `keepDays > 0` and the glob yields it. -/
theorem OutdatedFiles_active_not_globbed (env : Env) :
    (∀ r : DailyRotateRule,
      (∀ files, env.glob r.outdatedPattern = some files → r.filename ∉ files) →
        r.filename ∉ r.OutdatedFiles env) ∧
    (∀ r : SizeLimitRotateRule,
      (∀ files, env.glob r.outdatedPattern = some files → r.filename ∉ files) →
        r.filename ∉ r.OutdatedFiles env) ∧
    (∀ r : DailyRotateRule,
      r.filename ∈ r.OutdatedFiles env ↔
        (0 < r.days ∧ ∃ files, env.glob r.outdatedPattern = some files ∧ r.filename ∈ files)) := by
  refine ⟨?_, ?_, ?_⟩
  rotate_left 2
  · intro r
    unfold DailyRotateRule.OutdatedFiles
    by_cases hd : r.days ≤ 0
    · rw [if_pos hd]
      constructor
      · intro h
        simp at h
      · rintro ⟨h, _⟩
        omega
    · rw [if_neg hd]
      cases hg : env.glob r.outdatedPattern with
      | none => simp
      | some files =>
        simp only [List.mem_filter, Daily_filename_lt_boundary, and_true]
        constructor
        · intro h
          exact ⟨by omega, files, rfl, h⟩
        · rintro ⟨_, files2, h2, h3⟩
          rw [Option.some.inj h2]
          exact h3
  · intro r h hmem
    unfold DailyRotateRule.OutdatedFiles at hmem
    split_ifs at hmem
    · simp at hmem
    · cases hg : env.glob r.outdatedPattern with
      | none => simp [hg] at hmem
      | some files =>
        simp only [hg] at hmem
        exact h files hg (List.mem_of_mem_filter hmem)
  · intro r h hmem
    obtain ⟨files, hg, hf⟩ := OutdatedFiles_subset_glob r env _ hmem
    exact h files hg hf

/-- With the delimiter `-` neither example glob yields the active file, and
it is not outdated. -/
theorem OutdatedFiles_active_not_globbed_witness :
    (DefaultRotateRule exampleNow (lit "app.log") (lit "-") 2 false).filename ∉
      (DefaultRotateRule exampleNow (lit "app.log") (lit "-") 2 false).OutdatedFiles
        exampleDailyEnv ∧
    exampleSizeRule.filename ∉ exampleSizeRule.OutdatedFiles exampleEnv :=
  ⟨(OutdatedFiles_active_not_globbed exampleDailyEnv).1
      (DefaultRotateRule exampleNow (lit "app.log") (lit "-") 2 false)
      (fun files hg => by
        have h : files = [lit "app.log-2026-10-27", lit "app.log-2026-10-29",
            lit "app.log-2026-10-31"] := (Option.some.inj hg).symm
        rw [h]
        decide),
   (OutdatedFiles_active_not_globbed exampleEnv).2.1 exampleSizeRule
      (fun files hg => by
        have h : files = exampleArchives := (Option.some.inj hg).symm
        rw [h]
        decide)⟩

/-! ## Archive names grow with time -/

theorem fixedDigits_length (w n : Nat) : (fixedDigits w n).length = w := by
  induction w generalizing n with
  | zero => rfl
  | succ w ih => simp [fixedDigits, ih]

theorem fixedDigits_lt (w a b : Nat) (hab : a < b) (hb : b < 10 ^ w) :
    strLt (fixedDigits w a) (fixedDigits w b) = true := by
  induction w generalizing a b with
  | zero => simp at hb; omega
  | succ w ih =>
    simp only [fixedDigits]
    rw [pow_succ] at hb
    by_cases hq : a / 10 < b / 10
    · exact strLt_append_of_lt _ _ _ _ (by simp [fixedDigits_length])
        (ih (a / 10) (b / 10) hq (by omega))
    · have heq : a / 10 = b / 10 := by omega
      rw [heq, strLt_append_left]
      have : 48 + a % 10 < 48 + b % 10 := by omega
      simp [strLt, this]

/-- One block of digits in front of two strings. -/
theorem digits_step (w a b : Nat) (r1 r2 : GoString) (hb : b < 10 ^ w)
    (h : a < b ∨ (a = b ∧ strLt r1 r2 = true)) :
    strLt (fixedDigits w a ++ r1) (fixedDigits w b ++ r2) = true := by
  rcases h with h | ⟨h1, h2⟩
  · exact strLt_append_of_lt _ _ _ _ (by simp [fixedDigits_length]) (fixedDigits_lt w a b h hb)
  · rw [h1, strLt_append_left]
    exact h2

theorem sep_step (c : Nat) (r1 r2 : GoString) (h : strLt r1 r2 = true) :
    strLt (c :: r1) (c :: r2) = true := by
  simpa [strLt] using h

/-- Stamps compare like the tuples of their fields. -/
theorem fileStamp_lt (sep : Nat) (y1 mo1 d1 h1 mi1 s1 n1 y2 mo2 d2 h2 mi2 s2 n2 : Nat)
    (hy : y2 < 10000) (hmo : mo2 < 100) (hd : d2 < 100) (hh : h2 < 100) (hmi : mi2 < 100)
    (hs : s2 < 100) (hn : n2 < 1000000000)
    (hlex : y1 < y2 ∨ (y1 = y2 ∧ (mo1 < mo2 ∨ (mo1 = mo2 ∧ (d1 < d2 ∨ (d1 = d2 ∧
      (h1 < h2 ∨ (h1 = h2 ∧ (mi1 < mi2 ∨ (mi1 = mi2 ∧ (s1 < s2 ∨ (s1 = s2 ∧ n1 < n2)))))))))))) :
    strLt (fileStamp sep y1 mo1 d1 h1 mi1 s1 n1) (fileStamp sep y2 mo2 d2 h2 mi2 s2 n2) = true := by
  unfold fileStamp
  apply digits_step 4 _ _ _ _ (by omega)
  refine hlex.imp id (And.imp id fun hlex => ?_)
  apply sep_step
  apply digits_step 2 _ _ _ _ (by omega)
  refine hlex.imp id (And.imp id fun hlex => ?_)
  apply sep_step
  apply digits_step 2 _ _ _ _ (by omega)
  refine hlex.imp id (And.imp id fun hlex => ?_)
  apply sep_step
  apply digits_step 2 _ _ _ _ (by omega)
  refine hlex.imp id (And.imp id fun hlex => ?_)
  apply sep_step
  apply digits_step 2 _ _ _ _ (by omega)
  refine hlex.imp id (And.imp id fun hlex => ?_)
  apply sep_step
  apply digits_step 2 _ _ _ _ (by omega)
  refine hlex.imp id (And.imp id fun hlex => ?_)
  apply sep_step
  apply digits_step 9 _ _ _ _ (by omega)
  exact Or.inl hlex

theorem fileStamp_length (sep y mo d h mi s n : Nat) :
    (fileStamp sep y mo d h mi s n).length = 30 := by
  simp [fileStamp, fixedDigits_length]

theorem fixedDigits_mem (w n c : Nat) (h : c ∈ fixedDigits w n) : 48 ≤ c ∧ c ≤ 57 := by
  induction w generalizing n with
  | zero => simp [fixedDigits] at h
  | succ w ih =>
    simp only [fixedDigits, List.mem_append, List.mem_singleton] at h
    rcases h with h | h
    · exact ih _ h
    · omega

theorem fileStamp_no_slash (sep y mo d h mi s n : Nat) (hsep : sep ≠ 47) :
    47 ∉ fileStamp sep y mo d h mi s n := by
  intro hmem
  simp only [fileStamp, List.mem_append, List.mem_cons, List.mem_singleton] at hmem
  have key : ∀ w m, 47 ∉ fixedDigits w m := fun w m hc => by
    have := fixedDigits_mem w m 47 hc
    omega
  rcases hmem with h | h | h | h | h | h | h | h | h | h | h | h | h | h | h
  all_goals first
    | exact key _ _ h
    | omega
    | exact hsep h.symm
    | simp at h

theorem replaceColons_fixedDigits (w n : Nat) :
    replaceColons (fixedDigits w n) = fixedDigits w n := by
  unfold replaceColons
  conv_rhs => rw [← List.map_id (fixedDigits w n)]
  apply List.map_congr_left
  intro c hc
  have := fixedDigits_mem w n c hc
  have h58 : c ≠ 58 := by omega
  simp [h58]

theorem replaceColons_fileStamp (y mo d h mi s n : Nat) :
    replaceColons (fileStamp 58 y mo d h mi s n) = fileStamp 46 y mo d h mi s n := by
  have key := replaceColons_fixedDigits
  unfold replaceColons at key ⊢
  simp [fileStamp, key]

/-! ### The calendar is order preserving -/

theorem splitEra_lex (a b : Int) (h : a < b) :
    ((splitEra a).1 < (splitEra b).1 ∨
      ((splitEra a).1 = (splitEra b).1 ∧ (splitEra a).2 < (splitEra b).2)) ∧
    0 ≤ (splitEra a).2 ∧ (splitEra a).2 ≤ 146096 ∧
    0 ≤ (splitEra b).2 ∧ (splitEra b).2 ≤ 146096 := by
  simp only [splitEra]
  omega

theorem splitCentury_range (a : Int) (h0 : 0 ≤ a) (h1 : a ≤ 146096) :
    0 ≤ (splitCentury a).1 ∧ (splitCentury a).1 ≤ 3 ∧
    0 ≤ (splitCentury a).2 ∧ (splitCentury a).2 ≤ 36524 := by
  simp only [splitCentury]
  omega

theorem splitCentury_lex (a b : Int) (h : a < b) (h0 : 0 ≤ a) (h1 : b ≤ 146096) :
    (splitCentury a).1 < (splitCentury b).1 ∨
      ((splitCentury a).1 = (splitCentury b).1 ∧ (splitCentury a).2 < (splitCentury b).2) := by
  simp only [splitCentury]
  omega

theorem splitCycle_range (a : Int) (h0 : 0 ≤ a) (h1 : a ≤ 36524) :
    0 ≤ (splitCycle a).1 ∧ (splitCycle a).1 ≤ 24 ∧
    0 ≤ (splitCycle a).2 ∧ (splitCycle a).2 ≤ 1460 := by
  simp only [splitCycle]
  omega

theorem splitCycle_lex (a b : Int) (h : a < b) :
    (splitCycle a).1 < (splitCycle b).1 ∨
      ((splitCycle a).1 = (splitCycle b).1 ∧ (splitCycle a).2 < (splitCycle b).2) := by
  simp only [splitCycle]
  omega

theorem splitYear_range (a : Int) (h0 : 0 ≤ a) (h1 : a ≤ 1460) :
    0 ≤ (splitYear a).1 ∧ (splitYear a).1 ≤ 3 ∧
    0 ≤ (splitYear a).2 ∧ (splitYear a).2 ≤ 365 := by
  simp only [splitYear]
  omega

theorem splitYear_lex (a b : Int) (h : a < b) (h0 : 0 ≤ a) (h1 : b ≤ 1460) :
    (splitYear a).1 < (splitYear b).1 ∨
      ((splitYear a).1 = (splitYear b).1 ∧ (splitYear a).2 < (splitYear b).2) := by
  simp only [splitYear]
  omega

theorem splitMonth_range (a : Int) (h0 : 0 ≤ a) (h1 : a ≤ 365) :
    0 ≤ (splitMonth a).1 ∧ (splitMonth a).1 ≤ 11 ∧
    1 ≤ (splitMonth a).2 ∧ (splitMonth a).2 ≤ 31 := by
  simp only [splitMonth]
  omega

theorem splitMonth_lex (a b : Int) (h : a < b) :
    (splitMonth a).1 < (splitMonth b).1 ∨
      ((splitMonth a).1 = (splitMonth b).1 ∧ (splitMonth a).2 < (splitMonth b).2) := by
  simp only [splitMonth]
  omega

/-- Months are 1 to 12 and days 1 to 31. -/
theorem civilFromDays_range (a : Int) :
    1 ≤ (civilFromDays a).month ∧ (civilFromDays a).month ≤ 12 ∧
    1 ≤ (civilFromDays a).day ∧ (civilFromDays a).day ≤ 31 := by
  obtain ⟨_, he0, he1, _, _⟩ := splitEra_lex (a + 719468) (a + 719468 + 1) (by omega)
  obtain ⟨_, _, hc0, hc1⟩ := splitCentury_range _ he0 he1
  obtain ⟨_, _, hq0, hq1⟩ := splitCycle_range _ hc0 hc1
  obtain ⟨_, _, hy0, hy1⟩ := splitYear_range _ hq0 hq1
  obtain ⟨hm0, hm1, hd0, hd1⟩ := splitMonth_range _ hy0 hy1
  simp only [civilFromDays]
  split_ifs <;> omega

/-- A later day has a later date. -/
theorem civilFromDays_lex (a b : Int) (h : a < b) :
    (civilFromDays a).year < (civilFromDays b).year ∨
    ((civilFromDays a).year = (civilFromDays b).year ∧
      ((civilFromDays a).month < (civilFromDays b).month ∨
        ((civilFromDays a).month = (civilFromDays b).month ∧
          (civilFromDays a).day < (civilFromDays b).day))) := by
  obtain ⟨hE, ha0, ha1, hb0, hb1⟩ := splitEra_lex (a + 719468) (b + 719468) (by omega)
  obtain ⟨hca0, hca1, hca2, hca3⟩ := splitCentury_range _ ha0 ha1
  obtain ⟨hcb0, hcb1, hcb2, hcb3⟩ := splitCentury_range _ hb0 hb1
  obtain ⟨hqa0, hqa1, hqa2, hqa3⟩ := splitCycle_range _ hca2 hca3
  obtain ⟨hqb0, hqb1, hqb2, hqb3⟩ := splitCycle_range _ hcb2 hcb3
  obtain ⟨hya0, hya1, hya2, hya3⟩ := splitYear_range _ hqa2 hqa3
  obtain ⟨hyb0, hyb1, hyb2, hyb3⟩ := splitYear_range _ hqb2 hqb3
  obtain ⟨hma0, hma1, hma2, hma3⟩ := splitMonth_range _ hya2 hya3
  obtain ⟨hmb0, hmb1, hmb2, hmb3⟩ := splitMonth_range _ hyb2 hyb3
  have hC := fun hlt => splitCentury_lex (splitEra (a + 719468)).2 (splitEra (b + 719468)).2
    hlt ha0 hb1
  have hQ := fun hlt => splitCycle_lex (splitCentury (splitEra (a + 719468)).2).2
    (splitCentury (splitEra (b + 719468)).2).2 hlt
  have hY := fun hlt => splitYear_lex (splitCycle (splitCentury (splitEra (a + 719468)).2).2).2
    (splitCycle (splitCentury (splitEra (b + 719468)).2).2).2 hlt hqa2 hqb3
  have hM := fun hlt => splitMonth_lex
    (splitYear (splitCycle (splitCentury (splitEra (a + 719468)).2).2).2).2
    (splitYear (splitCycle (splitCentury (splitEra (b + 719468)).2).2).2).2 hlt
  simp only [civilFromDays]
  generalize (splitMonth (splitYear (splitCycle (splitCentury (splitEra (a + 719468)).2).2).2).2)
    = ma at *
  generalize (splitMonth (splitYear (splitCycle (splitCentury (splitEra (b + 719468)).2).2).2).2)
    = mb at *
  generalize (splitYear (splitCycle (splitCentury (splitEra (a + 719468)).2).2).2) = ya at *
  generalize (splitYear (splitCycle (splitCentury (splitEra (b + 719468)).2).2).2) = yb at *
  generalize (splitCycle (splitCentury (splitEra (a + 719468)).2).2) = qa at *
  generalize (splitCycle (splitCentury (splitEra (b + 719468)).2).2) = qb at *
  generalize (splitCentury (splitEra (a + 719468)).2) = ca at *
  generalize (splitCentury (splitEra (b + 719468)).2) = cb at *
  generalize (splitEra (a + 719468)) = ea at *
  generalize (splitEra (b + 719468)) = eb at *
  rcases hE with hE | ⟨hE1, hE2⟩
  · split_ifs <;> omega
  · rcases hC hE2 with hC | ⟨hC1, hC2⟩
    · split_ifs <;> omega
    · rcases hQ hC2 with hQ | ⟨hQ1, hQ2⟩
      · split_ifs <;> omega
      · rcases hY hQ2 with hY | ⟨hY1, hY2⟩
        · split_ifs <;> omega
        · rcases hM hY2 with hM | ⟨hM1, hM2⟩
          · split_ifs <;> omega
          · split_ifs <;> omega

/-! ### The fields of an instant -/

theorem Time_clock_range (t : Time) :
    0 ≤ t.Hour ∧ t.Hour ≤ 23 ∧ 0 ≤ t.Minute ∧ t.Minute ≤ 59 ∧ 0 ≤ t.Second ∧ t.Second ≤ 59 ∧
    0 ≤ t.Nanosecond ∧ t.Nanosecond ≤ 999999999 := by
  simp only [Time.Hour, Time.Minute, Time.Second, Time.Nanosecond, Time.unixSec]
  omega

/-- A later instant is on a later day, or on the same day at a later time. -/
theorem Time_lex (t1 t2 : Time) (h : t1.unixNano < t2.unixNano) :
    t1.unixSec / 86400 < t2.unixSec / 86400 ∨
    (t1.unixSec / 86400 = t2.unixSec / 86400 ∧
      (t1.Hour < t2.Hour ∨ (t1.Hour = t2.Hour ∧
        (t1.Minute < t2.Minute ∨ (t1.Minute = t2.Minute ∧
          (t1.Second < t2.Second ∨ (t1.Second = t2.Second ∧
            t1.Nanosecond < t2.Nanosecond))))))) := by
  simp only [Time.Hour, Time.Minute, Time.Second, Time.Nanosecond, Time.unixSec]
  omega

theorem appendInt_eq (x : Int) (w : Nat) (h0 : 0 ≤ x) (h1 : x.toNat < 10 ^ w) :
    appendInt x w = fixedDigits w x.toNat := by
  have : ¬ x < 0 := by omega
  simp [appendInt, utod, this, h1]

/-- For a year of four digits `Format(fileTimeFormat)` is the fixed-width
stamp of the fields. -/
theorem formatFileTime_eq (t : Time) (hy0 : 0 ≤ t.Date.year) (hy1 : t.Date.year ≤ 9999) :
    formatFileTime t = fileStamp 58 t.Date.year.toNat t.Date.month.toNat t.Date.day.toNat
      t.Hour.toNat t.Minute.toNat t.Second.toNat t.Nanosecond.toNat := by
  obtain ⟨hm0, hm1, hd0, hd1⟩ := civilFromDays_range (t.unixSec / 86400)
  obtain ⟨hh0, hh1, hmi0, hmi1, hs0, hs1, hn0, hn1⟩ := Time_clock_range t
  have e1 := appendInt_eq t.Date.year 4 hy0 (by omega)
  have e2 := appendInt_eq t.Date.month 2 (by unfold Time.Date; omega)
    (by unfold Time.Date; omega)
  have e3 := appendInt_eq t.Date.day 2 (by unfold Time.Date; omega) (by unfold Time.Date; omega)
  have e4 := appendInt_eq t.Hour 2 hh0 (by omega)
  have e5 := appendInt_eq t.Minute 2 hmi0 (by omega)
  have e6 := appendInt_eq t.Second 2 hs0 (by omega)
  simp only [formatFileTime, formatDate, e1, e2, e3, e4, e5, e6, fileStamp,
    List.append_assoc, List.singleton_append, List.cons_append, List.nil_append]

/-- `fileStamp_lt` for integer field values within their ranges. -/
theorem fileStamp_lt_int (sep : Nat) (y1 mo1 d1 h1 mi1 s1 n1 y2 mo2 d2 h2 mi2 s2 n2 : Int)
    (hy1 : 0 ≤ y1) (hmo1 : 0 ≤ mo1) (hd1 : 0 ≤ d1) (hh1 : 0 ≤ h1) (hmi1 : 0 ≤ mi1)
    (hs1 : 0 ≤ s1) (hn1 : 0 ≤ n1)
    (hy2 : 0 ≤ y2) (hmo2 : 0 ≤ mo2) (hd2 : 0 ≤ d2) (hh2 : 0 ≤ h2) (hmi2 : 0 ≤ mi2)
    (hs2 : 0 ≤ s2) (hn2 : 0 ≤ n2)
    (hy : y2 ≤ 9999) (hmo : mo2 ≤ 12) (hd : d2 ≤ 31) (hh : h2 ≤ 23) (hmi : mi2 ≤ 59)
    (hs : s2 ≤ 59) (hn : n2 ≤ 999999999)
    (hlex : y1 < y2 ∨ (y1 = y2 ∧ (mo1 < mo2 ∨ (mo1 = mo2 ∧ (d1 < d2 ∨ (d1 = d2 ∧
      (h1 < h2 ∨ (h1 = h2 ∧ (mi1 < mi2 ∨ (mi1 = mi2 ∧ (s1 < s2 ∨ (s1 = s2 ∧ n1 < n2)))))))))))) :
    strLt (fileStamp sep y1.toNat mo1.toNat d1.toNat h1.toNat mi1.toNat s1.toNat n1.toNat)
      (fileStamp sep y2.toNat mo2.toNat d2.toNat h2.toNat mi2.toNat s2.toNat n2.toNat) = true := by
  lift y1 to ℕ using hy1
  lift mo1 to ℕ using hmo1
  lift d1 to ℕ using hd1
  lift h1 to ℕ using hh1
  lift mi1 to ℕ using hmi1
  lift s1 to ℕ using hs1
  lift n1 to ℕ using hn1
  lift y2 to ℕ using hy2
  lift mo2 to ℕ using hmo2
  lift d2 to ℕ using hd2
  lift h2 to ℕ using hh2
  lift mi2 to ℕ using hmi2
  lift s2 to ℕ using hs2
  lift n2 to ℕ using hn2
  simp only [Int.toNat_ofNat]
  norm_cast at hy hmo hd hh hmi hs hn hlex
  exact fileStamp_lt sep _ _ _ _ _ _ _ _ _ _ _ _ _ _ (by omega) (by omega) (by omega)
    (by omega) (by omega) (by omega) (by omega) hlex

/-- A later instant has a later tuple of date and clock fields. -/
theorem Time_fields_lex (t1 t2 : Time) (h : t1.unixNano < t2.unixNano) :
    t1.Date.year < t2.Date.year ∨ (t1.Date.year = t2.Date.year ∧
      (t1.Date.month < t2.Date.month ∨ (t1.Date.month = t2.Date.month ∧
        (t1.Date.day < t2.Date.day ∨ (t1.Date.day = t2.Date.day ∧
          (t1.Hour < t2.Hour ∨ (t1.Hour = t2.Hour ∧
            (t1.Minute < t2.Minute ∨ (t1.Minute = t2.Minute ∧
              (t1.Second < t2.Second ∨ (t1.Second = t2.Second ∧
                t1.Nanosecond < t2.Nanosecond))))))))))) := by
  rcases Time_lex t1 t2 h with hT | ⟨hT1, hT2⟩
  · rcases civilFromDays_lex _ _ hT with h1 | ⟨h1, h2 | ⟨h2, h3⟩⟩
    · exact Or.inl h1
    · exact Or.inr ⟨h1, Or.inl h2⟩
    · exact Or.inr ⟨h1, Or.inr ⟨h2, Or.inl h3⟩⟩
  · have hsame : t1.Date = t2.Date := by
      unfold Time.Date
      rw [hT1]
    rw [hsame]
    exact Or.inr ⟨rfl, Or.inr ⟨rfl, Or.inr ⟨rfl, hT2⟩⟩⟩

/-- File time stamps with dots for colons grow strictly with time, as long as
the year has four digits. -/
theorem fileTimestamp_lt (t1 t2 : Time) (h : t1.unixNano < t2.unixNano)
    (hy0 : 0 ≤ t1.Date.year) (hy1 : t2.Date.year ≤ 9999) :
    ∃ s1 s2 : GoString, replaceColons (formatFileTime t1) = s1 ∧
      replaceColons (formatFileTime t2) = s2 ∧ s1.length = 30 ∧ s2.length = 30 ∧
      47 ∉ s1 ∧ 47 ∉ s2 ∧ strLt s1 s2 = true := by
  have hlex := Time_fields_lex t1 t2 h
  have hyle : t1.Date.year ≤ t2.Date.year := by
    rcases hlex with h1 | h1
    · exact le_of_lt h1
    · exact le_of_eq h1.1
  have f1 := formatFileTime_eq t1 hy0 (le_trans hyle hy1)
  have f2 := formatFileTime_eq t2 (le_trans hy0 hyle) hy1
  refine ⟨_, _, rfl, rfl, ?_, ?_, ?_, ?_, ?_⟩
  · rw [f1, replaceColons_fileStamp, fileStamp_length]
  · rw [f2, replaceColons_fileStamp, fileStamp_length]
  · rw [f1, replaceColons_fileStamp]
    exact fileStamp_no_slash _ _ _ _ _ _ _ _ (by decide)
  · rw [f2, replaceColons_fileStamp]
    exact fileStamp_no_slash _ _ _ _ _ _ _ _ (by decide)
  · rw [f1, f2, replaceColons_fileStamp, replaceColons_fileStamp]
    obtain ⟨hm0, _, hd0, _⟩ := civilFromDays_range (t1.unixSec / 86400)
    obtain ⟨hm0', hm1', hd0', hd1'⟩ := civilFromDays_range (t2.unixSec / 86400)
    obtain ⟨hh0, _, hmi0, _, hs0, _, hn0, _⟩ := Time_clock_range t1
    obtain ⟨hh0', hh1', hmi0', hmi1', hs0', hs1', hn0', hn1'⟩ := Time_clock_range t2
    exact fileStamp_lt_int 46 _ _ _ _ _ _ _ _ _ _ _ _ _ _ hy0 (le_trans (by decide) hm0)
      (le_trans (by decide) hd0) hh0 hmi0 hs0 hn0 (le_trans hy0 hyle)
      (le_trans (by decide) hm0') (le_trans (by decide) hd0') hh0' hmi0' hs0' hn0'
      hy1 hm1' hd1' hh1' hmi1' hs1' hn1' hlex

/-! ### `filepath.Join` keeps the last path element -/

theorem splitSlash_ne_nil (p : GoString) : splitSlash p ≠ [] := by
  cases p with
  | nil => simp [splitSlash]
  | cons c cs =>
    simp only [splitSlash]
    split_ifs
    · simp
    · split <;> simp

theorem splitSlash_cons (c : Nat) (cs : GoString) (hc : c ≠ 47) :
    ∃ e es, splitSlash cs = e :: es ∧ splitSlash (c :: cs) = (c :: e) :: es := by
  cases hs : splitSlash cs with
  | nil => exact absurd hs (splitSlash_ne_nil cs)
  | cons e es => exact ⟨e, es, rfl, by simp [splitSlash, hc, hs]⟩

theorem splitSlash_append_slash (a b : GoString) :
    splitSlash (a ++ 47 :: b) = splitSlash a ++ splitSlash b := by
  induction a with
  | nil => simp [splitSlash]
  | cons c cs ih =>
    by_cases hc : c = 47
    · simp [splitSlash, hc, ih]
    · obtain ⟨e, es, h1, h2⟩ := splitSlash_cons c cs hc
      obtain ⟨e2, es2, h3, h4⟩ := splitSlash_cons c (cs ++ 47 :: b) hc
      rw [List.cons_append, h4, h2]
      rw [ih, h1, List.cons_append] at h3
      injection h3 with h5 h6
      rw [← h5, ← h6, List.cons_append]

theorem splitSlash_no_slash (l : GoString) (h : 47 ∉ l) : splitSlash l = [l] := by
  induction l with
  | nil => rfl
  | cons c cs ih =>
    have hc : c ≠ 47 := fun hc => h (by simp [hc])
    have hcs : 47 ∉ cs := fun hm => h (List.mem_cons_of_mem _ hm)
    simp [splitSlash, hc, ih hcs]

theorem exists_last_slash (w : GoString) (h : 47 ∈ w) :
    ∃ p x : GoString, w = p ++ 47 :: x ∧ 47 ∉ x := by
  induction w with
  | nil => simp at h
  | cons c cs ih =>
    by_cases hcs : 47 ∈ cs
    · obtain ⟨p, x, hp, hx⟩ := ih hcs
      exact ⟨c :: p, x, by simp [hp], hx⟩
    · have hc : c = 47 := by
        rcases List.mem_cons.mp h with h1 | h1
        · exact h1.symm
        · exact absurd h1 hcs
      exact ⟨[], cs, by simp [hc], hcs⟩

theorem joinSlash_snoc (xs : List GoString) (l : GoString) :
    joinSlash (xs ++ [l]) = (if xs = [] then [] else joinSlash xs ++ [47]) ++ l := by
  induction xs with
  | nil => simp [joinSlash]
  | cons e es ih =>
    cases es with
    | nil => simp [joinSlash]
    | cons e2 es2 =>
      have h1 : joinSlash ((e :: e2 :: es2) ++ [l]) = e ++ 47 :: joinSlash ((e2 :: es2) ++ [l]) := by
        simp [joinSlash]
      have h2 : joinSlash (e :: e2 :: es2) = e ++ 47 :: joinSlash (e2 :: es2) := by
        simp [joinSlash]
      rw [h1, ih, h2]
      simp

theorem Clean_ne_nil (p : GoString) : Clean p ≠ [] := by
  unfold Clean
  by_cases h : p = []
  · simp [h]
  · rw [if_neg h]
    simp only
    split_ifs with h1 h2
    · simp
    · simp
    · exact h2

/-- Cleaning a path whose last element is an ordinary name keeps that element
at the end; what precedes it depends on the rest of the path only. -/
theorem Clean_last (p : GoString) :
    ∃ q : GoString, ∀ l : GoString, 47 ∉ l → 2 < l.length → Clean (p ++ 47 :: l) = q ++ l := by
  refine ⟨(if decide ((p ++ [47]).head? = some 47) = true then [47] else []) ++
    (if List.replicate ((splitSlash p).foldl
          (cleanStep (decide ((p ++ [47]).head? = some 47))) ⟨0, []⟩).dotdot [46, 46] ++
        ((splitSlash p).foldl
          (cleanStep (decide ((p ++ [47]).head? = some 47))) ⟨0, []⟩).elems.reverse = []
      then []
      else joinSlash (List.replicate ((splitSlash p).foldl
          (cleanStep (decide ((p ++ [47]).head? = some 47))) ⟨0, []⟩).dotdot [46, 46] ++
        ((splitSlash p).foldl
          (cleanStep (decide ((p ++ [47]).head? = some 47))) ⟨0, []⟩).elems.reverse) ++ [47]),
    ?_⟩
  intro l hl hlen
  have hhead : (p ++ 47 :: l).head? = (p ++ [47]).head? := by cases p <;> simp
  have hne : p ++ 47 :: l ≠ [] := by simp
  have hl0 : l ≠ [] := by
    intro h0
    rw [h0] at hlen
    simp at hlen
  have hl1 : l ≠ [46] := by
    intro h0
    rw [h0] at hlen
    simp at hlen
  have hl2 : l ≠ [46, 46] := by
    intro h0
    rw [h0] at hlen
    simp at hlen
  unfold Clean
  rw [if_neg hne]
  simp only [hhead, splitSlash_append_slash, splitSlash_no_slash l hl, List.foldl_append,
    List.foldl_cons, List.foldl_nil]
  generalize (splitSlash p).foldl (cleanStep (decide ((p ++ [47]).head? = some 47))) ⟨0, []⟩
    = st
  have hstep : cleanStep (decide ((p ++ [47]).head? = some 47)) st l =
      { st with elems := l :: st.elems } := by
    simp [cleanStep, hl0, hl1, hl2]
  rw [hstep]
  simp only [renderClean, List.reverse_cons, ← List.append_assoc, joinSlash_snoc]
  split_ifs <;> simp_all

theorem extScan_no_slash (l acc : GoString) (h : 47 ∉ acc) : 47 ∉ extScan l acc := by
  induction l generalizing acc with
  | nil => simp [extScan]
  | cons c cs ih =>
    simp only [extScan]
    split_ifs with h1 h2
    · simp
    · intro hm
      rcases List.mem_cons.mp hm with h3 | h3
      · omega
      · exact h h3
    · apply ih
      intro hm
      rcases List.mem_cons.mp hm with h3 | h3
      · exact h1 h3.symm
      · exact h h3

theorem Ext_no_slash (p : GoString) : 47 ∉ Ext p := extScan_no_slash _ _ (by simp)

/-- The archive name of the size rule is a fixed string, the time stamp, and
the extension. -/
theorem BackupFileName_shape (r : SizeLimitRotateRule) :
    ∃ q : GoString, ∀ (now : Time) (s : GoString),
      replaceColons (formatFileTime now) = s → s.length = 30 → 47 ∉ s →
        r.BackupFileName now = q ++ (s ++ (r.parseFilename).2) := by
  have hdir : Dir r.filename ≠ [] := Clean_ne_nil _
  have hmem : (47 : Nat) ∈ Dir r.filename ++ 47 :: ((r.parseFilename).1 ++ r.delimiter) := by
    simp
  obtain ⟨p, x, hpx, hx⟩ := exists_last_slash _ hmem
  obtain ⟨q, hq⟩ := Clean_last p
  refine ⟨q ++ x, ?_⟩
  intro now s hs hlen hslash
  have hext : 47 ∉ (r.parseFilename).2 := Ext_no_slash r.filename
  unfold SizeLimitRotateRule.BackupFileName getNowDateInRFC3339Format
  simp only [hs, Join, hdir, ne_eq, not_false_eq_true, if_true]
  have hre : Dir r.filename ++ 47 :: ((r.parseFilename).1 ++ r.delimiter ++ s ++ (r.parseFilename).2)
      = p ++ 47 :: (x ++ (s ++ (r.parseFilename).2)) := by
    have : Dir r.filename ++ 47 :: ((r.parseFilename).1 ++ r.delimiter ++ s ++ (r.parseFilename).2)
        = (Dir r.filename ++ 47 :: ((r.parseFilename).1 ++ r.delimiter))
          ++ (s ++ (r.parseFilename).2) := by
      simp
    rw [this, hpx]
    simp
  rw [hre, hq]
  · simp
  · intro hm
    rcases List.mem_append.mp hm with h1 | h1
    · exact hx h1
    · rcases List.mem_append.mp h1 with h2 | h2
      · exact hslash h2
      · exact hext h2
  · simp only [List.length_append, hlen]
    omega

/-- C10. For a fixed size-limit rule and all instants `t1 < t2` whose years
have four digits (0000 to 9999), the archive name `BackupFileName` computes at
`t1` is strictly smaller, in the bytewise lexicographic order, than the one it
computes at `t2`. -/
theorem BackupFileName_lt (r : SizeLimitRotateRule) (t1 t2 : Time)
    (h : t1.unixNano < t2.unixNano) (hy0 : 0 ≤ t1.Date.year) (hy1 : t2.Date.year ≤ 9999) :
    strLt (r.BackupFileName t1) (r.BackupFileName t2) = true := by
  obtain ⟨s1, s2, e1, e2, l1, l2, n1, n2, hlt⟩ := fileTimestamp_lt t1 t2 h hy0 hy1
  obtain ⟨q, hq⟩ := BackupFileName_shape r
  rw [hq t1 s1 e1 l1 n1, hq t2 s2 e2 l2 n2, strLt_append_left]
  exact strLt_append_of_lt _ _ _ _ (by rw [l1, l2]) hlt

/-- C10, witness: 2026-11-01T00:00:00Z and one nanosecond later. -/
theorem BackupFileName_lt_witness :
    (exampleNow.unixNano < (exampleNow.Add 1).unixNano ∧ 0 ≤ exampleNow.Date.year ∧
      (exampleNow.Add 1).Date.year ≤ 9999) ∧
    strLt (exampleSizeRule.BackupFileName exampleNow)
      (exampleSizeRule.BackupFileName (exampleNow.Add 1)) = true :=
  ⟨⟨by decide, by decide, by decide⟩,
    BackupFileName_lt exampleSizeRule exampleNow (exampleNow.Add 1)
      (by decide) (by decide) (by decide)⟩

/-- The archive name of the example rule one nanosecond after
2026-11-01T00:00:00Z. -/
theorem BackupFileName_example :
    exampleSizeRule.BackupFileName (exampleNow.Add 1) =
      lit "logs/app-2026-11-01T00.00.00.000000001Z.log" := by
  decide

/-- At the turn of the year 10000 the year gets a fifth digit and the order of
the names is reversed. -/
theorem BackupFileName_rollover :
    strLt (exampleSizeRule.BackupFileName ⟨253402300800000000000⟩)
      (exampleSizeRule.BackupFileName ⟨253402300799999999999⟩) = true := by
  decide

/-! ## `ShallRotate` of the daily rule -/

theorem formatDate_ne_nil (t : Time) : formatDate t ≠ [] := by
  intro h
  have hlen := congrArg List.length h
  simp [formatDate] at hlen

/-- C11, counterexample. A daily rule whose `rotatedTime` is empty never
rotates, although the current date string differs from the empty string. -/
theorem Daily_ShallRotate_empty :
    ¬ (unmarkedDailyRule.ShallRotate exampleNow 0 = true ↔
        getNowDate exampleNow ≠ unmarkedDailyRule.rotatedTime) := by
  decide

/-- C11, amended. For every daily rule and every size argument, `ShallRotate`
returns true exactly when `rotatedTime` is not empty and the current UTC date
string differs from it; the size argument never changes the result; and for a
rule built by `DefaultRotateRule` or marked by `MarkRotated`, whose
`rotatedTime` is a date, it returns true exactly when the date string
differs. -/
theorem Daily_ShallRotate_iff (r : DailyRotateRule) (now : Time) (size size2 : Int) :
    (r.ShallRotate now size = true ↔ (r.rotatedTime ≠ [] ∧ getNowDate now ≠ r.rotatedTime)) ∧
    r.ShallRotate now size = r.ShallRotate now size2 ∧
    (∀ (t0 : Time) (filename delimiter : GoString) (days : Int) (gz : Bool),
      (DefaultRotateRule t0 filename delimiter days gz).ShallRotate now size = true ↔
        getNowDate now ≠ getNowDate t0) ∧
    (∀ t0 : Time, (r.MarkRotated t0).ShallRotate now size = true ↔
      getNowDate now ≠ getNowDate t0) := by
  have key : ∀ q : DailyRotateRule, q.ShallRotate now size = true ↔
      (q.rotatedTime ≠ [] ∧ getNowDate now ≠ q.rotatedTime) := by
    intro q
    simp [DailyRotateRule.ShallRotate, List.length_pos]
  refine ⟨key r, rfl, ?_, ?_⟩
  · intro t0 filename delimiter days gz
    rw [key]
    simp [DefaultRotateRule, getNowDate, formatDate_ne_nil]
  · intro t0
    rw [key]
    simp [DailyRotateRule.MarkRotated, getNowDate, formatDate_ne_nil]

/-! ## `gzipFile` removes the source only after a complete compression -/

/-- C12. For every outcome of the file-system operations, `gzipFile` calls
`Remove` on the source file if and only if `Open`, `Create`, `Copy`, the close
of the gzip writer and the close of the output file all succeeded; when one of
them fails, `gzipFile` returns a non-nil error and does not call `Remove`. -/
theorem gzipFile_remove_iff (file : GoString) (o : GzipOutcomes) :
    (FsOp.Remove file ∈ (gzipFile file o).1 ↔ o.stepsOk) ∧
    (¬ o.stepsOk → (gzipFile file o).2 ≠ none ∧ FsOp.Remove file ∉ (gzipFile file o).1) := by
  obtain ⟨o1, o2, o3, o4, o5, o6, o7, o8⟩ := o
  cases o1 <;> cases o2 <;> cases o4 <;> cases o5 <;> cases o6 <;>
    simp [gzipFile, gzipDeferIn, gzipDeferOut, GzipOutcomes.stepsOk]

/-- C12, witness: a copy that fails with `ENOSPC`. -/
theorem gzipFile_remove_iff_witness :
    ¬ copyFails.stepsOk ∧
    ((gzipFile (lit "logs/app-1.log") copyFails).2 ≠ none ∧
      FsOp.Remove (lit "logs/app-1.log") ∉ (gzipFile (lit "logs/app-1.log") copyFails).1) :=
  ⟨by decide, (gzipFile_remove_iff (lit "logs/app-1.log") copyFails).2 (by decide)⟩

/-- When every step succeeds the result of `gzipFile` is the result of
`Remove`. -/
theorem gzipFile_ok (file : GoString) (o : GzipOutcomes) (h : o.stepsOk) :
    (gzipFile file o).2 = o.removeErr := by
  obtain ⟨h1, h2, h3, h4, h5⟩ := h
  simp [gzipFile, gzipDeferIn, gzipDeferOut, h1, h2, h3, h4, h5]

/-! ## The record line -/

/-- On a console whose output is not a terminal the leveled record is the same
as on the file writer; on a terminal the level inside the brackets is
painted. -/
theorem richLogger_leveled_console (l : richLogger) (s : LogState) (ctx : Ctx)
    (level : Nat) (name msg : GoString) (outLog : Dest)
    (hw : s.writer = some (Writer.colorConsole outLog))
    (hlog : shallLog s level = true) (hcolor : ctx.isColorSupported = false) :
    (l.leveled s ctx level name msg).written =
      s.written ++ [(outLog, output s.maxContentLength ctx.timestamp name
        (Payload.str (l.formatMessage msg)))] := by
  simp [richLogger.leveled, hlog, getWriter, hw, Writer.leveled, hcolor]

/-! ## Levels -/

/-- A leveled method of a module logger that fails the level test leaves the
state as it is. -/
theorem richLogger_leveled_skip (l : richLogger) (s : LogState) (ctx : Ctx)
    (level : Nat) (name msg : GoString) (hlog : shallLog s level = false) :
    l.leveled s ctx level name msg = s := by
  simp [richLogger.leveled, hlog]

/-- C14. The levels are ordered `TRA < DEB < INF < WAR < ERR < OFF`; a
leveled method writes exactly when the configured level is at most its own
level; with level `OFF` none of `Trace`, `Debug`, `Info`, `Warn`, `Error`
writes anything (the state is left as it is). -/
theorem leveled_iff (l : richLogger) (s : LogState) (ctx : Ctx) (msg : GoString) :
    (TraceLevel < DebugLevel ∧ DebugLevel < InfoLevel ∧ InfoLevel < WarnLevel ∧
      WarnLevel < ErrorLevel ∧ ErrorLevel < DisableLevel) ∧
    (∀ level : Nat, shallLog s level = true ↔ s.logLevel ≤ level) ∧
    (∀ (level : Nat) (name : GoString), ¬ s.logLevel ≤ level →
      l.leveled s ctx level name msg = s) ∧
    (∀ (level : Nat) (name : GoString), s.logLevel ≤ level →
      (l.leveled s ctx level name msg).written =
        s.written ++ Writer.leveled ctx s.maxContentLength name
          (Payload.str (l.formatMessage msg)) (getWriter s).2) ∧
    (s.logLevel = DisableLevel →
      l.Trace s ctx msg = s ∧ l.Debug s ctx msg = s ∧ l.Info s ctx msg = s ∧
        l.Warn s ctx msg = s ∧ l.Error s ctx msg = s) := by
  have hiff : ∀ level : Nat, shallLog s level = true ↔ s.logLevel ≤ level := by
    intro level
    simp [shallLog]
  refine ⟨by decide, hiff, ?_, ?_, ?_⟩
  · intro level name h
    apply richLogger_leveled_skip
    cases hs : shallLog s level
    · rfl
    · exact absurd ((hiff level).mp hs) h
  · intro level name h
    have hs := (hiff level).mpr h
    simp [richLogger.leveled, hs]
  · intro hoff
    have skip : ∀ (level : Nat) (name : GoString), level < DisableLevel →
        l.leveled s ctx level name msg = s := by
      intro level name hlt
      apply richLogger_leveled_skip
      cases hs : shallLog s level
      · rfl
      · have := (hiff level).mp hs
        omega
    exact ⟨skip _ _ (by decide), skip _ _ (by decide), skip _ _ (by decide),
      skip _ _ (by decide), skip _ _ (by decide)⟩

/-- C14, witness: with level `OFF` and the file writer installed no leveled
method writes. -/
theorem leveled_iff_witness :
    disabledFileState.logLevel = DisableLevel ∧
    ((WithModuleName (lit "m")).Trace disabledFileState exampleCtx (lit "hi") = disabledFileState ∧
      (WithModuleName (lit "m")).Debug disabledFileState exampleCtx (lit "hi")
        = disabledFileState ∧
      (WithModuleName (lit "m")).Info disabledFileState exampleCtx (lit "hi") = disabledFileState ∧
      (WithModuleName (lit "m")).Warn disabledFileState exampleCtx (lit "hi") = disabledFileState ∧
      (WithModuleName (lit "m")).Error disabledFileState exampleCtx (lit "hi")
        = disabledFileState) :=
  ⟨by decide,
    (leveled_iff (WithModuleName (lit "m")) disabledFileState exampleCtx (lit "hi")).2.2.2.2
      (by decide)⟩

/-! ## Truncation -/

/-- C16. With `MaxContentLength = n > 0` a string payload longer than `n`
bytes is cut to its first `n` bytes before it is formatted; a string payload of
at most `n` bytes, any string payload when `n = 0`, and every payload that is
not a string, is formatted whole. With `n = 5` the payload `abcdefg` is written
as `abcde`. -/
theorem output_truncates (n : Nat) (ts level : GoString) :
    (∀ v : GoString, 0 < n → n < v.length →
      output n ts level (Payload.str v) = writePlainAny ts level (Payload.str (v.take n))) ∧
    (∀ v : GoString, n = 0 ∨ v.length ≤ n →
      output n ts level (Payload.str v) = writePlainAny ts level (Payload.str v)) ∧
    (∀ p : Payload, (∀ v : GoString, p ≠ Payload.str v) →
      output n ts level p = writePlainAny ts level p) ∧
    output 5 ts level (Payload.str (lit "abcdefg"))
      = writePlainAny ts level (Payload.str (lit "abcde")) := by
  refine ⟨?_, ?_, ?_, ?_⟩
  · intro v h1 h2
    simp [output, truncatePayload, h1, h2]
  · intro v h
    have : ¬ (0 < n ∧ n < v.length) := by omega
    simp [output, truncatePayload, this]
  · intro p hp
    cases p with
    | str v => exact absurd rfl (hp v)
    | err e => simp [output, truncatePayload]
    | stringer v => simp [output, truncatePayload]
    | other j => simp [output, truncatePayload]
  · have h : truncatePayload 5 (Payload.str (lit "abcdefg")) = Payload.str (lit "abcde") := by
      decide
    rw [output, h]

/-! ## Access records and raw strings with level `OFF` -/

theorem setupLogLevel_off (s : LogState) (c : LogConf) (h : ToUpper c.Level = LevelDisable) :
    setupLogLevel s c = SetLevel s DisableLevel := by
  have h1 : LevelDisable ≠ LevelTrace := by decide
  have h2 : LevelDisable ≠ LevelDebug := by decide
  have h3 : LevelDisable ≠ LevelInfo := by decide
  have h4 : LevelDisable ≠ LevelWarn := by decide
  have h5 : LevelDisable ≠ LevelError := by decide
  simp [setupLogLevel, h, h1, h2, h3, h4, h5]

theorem SetWriter_off (s : LogState) (w : Writer) (h : s.logLevel = DisableLevel) :
    SetWriter s w = s := by
  simp [SetWriter, h]

theorem AddWriter_off (s : LogState) (w : Writer) (h : s.logLevel = DisableLevel)
    (hw : s.writer = none) : AddWriter s w = s := by
  have e : { s with writer := none } = s := by
    cases s
    simp_all
  simp [AddWriter, hw, e, SetWriter_off s w h]

theorem newFileWriter_off (s : LogState) (c : LogConf) (now : Time)
    (newLoggerErr : GoString → Option GoError) (h : ToUpper c.Level = LevelDisable)
    (w : Option Writer) (out : List (Dest × GoString)) (hs : offInvariant w out s) :
    offInvariant w out (newFileWriter s c now newLoggerErr).1 := by
  unfold newFileWriter
  split_ifs
  · exact hs
  · simp only [setupLogLevel_off _ c h]
    split
    · exact ⟨rfl, hs.2.1, hs.2.2⟩
    · split <;> exact ⟨rfl, hs.2.1, hs.2.2⟩

theorem setupWithFiles_off (s : LogState) (c : LogConf) (now : Time)
    (newLoggerErr : GoString → Option GoError) (h : ToUpper c.Level = LevelDisable)
    (w : Option Writer) (out : List (Dest × GoString)) (hs : offInvariant w out s) :
    offInvariant w out (setupWithFiles s c now newLoggerErr).1 := by
  have hn := newFileWriter_off s c now newLoggerErr h w out hs
  unfold setupWithFiles
  rcases hnf : newFileWriter s c now newLoggerErr with ⟨s1, r⟩
  rw [hnf] at hn
  cases r with
  | error e => exact hn
  | ok fw =>
    show offInvariant w out (SetWriter s1 fw)
    rw [SetWriter_off s1 fw hn.1]
    exact hn

theorem setupWithConsole_off (s : LogState) (c : LogConf)
    (w : Option Writer) (out : List (Dest × GoString)) (hs : offInvariant w out s) :
    offInvariant w out (setupWithConsole s c) := by
  unfold setupWithConsole
  split_ifs <;> rw [SetWriter_off s _ hs.1] <;> exact hs

/-- With level `OFF` in the configuration `SetUp` leaves a fresh process at
level `DisableLevel` with no writer stored. -/
theorem SetUp_off (c : LogConf) (now : Time) (newLoggerErr : GoString → Option GoError)
    (h : ToUpper c.Level = LevelDisable) (s : LogState) (hs : s.setupOnce = false)
    (hw : s.writer = none) :
    offInvariant none s.written (SetUp s c now newLoggerErr).1 := by
  unfold SetUp
  simp only [hs, setupLogLevel_off _ c h]
  have h0 : offInvariant none s.written
      { SetLevel { s with setupOnce := true } DisableLevel with
        maxContentLength := c.MaxContentLength } := ⟨rfl, hw, rfl⟩
  by_cases hm : c.Mode = fileMode
  · simpa [hm] using setupWithFiles_off _ c now newLoggerErr h _ _ h0
  · simpa [hm] using setupWithConsole_off _ c _ _ h0

theorem SetLogLevelStr_off (s : LogState) (ctx : Ctx) :
    SetLogLevelStr s ctx LevelDisable = SetLevel s DisableLevel := by
  have h : levelMap (ToUpper LevelDisable) = some DisableLevel := by decide
  have hlog : shallLog (SetLevel s DisableLevel) InfoLevel = false := by
    simp [shallLog, SetLevel, DisableLevel, InfoLevel]
  simp only [SetLogLevelStr, h, richLogger.Info]
  exact richLogger_leveled_skip _ _ _ _ _ _ hlog

/-- With level `OFF` in the configuration `InitWithConfig` leaves a fresh
process without a writer. -/
theorem InitWithConfig_off (config : Config) (now : Time)
    (newLoggerErr : GoString → Option GoError) (h : ToUpper config.Level = LevelDisable)
    (hv : config.ValidateConfig = none) :
    offInvariant none [] (InitWithConfig freshState config now newLoggerErr).1 := by
  have hu := SetUp_off (internalConfig config) now newLoggerErr h
    { freshState with defaultLogLevel := config.Level } rfl rfl
  unfold InitWithConfig
  simp only [hv]
  split_ifs
  · show offInvariant none [] (AddWriter _ _)
    rw [AddWriter_off _ _ hu.1 hu.2.1]
    exact hu
  · exact hu

/-- C15, counterexample: a fresh process initialised with level `OFF`, for the
console and for files: `InitWithConfig` succeeds, the level is `OFF`, and
`Print` and `WriteRawString` write nothing. -/
theorem Print_dropped_off_config :
    (InitWithConfig freshState offConfig exampleNow newLoggerOk).2 = none ∧
    GetLogLevelStr (InitWithConfig freshState offConfig exampleNow newLoggerOk).1
      = LevelDisable ∧
    ((WithModuleName (lit "m")).Print
      (InitWithConfig freshState offConfig exampleNow newLoggerOk).1 exampleCtx
      (lit "GET /")).written = [] ∧
    ((WithModuleName (lit "m")).WriteRawString
      (InitWithConfig freshState offConfig exampleNow newLoggerOk).1 (lit "raw")).written = [] ∧
    (InitWithConfig freshState offFileConfig exampleNow newLoggerOk).2 = none ∧
    ((WithModuleName (lit "m")).Print
      (InitWithConfig freshState offFileConfig exampleNow newLoggerOk).1 exampleCtx
      (lit "GET /")).written = [] ∧
    ((WithModuleName (lit "m")).WriteRawString
      (InitWithConfig freshState offFileConfig exampleNow newLoggerOk).1
      (lit "raw")).written = [] := by
  decide

/-- C15, amended. When level `OFF` is set by `SetLogLevelStr` in a state where
a writer is installed, an access record (`Print`, `Printf`) and
`WriteRawString` are still handed to that writer. When `OFF` comes from the
configuration that `InitWithConfig` accepts in a fresh process, no writer is
installed and both write nothing. -/
theorem access_record_off (l : richLogger) (ctx ctx0 : Ctx) (msg : GoString) :
    (∀ (s : LogState) (w : Writer), s.writer = some w →
      (SetLogLevelStr s ctx0 LevelDisable).logLevel = DisableLevel ∧
      (l.Print (SetLogLevelStr s ctx0 LevelDisable) ctx msg).written =
        s.written ++ Writer.AccessRecord ctx s.maxContentLength (Payload.str msg) w ∧
      (l.WriteRawString (SetLogLevelStr s ctx0 LevelDisable) msg).written =
        s.written ++ Writer.WriteRawString msg w) ∧
    (∀ (config : Config) (now : Time) (newLoggerErr : GoString → Option GoError),
      ToUpper config.Level = LevelDisable → config.ValidateConfig = none →
      (InitWithConfig freshState config now newLoggerErr).1.logLevel = DisableLevel ∧
      (l.Print (InitWithConfig freshState config now newLoggerErr).1 ctx msg).written = [] ∧
      (l.WriteRawString (InitWithConfig freshState config now newLoggerErr).1 msg).written
        = []) := by
  constructor
  · intro s w hw
    rw [SetLogLevelStr_off]
    refine ⟨rfl, ?_, ?_⟩
    · simp [richLogger.Print, getWriter, hw, SetLevel]
    · simp [richLogger.WriteRawString, getWriter, hw, SetLevel]
  · intro config now newLoggerErr h hv
    obtain ⟨h1, h2, h3⟩ := InitWithConfig_off config now newLoggerErr h hv
    refine ⟨h1, ?_, ?_⟩
    · simp [richLogger.Print, getWriter, h2, h3, Writer.AccessRecord]
    · simp [richLogger.WriteRawString, getWriter, h2, h3, Writer.WriteRawString]

/-- C15, witness: `OFF` set by `SetLogLevelStr` on the example file writer;
the access record goes to the manager log and the raw string to the server
log. -/
theorem access_record_off_witness :
    exampleFileState.writer = some (Writer.concrete exampleServerLog exampleManagerLog) ∧
    ((SetLogLevelStr exampleFileState exampleCtx LevelDisable).logLevel = DisableLevel ∧
      ((WithModuleName (lit "m")).Print (SetLogLevelStr exampleFileState exampleCtx LevelDisable)
        exampleCtx (lit "GET /")).written =
        exampleFileState.written ++ Writer.AccessRecord exampleCtx
          exampleFileState.maxContentLength (Payload.str (lit "GET /"))
          (Writer.concrete exampleServerLog exampleManagerLog) ∧
      ((WithModuleName (lit "m")).WriteRawString
        (SetLogLevelStr exampleFileState exampleCtx LevelDisable) (lit "GET /")).written =
        exampleFileState.written ++ Writer.WriteRawString (lit "GET /")
          (Writer.concrete exampleServerLog exampleManagerLog)) ∧
    Writer.AccessRecord exampleCtx 0 (Payload.str (lit "GET /"))
        (Writer.concrete exampleServerLog exampleManagerLog)
      = [(exampleManagerLog, lit "2026-11-01T00:00:00.000Z GET /\n")] :=
  ⟨by decide,
    (access_record_off (WithModuleName (lit "m")) exampleCtx exampleCtx (lit "GET /")).1
      exampleFileState (Writer.concrete exampleServerLog exampleManagerLog) (by decide),
    by decide⟩

/-! ## Validation -/

/-- C18, at the failing inputs: `ValidateConfig` accepts `MaxBackups = -1`
(the second case of `TestInit`, which expects an error) and `MaxSize = -5`,
and `InitWithConfig` returns no error for either. -/
theorem ValidateConfig_negative :
    negativeBackupsConfig.MaxBackups = -1 ∧
    negativeBackupsConfig.ValidateConfig = none ∧
    (InitWithConfig freshState negativeBackupsConfig exampleNow newLoggerOk).2 = none ∧
    negativeSizeConfig.MaxSize = -5 ∧
    negativeSizeConfig.ValidateConfig = none ∧
    (InitWithConfig freshState negativeSizeConfig exampleNow newLoggerOk).2 = none := by
  decide

/-- What `ValidateConfig` does ensure of a configuration it accepts:
`MaxSize` is at most 0 or within 1..1024 and `MaxBackups` is at most 0 or
within 1..100. -/
theorem ValidateConfig_bounds (c : Config) (h : c.ValidateConfig = none) :
    (c.MaxSize ≤ 0 ∨ (1 ≤ c.MaxSize ∧ c.MaxSize ≤ 1024)) ∧
      (c.MaxBackups ≤ 0 ∨ (1 ≤ c.MaxBackups ∧ c.MaxBackups ≤ 100)) := by
  unfold Config.ValidateConfig at h
  simp only [minLogSize, maxLogSize, minBackups, maxBackups] at h
  split_ifs at h with h1 h2 h3 h4
  all_goals omega

/-! ## `KeepDays` -/

/-- The options `newFileWriter` applies for the configuration that
`InitWithConfig` builds never set `keepDays`. -/
theorem applyFileOptions_keepDays (o : logOptions) (config : Config) :
    (applyFileOptions o (internalConfig config)).keepDays = o.keepDays := by
  unfold applyFileOptions internalConfig
  simp only [lt_self_iff_false, if_false]
  split_ifs <;> rfl

/-- C19, at the failing input: after `InitWithConfig` with the daily rule,
file mode and `KeepDays = 2` in a fresh process, the rules of the server and
the manager file have `days = 0`, and of the archives dated 5, 3 and 1 days ago
none is outdated; a daily rule with `days = 2` would name the archives of 5 and
3 days ago. -/
theorem InitWithConfig_keepDays :
    keepDaysConfig.KeepDays = 2 ∧
    (InitWithConfig freshState keepDaysConfig exampleNow newLoggerOk).2 = none ∧
    keepDaysState.writer.bind Writer.serverRule =
      some (RotateRule.daily
        (DefaultRotateRule exampleNow (lit "logs/svc_server.log") (lit "-") 0 false)) ∧
    keepDaysState.writer.bind Writer.managerRule =
      some (RotateRule.daily
        (DefaultRotateRule exampleNow (lit "logs/svc_manager.log") (lit "-") 0 false)) ∧
    (keepDaysState.writer.bind Writer.serverRule).map RotateRule.days = some 0 ∧
    (keepDaysState.writer.bind Writer.serverRule).map (fun r => r.OutdatedFiles keepDaysEnv)
      = some [] ∧
    (DefaultRotateRule exampleNow (lit "logs/svc_server.log") (lit "-") 2 false).OutdatedFiles
        keepDaysEnv
      = [lit "logs/svc_server.log-2026-10-27", lit "logs/svc_server.log-2026-10-29"] := by
  decide

/-! ## The level after `InitWithConfig` and after the timer -/

/-- C20, at the failing input: after `InitWithConfig` succeeds in a fresh
process with the configuration of `TestInit`, whose `Level` is empty,
`GetLogLevelStr` returns `TRA`, not `ERR`. -/
theorem InitWithConfig_empty_level :
    testConfig.Level = [] ∧
    (InitWithConfig freshState testConfig exampleNow newLoggerOk).2 = none ∧
    GetLogLevelStr (InitWithConfig freshState testConfig exampleNow newLoggerOk).1
      = lit "TRA" ∧
    GetLogLevelStr (InitWithConfig freshState testConfig exampleNow newLoggerOk).1
      ≠ lit "ERR" := by
  decide

/-- C17, at the failing input, the steps of `TestSetAndGetOpenTime`: the level
right after `InitWithConfig` is `TRA`; after `SetLogLevelStr("DEB")`,
`SetOpenTime(3 s, callback)` and the expiry of the timer the level is still
`DEB` and the callback was called with the empty string; `GetOpenTime` returns
-1 and the timer is cleared. -/
theorem timerExpires_empty_level :
    GetLogLevelStr testInitState = lit "TRA" ∧
    testInitState.defaultLogLevel = [] ∧
    GetLogLevelStr testOpenTimeState = lit "DEB" ∧
    testOpenTimeState.callbacks = [(7, [])] ∧
    GetOpenTime testOpenTimeState = -1 ∧
    testOpenTimeState.openTimer = none := by
  decide

/-! ## What the writer functions and the log calls leave as it is -/

theorem sameControl_refl (s : LogState) : sameControl s s := ⟨rfl, rfl, rfl, rfl, rfl⟩

theorem sameControl_trans {a b c : LogState} (h1 : sameControl a b) (h2 : sameControl b c) :
    sameControl a c :=
  ⟨h1.1.trans h2.1, h1.2.1.trans h2.2.1, h1.2.2.1.trans h2.2.2.1, h1.2.2.2.1.trans h2.2.2.2.1,
    h1.2.2.2.2.trans h2.2.2.2.2⟩

theorem SetWriter_sameControl (s : LogState) (w : Writer) : sameControl (SetWriter s w) s := by
  unfold SetWriter
  split_ifs <;> exact ⟨rfl, rfl, rfl, rfl, rfl⟩

theorem AddWriter_sameControl (s : LogState) (w : Writer) : sameControl (AddWriter s w) s := by
  unfold AddWriter
  split
  · exact sameControl_trans (SetWriter_sameControl _ _) ⟨rfl, rfl, rfl, rfl, rfl⟩
  · exact sameControl_trans (SetWriter_sameControl _ _) ⟨rfl, rfl, rfl, rfl, rfl⟩

theorem getWriter_sameControl (s : LogState) : sameControl (getWriter s).1 s := by
  unfold getWriter
  split <;> exact ⟨rfl, rfl, rfl, rfl, rfl⟩

theorem richLogger_leveled_sameControl (l : richLogger) (s : LogState) (ctx : Ctx) (level : Nat)
    (name msg : GoString) : sameControl (l.leveled s ctx level name msg) s := by
  unfold richLogger.leveled
  split_ifs
  · exact sameControl_refl s
  · exact getWriter_sameControl s

theorem setupLogLevel_empty (s : LogState) (c : LogConf) (h : c.Level = []) :
    setupLogLevel s c = s := by
  have h0 : ToUpper ([] : GoString) = [] := rfl
  have h1 : ([] : GoString) ≠ LevelTrace := by decide
  have h2 : ([] : GoString) ≠ LevelDebug := by decide
  have h3 : ([] : GoString) ≠ LevelInfo := by decide
  have h4 : ([] : GoString) ≠ LevelWarn := by decide
  have h5 : ([] : GoString) ≠ LevelError := by decide
  have h6 : ([] : GoString) ≠ LevelDisable := by decide
  simp [setupLogLevel, h, h0, h1, h2, h3, h4, h5, h6]

theorem newFileWriter_sameControl (s : LogState) (c : LogConf) (now : Time)
    (newLoggerErr : GoString → Option GoError) (h : c.Level = []) :
    sameControl (newFileWriter s c now newLoggerErr).1 s := by
  unfold newFileWriter
  split_ifs
  · exact sameControl_refl s
  · simp only [setupLogLevel_empty _ c h]
    split
    · exact ⟨rfl, rfl, rfl, rfl, rfl⟩
    · split <;> exact ⟨rfl, rfl, rfl, rfl, rfl⟩

theorem setupWithFiles_sameControl (s : LogState) (c : LogConf) (now : Time)
    (newLoggerErr : GoString → Option GoError) (h : c.Level = []) :
    sameControl (setupWithFiles s c now newLoggerErr).1 s := by
  have hn := newFileWriter_sameControl s c now newLoggerErr h
  unfold setupWithFiles
  rcases hnf : newFileWriter s c now newLoggerErr with ⟨s1, r⟩
  rw [hnf] at hn
  cases r with
  | error e => exact hn
  | ok fw => exact sameControl_trans (SetWriter_sameControl s1 fw) hn

theorem setupWithConsole_sameControl (s : LogState) (c : LogConf) :
    sameControl (setupWithConsole s c) s := by
  unfold setupWithConsole
  split_ifs <;> exact SetWriter_sameControl _ _

/-- With an empty `Level`, `SetUp` leaves the level as it was. -/
theorem SetUp_sameControl (s : LogState) (c : LogConf) (now : Time)
    (newLoggerErr : GoString → Option GoError) (h : c.Level = []) :
    sameControl (SetUp s c now newLoggerErr).1 s := by
  unfold SetUp
  split_ifs with h1 h2
  · exact sameControl_refl s
  · simp only [setupLogLevel_empty _ c h]
    exact sameControl_trans (setupWithFiles_sameControl _ c now newLoggerErr h)
      ⟨rfl, rfl, rfl, rfl, rfl⟩
  · simp only [setupLogLevel_empty _ c h]
    exact sameControl_trans (setupWithConsole_sameControl _ c) ⟨rfl, rfl, rfl, rfl, rfl⟩

/-- With an empty `Level` that is accepted, `InitWithConfig` leaves the level
as it was and saves the empty string as the default level. -/
theorem InitWithConfig_level_kept (s : LogState) (config : Config) (now : Time)
    (newLoggerErr : GoString → Option GoError) (h : config.Level = [])
    (hv : config.ValidateConfig = none) :
    (InitWithConfig s config now newLoggerErr).1.logLevel = s.logLevel ∧
      (InitWithConfig s config now newLoggerErr).1.defaultLogLevel = [] := by
  have hu := SetUp_sameControl { s with defaultLogLevel := config.Level } (internalConfig config)
    now newLoggerErr h
  unfold InitWithConfig
  simp only [hv]
  split_ifs
  · have ha := sameControl_trans (AddWriter_sameControl _ (Writer.concrete Dest.stdout Dest.stdout))
      hu
    exact ⟨ha.1, ha.2.1.trans h⟩
  · exact ⟨hu.1, hu.2.1.trans h⟩

/-- In a fresh process the level after an accepted configuration with an empty
`Level` is `TRA`. -/
theorem InitWithConfig_fresh_level (config : Config) (now : Time)
    (newLoggerErr : GoString → Option GoError) (h : config.Level = [])
    (hv : config.ValidateConfig = none) :
    GetLogLevelStr (InitWithConfig freshState config now newLoggerErr).1 = lit "TRA" := by
  have hl := (InitWithConfig_level_kept freshState config now newLoggerErr h hv).1
  have h0 : freshState.logLevel = 0 := rfl
  unfold GetLogLevelStr GetLevel
  rw [hl, h0]
  decide

theorem SetLogLevelStr_valid (s : LogState) (ctx : Ctx) (level : GoString) (lv : Nat)
    (h : levelMap (ToUpper level) = some lv) :
    (SetLogLevelStr s ctx level).logLevel = lv ∧
      (SetLogLevelStr s ctx level).defaultLogLevel = s.defaultLogLevel ∧
      (SetLogLevelStr s ctx level).openTimer = s.openTimer ∧
      (SetLogLevelStr s ctx level).currentOpenTime = s.currentOpenTime ∧
      (SetLogLevelStr s ctx level).callbacks = s.callbacks := by
  simp only [SetLogLevelStr, h]
  exact richLogger_leveled_sameControl _ (SetLevel s lv) _ _ _ _

theorem SetLogLevelStr_invalid (s : LogState) (ctx : Ctx) (level : GoString)
    (h : levelMap (ToUpper level) = none) :
    sameControl (SetLogLevelStr s ctx level) s := by
  simp only [SetLogLevelStr, h]
  exact richLogger_leveled_sameControl _ s _ _ _ _

/-- When the timer expires: the open time is -1, the timer is cleared, the
callback, if any, is called with the saved default level; the level is the one
the saved default names, and is left as it was when the saved default is not
the name of a level. -/
theorem timerExpires_spec (s : LogState) (ctx1 ctx2 : Ctx) (t : Timer)
    (ht : s.openTimer = some t) :
    GetOpenTime (timerExpires s ctx1 ctx2) = -1 ∧
    (timerExpires s ctx1 ctx2).openTimer = none ∧
    (timerExpires s ctx1 ctx2).callbacks =
      s.callbacks ++ (match t.callback with
        | some cb => [(cb, s.defaultLogLevel)]
        | none => []) ∧
    (∀ lv, levelMap (ToUpper s.defaultLogLevel) = some lv →
      (timerExpires s ctx1 ctx2).logLevel = lv) ∧
    (levelMap (ToUpper s.defaultLogLevel) = none →
      (timerExpires s ctx1 ctx2).logLevel = s.logLevel) := by
  unfold timerExpires
  simp only [ht]
  generalize hs1 : mlog.Info s ctx1 _ = s1
  have h1 : sameControl s1 s := by
    rw [← hs1]
    exact richLogger_leveled_sameControl _ _ _ _ _ _
  obtain ⟨a1, a2, -, -, a5⟩ := h1
  have hcb : (SetLogLevelStr s1 ctx2 s1.defaultLogLevel).callbacks = s.callbacks ∧
      (SetLogLevelStr s1 ctx2 s1.defaultLogLevel).defaultLogLevel = s.defaultLogLevel := by
    cases hm : levelMap (ToUpper s1.defaultLogLevel) with
    | none =>
      have h2 := SetLogLevelStr_invalid s1 ctx2 _ hm
      exact ⟨h2.2.2.2.2.trans a5, h2.2.1.trans a2⟩
    | some lv =>
      have h2 := SetLogLevelStr_valid s1 ctx2 _ lv hm
      exact ⟨h2.2.2.2.2.trans a5, h2.2.1.trans a2⟩
  have hlv1 : ∀ lv, levelMap (ToUpper s.defaultLogLevel) = some lv →
      (SetLogLevelStr s1 ctx2 s1.defaultLogLevel).logLevel = lv := by
    intro lv hm
    rw [← a2] at hm
    exact (SetLogLevelStr_valid s1 ctx2 _ lv hm).1
  have hlv2 : levelMap (ToUpper s.defaultLogLevel) = none →
      (SetLogLevelStr s1 ctx2 s1.defaultLogLevel).logLevel = s.logLevel := by
    intro hm
    rw [← a2] at hm
    exact (SetLogLevelStr_invalid s1 ctx2 _ hm).1.trans a1
  cases hc : t.callback with
  | none =>
    refine ⟨rfl, rfl, ?_, hlv1, hlv2⟩
    simp [hcb.1]
  | some cb =>
    refine ⟨rfl, rfl, ?_, hlv1, hlv2⟩
    simp [hcb.1, hcb.2]

/-- For every accepted configuration with an empty `Level` in a fresh process,
every level name set afterwards and every duration other than 0: when the
timer expires the level is still the one set afterwards. -/
theorem timerExpires_level_kept (config : Config) (now : Time)
    (newLoggerErr : GoString → Option GoError) (ctx : Ctx) (level : GoString) (lv : Nat)
    (duration : Int) (callback : Option Nat) (h : config.Level = [])
    (hv : config.ValidateConfig = none) (hlv : levelMap (ToUpper level) = some lv)
    (hd : duration ≠ 0) :
    (timerExpires
      (SetOpenTime (SetLogLevelStr (InitWithConfig freshState config now newLoggerErr).1 ctx level)
        ctx duration callback) ctx ctx).logLevel = lv := by
  have h0 := (InitWithConfig_level_kept freshState config now newLoggerErr h hv).2
  have h1 := SetLogLevelStr_valid (InitWithConfig freshState config now newLoggerErr).1 ctx level lv
    hlv
  generalize SetLogLevelStr (InitWithConfig freshState config now newLoggerErr).1 ctx level = s1
    at h1
  have h2 : SetOpenTime s1 ctx duration callback =
      { s1 with openTimer := some { callback := callback }, currentOpenTime := duration } := by
    simp [SetOpenTime, hd]
  rw [h2]
  have hnone : levelMap (ToUpper ([] : GoString)) = none := by decide
  have hdef : s1.defaultLogLevel = [] := h1.2.1.trans h0
  have h3 := (timerExpires_spec
    { s1 with openTimer := some { callback := callback }, currentOpenTime := duration } ctx ctx
    { callback := callback } rfl).2.2.2.2
    (by
      show levelMap (ToUpper s1.defaultLogLevel) = none
      rw [hdef]
      exact hnone)
  rw [h3]
  exact h1.1

/-- After `InitWithConfig` with level `ERR` and a second `InitWithConfig` with
level `DEB` the level is `ERR` (`SetUp` runs once) and the saved default level
is `DEB`. -/
theorem InitWithConfig_second :
    GetLogLevelStr secondInitState = lit "ERR" ∧ secondInitState.defaultLogLevel = lit "DEB" := by
  decide

/-! ## Level names -/

theorem levelMap_isSome (name : GoString) : (levelMap name).isSome = true ↔ name ∈ levelNames := by
  unfold levelMap levelNames
  split_ifs <;> simp_all

theorem levelMap_levelStrMap (name : GoString) (lv : Nat) (h : levelMap name = some lv) :
    levelStrMap lv = some name := by
  unfold levelMap at h
  split_ifs at h with h1 h2 h3 h4 h5 h6
  all_goals
    simp only [Option.some.injEq] at h
    subst h
    simp_all [levelStrMap, TraceLevel, DebugLevel, InfoLevel, WarnLevel, ErrorLevel, DisableLevel]

/-- C21. `CheckLogLevelStr(s)` returns nil exactly when the upper-cased `s` is
one of `TRA`, `DEB`, `INF`, `WAR`, `ERR`, `OFF`; for every such `s`, in every
state, `GetLogLevelStr()` after `SetLogLevelStr(s)` returns the upper-cased
`s`; for every other `s`, `SetLogLevelStr(s)` leaves the level as it was. -/
theorem level_names (s : GoString) (st : LogState) (ctx : Ctx) :
    (CheckLogLevelStr s = none ↔ ToUpper s ∈ levelNames) ∧
    (ToUpper s ∈ levelNames → GetLogLevelStr (SetLogLevelStr st ctx s) = ToUpper s) ∧
    (ToUpper s ∉ levelNames → GetLevel (SetLogLevelStr st ctx s) = GetLevel st) := by
  refine ⟨?_, ?_, ?_⟩
  · rw [← levelMap_isSome]
    unfold CheckLogLevelStr
    cases levelMap (ToUpper s) <;> simp
  · intro h
    rw [← levelMap_isSome, Option.isSome_iff_exists] at h
    obtain ⟨lv, hlv⟩ := h
    have h1 := (SetLogLevelStr_valid st ctx s lv hlv).1
    simp only [GetLogLevelStr, GetLevel, h1, levelMap_levelStrMap _ _ hlv]
  · intro h
    rw [← levelMap_isSome] at h
    have hnone : levelMap (ToUpper s) = none := by
      cases hm : levelMap (ToUpper s) with
      | none => rfl
      | some lv => simp [hm] at h
    exact (SetLogLevelStr_invalid st ctx s hnone).1

/-- C21, witness: `inf` is accepted and sets the level `INF`; so is the name
written with a dotless i (U+0131), which `strings.ToUpper` maps to `I`; `xyz`
is not a level name and leaves the level as it was. -/
theorem level_names_witness :
    ToUpper (lit "inf") ∈ levelNames ∧ ToUpper (lit "xyz") ∉ levelNames ∧
    ToUpper dotlessInf = lit "INF" ∧
    CheckLogLevelStr (lit "inf") = none ∧
    GetLogLevelStr (SetLogLevelStr exampleFileState exampleCtx (lit "inf")) = lit "INF" ∧
    CheckLogLevelStr dotlessInf = none ∧
    GetLogLevelStr (SetLogLevelStr exampleFileState exampleCtx dotlessInf) = ToUpper dotlessInf ∧
    GetLevel (SetLogLevelStr exampleFileState exampleCtx (lit "xyz")) = GetLevel exampleFileState :=
  ⟨by decide, by decide, by decide,
    (level_names (lit "inf") exampleFileState exampleCtx).1.mpr (by decide),
    (level_names (lit "inf") exampleFileState exampleCtx).2.1 (by decide),
    (level_names dotlessInf exampleFileState exampleCtx).1.mpr (by decide),
    (level_names dotlessInf exampleFileState exampleCtx).2.1 (by decide),
    (level_names (lit "xyz") exampleFileState exampleCtx).2.2 (by decide)⟩

/-- Upper-casing outside ASCII: the long s (U+017F) becomes `S`, the sharp s
(U+00DF) has no upper-case rune and is kept, a byte that starts no valid
encoding becomes U+FFFD, and a letter of four bytes (U+10428) is mapped. -/
theorem ToUpper_examples :
    ToUpper [197, 191] = lit "S" ∧
    ToUpper [195, 159, 97] = [195, 159, 65] ∧
    ToUpper [255, 97] = [239, 191, 189, 65] ∧
    ToUpper [240, 144, 144, 168] = [240, 144, 144, 128] ∧
    ToUpper (lit "Off") = lit "OFF" := by
  decide

/-! ## The cross-process queue -/

theorem sendToELogItems_foldl (items : List ELogItem) (s : LogState)
    (h : s.eLogItems.length ≤ 1024) :
    (items.foldl sendToELogItems s).eLogItems =
      s.eLogItems ++ items.take (1024 - s.eLogItems.length) := by
  induction items generalizing s with
  | nil => simp
  | cons x rest ih =>
    rw [List.foldl_cons]
    by_cases hlt : s.eLogItems.length < 1024
    · have hs : (sendToELogItems s x).eLogItems = s.eLogItems ++ [x] := by
        simp [sendToELogItems, hlt]
      have hlen : (sendToELogItems s x).eLogItems.length ≤ 1024 := by
        rw [hs, List.length_append, List.length_singleton]
        omega
      rw [ih _ hlen, hs, List.length_append, List.length_singleton]
      obtain ⟨k, hk⟩ : ∃ k, 1024 - s.eLogItems.length = k + 1 := ⟨1023 - s.eLogItems.length, by omega⟩
      have hk2 : 1024 - (s.eLogItems.length + 1) = k := by omega
      rw [hk, hk2, List.take_succ_cons, List.append_assoc, List.singleton_append]
    · have hs : sendToELogItems s x = s := by simp [sendToELogItems, hlt]
      have hz : 1024 - s.eLogItems.length = 0 := by omega
      rw [hs, ih s h, hz]
      simp

/-- C22. The cross-process queue never holds more than 1024 items:
`sendToELogItems` on a queue with fewer than 1024 items appends the item at the
tail; on a queue with 1024 items it leaves the state as it is; a queue of at
most 1024 items stays so; and after any sequence of sends from the empty queue
the queue holds the first 1024 items sent, in order. -/
theorem sendToELogItems_cap (s : LogState) (item : ELogItem) :
    (s.eLogItems.length < 1024 →
      (sendToELogItems s item).eLogItems = s.eLogItems ++ [item]) ∧
    (s.eLogItems.length = 1024 → sendToELogItems s item = s) ∧
    (s.eLogItems.length ≤ 1024 → (sendToELogItems s item).eLogItems.length ≤ 1024) ∧
    (∀ items : List ELogItem,
      (items.foldl sendToELogItems freshState).eLogItems = items.take 1024) := by
  refine ⟨?_, ?_, ?_, ?_⟩
  · intro h
    simp [sendToELogItems, h]
  · intro h
    simp [sendToELogItems, h]
  · intro h
    unfold sendToELogItems
    split_ifs with h1
    · simp only [List.length_append, List.length_singleton]
      omega
    · exact h
  · intro items
    have h0 : freshState.eLogItems = [] := rfl
    rw [sendToELogItems_foldl items freshState (by rw [h0]; simp), h0]
    simp

/-- C22, witness: 1025 sends into the empty queue leave 1024 items. -/
theorem sendToELogItems_cap_witness :
    ((List.replicate 1025 exampleItem).foldl sendToELogItems freshState).eLogItems.length
      = 1024 := by
  rw [(sendToELogItems_cap freshState exampleItem).2.2.2 (List.replicate 1025 exampleItem)]
  simp

/-! ## The health notice queue -/

/-- C26. The health notice queue holds at most one error: `ReportError` on an
empty queue stores the error; on a queue that holds a notice it changes
nothing; a queue of at most one notice stays so under `ReportError` and under
the worker taking a notice; and when the worker takes the notice `e`, the
state from which recovery starts has `lastError = e` and the queue without
`e`. -/
theorem ReportError_queue (h : HealthChecker) (err : GoError) (now : Time) :
    (h.healthChan = [] → (h.ReportError err).healthChan = [err]) ∧
    (h.healthChan ≠ [] → h.ReportError err = h) ∧
    (h.healthChan.length ≤ 1 → (h.ReportError err).healthChan.length ≤ 1) ∧
    (∀ (h1 : HealthChecker) (e : GoError), h.takeNotice now = some (h1, e) →
      h.healthChan = e :: h1.healthChan ∧ h1.lastError = some e ∧ h1.errorTime = now ∧
        (h.healthChan.length ≤ 1 → h1.healthChan = [])) ∧
    (h.takeNotice now = none ↔ h.healthChan = []) := by
  refine ⟨?_, ?_, ?_, ?_, ?_⟩
  · intro h0
    simp [HealthChecker.ReportError, h0]
  · intro h0
    have hlen : ¬ h.healthChan.length < 1 := by
      have := List.length_pos.mpr h0
      omega
    simp [HealthChecker.ReportError, hlen]
  · intro h0
    unfold HealthChecker.ReportError
    split_ifs with h1
    · simp only [List.length_append, List.length_singleton]
      omega
    · exact h0
  · intro h1 e ht
    unfold HealthChecker.takeNotice at ht
    cases hq : h.healthChan with
    | nil => simp [hq] at ht
    | cons x rest =>
      simp only [hq, Option.some.injEq, Prod.mk.injEq] at ht
      obtain ⟨rfl, rfl⟩ := ht
      refine ⟨rfl, rfl, rfl, ?_⟩
      intro hlen
      simp only [List.length_cons] at hlen
      show rest = []
      exact List.length_eq_zero.mp (by omega)
  · unfold HealthChecker.takeNotice
    cases h.healthChan <;> simp

/-- C26, witness: two reports to a fresh health checker; the second is
dropped and the worker takes the first. -/
theorem ReportError_queue_witness :
    NewHealthChecker.healthChan = [] ∧
    (NewHealthChecker.ReportError errNoSpace).healthChan = [errNoSpace] ∧
    ((NewHealthChecker.ReportError errNoSpace).healthChan ≠ [] ∧
      (NewHealthChecker.ReportError errNoSpace).ReportError errReadOnly
        = NewHealthChecker.ReportError errNoSpace) ∧
    (((NewHealthChecker.ReportError errNoSpace).takeNotice exampleNow).map
      (fun p => (p.1.lastError, p.1.healthChan))) = some (some errNoSpace, []) :=
  ⟨by decide,
    (ReportError_queue NewHealthChecker errNoSpace exampleNow).1 (by decide),
    ⟨by decide,
      (ReportError_queue (NewHealthChecker.ReportError errNoSpace) errReadOnly exampleNow).2.1
        (by decide)⟩,
    by decide⟩

/-! ## Retention removes the oldest archives -/

theorem mem_take_max {x : GoString} (l : List GoString) (a b : Nat) :
    (x ∈ l.take a ∨ x ∈ l.take b) ↔ x ∈ l.take (max a b) := by
  constructor
  · rintro (h | h)
    · exact List.take_subset_take_left l (le_max_left a b) h
    · exact List.take_subset_take_left l (le_max_right a b) h
  · intro h
    rcases le_total a b with hab | hab
    · rw [max_eq_right hab] at h
      exact Or.inr h
    · rw [max_eq_left hab] at h
      exact Or.inl h

/-- The disk-pressure loop marks the first files of the list it walks. -/
theorem pressureLoop_marks_first (env : Env) (m : Int) (files out : List GoString) (t : Int) :
    ∃ p, ∀ x, x ∈ pressureLoop env m files out t ↔ x ∈ out ∨ x ∈ files.take p := by
  induction files generalizing out t with
  | nil => exact ⟨0, fun x => by simp [pressureLoop]⟩
  | cons f fs ih =>
    rw [pressureLoop_cons]
    by_cases h : f ∈ out
    · simp only [h, if_true]
      by_cases h2 : t ≤ m
      · exact ⟨0, fun x => by simp [h2]⟩
      · obtain ⟨p, hp⟩ := ih out t
        refine ⟨p + 1, fun x => ?_⟩
        simp only [h2, if_false, hp, List.take_succ_cons, List.mem_cons]
        constructor
        · rintro (hx | hx)
          · exact Or.inl hx
          · exact Or.inr (Or.inr hx)
        · rintro (hx | hx | hx)
          · exact Or.inl hx
          · exact Or.inl (hx ▸ h)
          · exact Or.inr hx
    · simp only [h, if_false]
      by_cases h2 : wrap64 (t - fileSizes env f) ≤ m
      · refine ⟨1, fun x => ?_⟩
        simp [h2]
      · obtain ⟨p, hp⟩ := ih (out ++ [f]) (wrap64 (t - fileSizes env f))
        refine ⟨p + 1, fun x => ?_⟩
        simp only [h2, if_false, hp, List.take_succ_cons, List.mem_cons, List.mem_append,
          List.mem_singleton]
        tauto

/-- The age loop marks the first files of the list it walks. -/
theorem ageLoop_marks_first (boundaryFile : GoString) (files out : List GoString) :
    ∃ p, ∀ x, x ∈ ageLoop boundaryFile files out ↔ x ∈ out ∨ x ∈ files.take p := by
  induction files generalizing out with
  | nil => exact ⟨0, fun x => by simp [ageLoop]⟩
  | cons f fs ih =>
    by_cases h : strGe f boundaryFile = true
    · exact ⟨0, fun x => by simp [ageLoop, h]⟩
    · obtain ⟨p, hp⟩ := ih (markOutdated out f)
      have e : ageLoop boundaryFile (f :: fs) out = ageLoop boundaryFile fs (markOutdated out f) := by
        simp [ageLoop, h]
      refine ⟨p + 1, fun x => ?_⟩
      rw [e, hp, markOutdated_mem, List.take_succ_cons, List.mem_cons]
      tauto

/-- The outdated files are the first files of the sorted glob result. -/
theorem OutdatedFiles_first (r : SizeLimitRotateRule) (env : Env) (globbed : List GoString)
    (hg : env.glob r.outdatedPattern = some globbed) :
    ∃ m, ∀ x, x ∈ r.OutdatedFiles env ↔ x ∈ (sortStrings globbed).take m := by
  unfold SizeLimitRotateRule.OutdatedFiles
  simp only [hg]
  generalize sortStrings globbed = sorted
  have hcount : ∃ k, (∀ x, x ∈ (r.countRule sorted).1 ↔ x ∈ sorted.take k) ∧
      (r.countRule sorted).2 = sorted.drop k := by
    unfold SizeLimitRotateRule.countRule
    split_ifs
    · exact ⟨((sorted.length : Int) - r.maxBackups).toNat, fun x => by simp [markAll_mem], rfl⟩
    · exact ⟨0, fun x => by simp, by simp⟩
  obtain ⟨k, hk1, hk2⟩ := hcount
  have hpress : ∃ p, ∀ x, x ∈ r.pressureRule env (r.countRule sorted).2 (r.countRule sorted).1 ↔
      x ∈ (r.countRule sorted).1 ∨ x ∈ (r.countRule sorted).2.take p := by
    unfold SizeLimitRotateRule.pressureRule
    simp only
    split_ifs <;>
      first
      | exact pressureLoop_marks_first _ _ _ _ _
      | exact ⟨0, fun x => by simp⟩
  obtain ⟨p, hp⟩ := hpress
  have hage : ∃ a, ∀ x, x ∈ r.ageRule env (r.countRule sorted).2
      (r.pressureRule env (r.countRule sorted).2 (r.countRule sorted).1) ↔
      x ∈ r.pressureRule env (r.countRule sorted).2 (r.countRule sorted).1 ∨
        x ∈ (r.countRule sorted).2.take a := by
    unfold SizeLimitRotateRule.ageRule
    split_ifs
    · exact ageLoop_marks_first _ _ _
    · exact ⟨0, fun x => by simp⟩
  obtain ⟨a, ha⟩ := hage
  refine ⟨k + max p a, fun x => ?_⟩
  rw [ha, hp, hk1, hk2, List.take_add, List.mem_append, ← mem_take_max]
  tauto

/-- In an ascending list, a file that sorts before one of the first `m` files
is one of the first `m` files. -/
theorem Ascending_take_closed (l : List GoString) (h : Ascending l) (m : Nat) (f g : GoString)
    (hf : f ∈ l.take m) (hgl : g ∈ l) (hlt : strLt g f = true) : g ∈ l.take m := by
  rw [← List.take_append_drop m l] at hgl h
  rcases List.mem_append.mp hgl with hg | hg
  · exact hg
  · have := (List.pairwise_append.mp h).2.2 f hf g hg
    rw [hlt] at this
    cases this

/-- C29. For the size-limit rule and every glob result, `OutdatedFiles` is
downward closed in the name order: the outdated files are the first files of
the sorted glob result, and every globbed archive that sorts before an outdated
one is outdated too. -/
theorem OutdatedFiles_downward_closed (r : SizeLimitRotateRule) (env : Env)
    (globbed : List GoString) (hg : env.glob r.outdatedPattern = some globbed) :
    (∃ m, ∀ x, x ∈ r.OutdatedFiles env ↔ x ∈ (sortStrings globbed).take m) ∧
    (∀ f ∈ r.OutdatedFiles env, ∀ g ∈ globbed, strLt g f = true → g ∈ r.OutdatedFiles env) := by
  obtain ⟨m, hm⟩ := OutdatedFiles_first r env globbed hg
  refine ⟨⟨m, hm⟩, ?_⟩
  intro f hf g hgl hlt
  rw [hm] at hf ⊢
  exact Ascending_take_closed _ (sortStrings_ascending globbed) m f g hf
    ((sortStrings_perm globbed).mem_iff.mpr hgl) hlt

/-- C29, witness: the example directory, where the count rule marks the oldest
of four archives; and the same directory under `keepDays = 7`, where the count
rule and the age rule together mark the two oldest. -/
theorem OutdatedFiles_downward_closed_witness :
    exampleEnv.glob exampleSizeRule.outdatedPattern = some exampleArchives ∧
    (∀ f ∈ exampleSizeRule.OutdatedFiles exampleEnv, ∀ g ∈ exampleArchives,
      strLt g f = true → g ∈ exampleSizeRule.OutdatedFiles exampleEnv) ∧
    exampleSizeRule.OutdatedFiles exampleEnv
      = [lit "logs/app-2026-10-01T00.00.00.000000000Z.log"] ∧
    exampleEnv.glob weekSizeRule.outdatedPattern = some exampleArchives ∧
    (∀ f ∈ weekSizeRule.OutdatedFiles exampleEnv, ∀ g ∈ exampleArchives,
      strLt g f = true → g ∈ weekSizeRule.OutdatedFiles exampleEnv) ∧
    weekSizeRule.OutdatedFiles exampleEnv =
      [lit "logs/app-2026-10-01T00.00.00.000000000Z.log",
        lit "logs/app-2026-10-20T00.00.00.000000000Z.log"] :=
  ⟨by decide,
    (OutdatedFiles_downward_closed exampleSizeRule exampleEnv exampleArchives (by decide)).2,
    by decide, by decide,
    (OutdatedFiles_downward_closed weekSizeRule exampleEnv exampleArchives (by decide)).2,
    by decide⟩

/-! ## Compression does not consult the free space -/

/-- Whenever `Open` succeeds, `compressLogFile` creates the `.gz` file. -/
theorem compressLogFile_creates (file : GoString) (o : GzipOutcomes) (h : o.openErr = none) :
    FsOp.Create (file ++ gzipExt) ∈ (compressLogFile file o).1 := by
  unfold compressLogFile gzipFile gzipDeferIn gzipDeferOut
  simp only [h]
  cases o.createErr <;> cases o.copyErr <;> cases o.closeGzipWriterErr <;>
    cases o.closeOutErr <;> cases o.removeErr <;> simp

/-- When the total size of the volume is at least the size of the file,
`ensureEnoughSpace` returns `nil` and removes nothing, whatever the free
space. -/
theorem ensureEnoughSpace_total (env : SpaceEnv) (file : GoString) (size total : Int)
    (hs : env.statSize file = some size) (ht : env.diskTotal (Dir file) = some total)
    (h : size ≤ total) : ensureEnoughSpace env file = ([], none) := by
  simp [ensureEnoughSpace, hs, ht, h]

/-- C27, at the failing input: an archive of 1000 bytes on a volume with 600
bytes free and no other archive. `compressLogFile` opens the archive, creates
`logs/app-1.log.gz` and copies; it returns true when the calls succeed, and
false with the `.gz` file created when the copy fails. `ensureEnoughSpace`,
which no function calls, returns `nil` here because its first probe reads the
total size of the volume; with a total size below 1000 it returns an error. -/
theorem compressLogFile_no_guard :
    fullDiskEnv.statSize (lit "logs/app-1.log") = some 1000 ∧
    fullDiskEnv.diskFree [] (Dir (lit "logs/app-1.log")) = some 600 ∧
    compressLogFile (lit "logs/app-1.log") gzipAllOk =
      ([FsOp.Open (lit "logs/app-1.log"), FsOp.Create (lit "logs/app-1.log.gz"),
        FsOp.Chmod (lit "logs/app-1.log.gz") preGzipFileMode, FsOp.Copy,
        FsOp.Chmod (lit "logs/app-1.log.gz") gzipFileMode, FsOp.CloseGzipWriter,
        FsOp.CloseOut, FsOp.CloseIn, FsOp.Remove (lit "logs/app-1.log")], true) ∧
    (compressLogFile (lit "logs/app-1.log") copyFails).2 = false ∧
    FsOp.Create (lit "logs/app-1.log.gz") ∈ (compressLogFile (lit "logs/app-1.log") copyFails).1 ∧
    ensureEnoughSpace fullDiskEnv (lit "logs/app-1.log") = ([], none) ∧
    ensureEnoughSpace tinyDiskEnv (lit "logs/app-1.log") =
      ([], some (GoError.errorString (lit
        "still insufficient disk space after cleanup (available: 600, required: 1000)"))) := by
  decide

/-! ## A panic of the payload -/

/-- For a value whose rendering returns, the record is the one of
`writePlainAny` and of `GetOutputStringFormatted`. -/
theorem writePlainAnyValue_returns (ts level : GoString) (v : AnyValue) (p : Payload)
    (h : v.toPayload = some p) :
    writePlainAnyValue ts level v = Except.ok (writePlainAny ts level p) ∧
      GetOutputStringFormattedValue ts level v = Except.ok (GetOutputStringFormatted ts level p) := by
  cases v with
  | str s =>
    simp only [AnyValue.toPayload, Option.some.injEq] at h
    subst h
    exact ⟨rfl, rfl⟩
  | err n c =>
    cases c with
    | returns t =>
      simp only [AnyValue.toPayload, Option.some.injEq] at h
      subst h
      exact ⟨rfl, rfl⟩
    | panics c => simp [AnyValue.toPayload] at h
  | stringer n c =>
    cases c with
    | returns t =>
      simp only [AnyValue.toPayload, Option.some.injEq] at h
      subst h
      exact ⟨rfl, rfl⟩
    | panics c => simp [AnyValue.toPayload] at h
  | other n c =>
    cases c with
    | returns t =>
      simp only [AnyValue.toPayload, Option.some.injEq] at h
      subst h
      exact ⟨rfl, rfl⟩
    | panics c => simp [AnyValue.toPayload] at h

/-- A panic of `Error()`, of `String()` or of the JSON encoder leaves
`writePlainAny` and `GetOutputStringFormatted`. -/
theorem writePlainAnyValue_panics (ts level : GoString) (nilPtr : Bool) (cause : GoString) :
    writePlainAnyValue ts level (AnyValue.err nilPtr (Rendering.panics cause))
      = Except.error cause ∧
    writePlainAnyValue ts level (AnyValue.stringer nilPtr (Rendering.panics cause))
      = Except.error cause ∧
    writePlainAnyValue ts level (AnyValue.other nilPtr (Rendering.panics cause))
      = Except.error cause ∧
    GetOutputStringFormattedValue ts level (AnyValue.err nilPtr (Rendering.panics cause))
      = Except.error cause ∧
    GetOutputStringFormattedValue ts level (AnyValue.stringer nilPtr (Rendering.panics cause))
      = Except.error cause ∧
    GetOutputStringFormattedValue ts level (AnyValue.other nilPtr (Rendering.panics cause))
      = Except.error cause :=
  ⟨rfl, rfl, rfl, rfl, rfl, rfl⟩

/-- C28, at the failing inputs: for an `error` that is a nil pointer whose
`Error()` panics, `writePlainAny` and `GetOutputStringFormatted` end in the
panic and produce no record, where `encodeError`, which they do not call,
returns `<nil>`; for a `fmt.Stringer` whose `String()` panics with `boom` they
end in the panic, where `encodeStringer` returns `panic: boom`. -/
theorem writePlainAny_panic :
    writePlainAnyValue exampleCtx.timestamp LevelError nilPointerError =
      Except.error (lit "runtime error: invalid memory address or nil pointer dereference") ∧
    GetOutputStringFormattedValue exampleCtx.timestamp LevelError nilPointerError =
      Except.error (lit "runtime error: invalid memory address or nil pointer dereference") ∧
    encodeError true
      (Rendering.panics (lit "runtime error: invalid memory address or nil pointer dereference"))
      = lit "<nil>" ∧
    writePlainAnyValue exampleCtx.timestamp LevelError panickingStringer
      = Except.error (lit "boom") ∧
    GetOutputStringFormattedValue exampleCtx.timestamp LevelError panickingStringer
      = Except.error (lit "boom") ∧
    encodeStringer false (Rendering.panics (lit "boom")) = lit "panic: boom" :=
  ⟨rfl, rfl, by decide, rfl, rfl, by decide⟩

/-! ## `currentSize` and the active file -/

/-- C23, at the failing input: a logger on a new file, a write that fails on
a full disk, and the recovery of the health checker. Before, the size
invariant holds with `currentSize = 0` on an empty file. After the test write
the file holds the recovery message of 72 bytes and `currentSize` is still 0;
after the consumer then writes its record of 20 bytes the file holds 92 bytes
and `currentSize` is 20. -/
theorem testWrite_not_counted :
    createdLogger.sizeInvariant = true ∧ createdLogger.currentSize = 0 ∧
    (recoverMsg exampleCtx.timestamp recoverText).length = 72 ∧
    bannerLogger.fp = some { sizeAtOpen := 0, written := 72 } ∧
    bannerLogger.currentSize = 0 ∧
    bannerLogger.sizeInvariant = false ∧
    (bannerLogger.writePass record20 passOk).wrote = true ∧
    (bannerLogger.writePass record20 passOk).logger.fp = some { sizeAtOpen := 0, written := 92 } ∧
    (bannerLogger.writePass record20 passOk).logger.currentSize = 20 := by
  decide

/-- C24, at the failing input: a logger that opened a file of 500 bytes; the
file is deleted and the health checker runs `initialize` again, which creates
the file. `initialize` returns no error, the new file is empty and
`currentSize` is still 500; so it is after the whole recovery, the file then
holding the recovery message of 72 bytes. -/
theorem init_keeps_currentSize :
    (openedLogger 500).currentSize = 500 ∧
    (ActiveLogger.initLogger { openedLogger 500 with fp := none } createOk).2 = none ∧
    (ActiveLogger.initLogger { openedLogger 500 with fp := none } createOk).1.fp
      = some { sizeAtOpen := 0, written := 0 } ∧
    (ActiveLogger.initLogger { openedLogger 500 with fp := none } createOk).1.currentSize = 500 ∧
    recreatedLogger.fp = some { sizeAtOpen := 0, written := 72 } ∧
    recreatedLogger.currentSize = 500 := by
  decide

/-- C25, at the failing input: a size-limit rule of 1 MiB, an active file of
1048570 bytes and a record of 20 bytes, so that a rotation is due; `os.Rename`
fails. The pass leaves `fp` nil, reaches `WaitRecover` and has not called
`ReportError`: the notice queue is empty. The file still exists, so the ticker
of the health worker reports nothing, `WaitRecover` cannot proceed and the run
of `write` stays at that pass. -/
theorem write_waits_unreported :
    ((openedLogger 1048570).writePass record20 { passOk with rotate := renameFails }).rotated
      = some (some (GoError.ioError (lit "permission denied"))) ∧
    ((openedLogger 1048570).writePass record20 { passOk with rotate := renameFails }).waits
      = true ∧
    ((openedLogger 1048570).writePass record20 { passOk with rotate := renameFails }).reported
      = none ∧
    ((openedLogger 1048570).writePass record20
      { passOk with rotate := renameFails }).logger.fp = none ∧
    ((openedLogger 1048570).writePass record20
      { passOk with rotate := renameFails }).logger.health.healthChan = [] ∧
    (ActiveLogger.write record20
      [{ outcomes := { passOk with rotate := renameFails },
         health := [HealthAction.tick none, HealthAction.tick none], pick := 0 },
       { outcomes := passOk, health := [], pick := 0 }]
      (openedLogger 1048570)).map (fun p => (p.wrote, p.waits)) = [(false, true)] := by
  decide

/-! ## What the operations on the active file leave as it is -/

theorem rotateCreate_rule (l : ActiveLogger) (o : RotateOutcomes) :
    (l.rotateCreate o).1.rule = l.rule ∧ (l.rotateCreate o).1.currentSize = l.currentSize := by
  unfold ActiveLogger.rotateCreate
  cases o.createErr <;> exact ⟨rfl, rfl⟩

theorem rotate_rule (l : ActiveLogger) (o : RotateOutcomes) :
    (l.rotate o).1.rule = l.rule ∧ (l.rotate o).1.currentSize = l.currentSize := by
  unfold ActiveLogger.rotate
  generalize (if l.fp.isSome = true then o.closeErr else none) = c
  cases c with
  | some e => exact ⟨rfl, rfl⟩
  | none =>
    dsimp only
    split_ifs
    · cases o.renameErr with
      | some e => exact ⟨rfl, rfl⟩
      | none => exact rotateCreate_rule _ o
    · exact rotateCreate_rule _ o

theorem initLogger_rule (l : ActiveLogger) (o : InitOutcomes) :
    (l.initLogger o).1.rule = l.rule := by
  unfold ActiveLogger.initLogger
  cases o.statFile with
  | none =>
    simp only
    split
    · rfl
    · cases o.createErr <;> rfl
  | some size => cases o.openFileErr <;> rfl

theorem testWriteFile_rule (l : ActiveLogger) (msg : GoString) (w : WriteOutcome) :
    (l.testWriteFile msg w).1.rule = l.rule := by
  unfold ActiveLogger.testWriteFile
  cases l.fp <;> rfl

theorem testWriteCheck_rule (l : ActiveLogger) (msg : GoString) (o : TestWriteOutcomes) :
    (l.testWriteCheck msg o).1.rule = l.rule := by
  unfold ActiveLogger.testWriteCheck
  by_cases hn : o.notExist = true
  · simp only [hn, if_true]
    generalize (if l.fp.isSome = true then o.closeErr else none) = c
    cases c with
    | some e => rfl
    | none =>
      dsimp only
      have hi := initLogger_rule { l with fp := none } o.init2
      rcases hinit : ActiveLogger.initLogger { l with fp := none } o.init2 with ⟨l1, e⟩
      rw [hinit] at hi
      cases e with
      | some e => exact hi
      | none =>
        dsimp only
        rw [testWriteFile_rule]
        exact hi
  · simp only [hn]
    exact testWriteFile_rule l msg o.write

theorem testWrite_rule (l : ActiveLogger) (msg : GoString) (o : TestWriteOutcomes) :
    (l.testWrite msg o).1.rule = l.rule := by
  unfold ActiveLogger.testWrite
  cases l.fp with
  | some f => exact testWriteCheck_rule l msg o
  | none =>
    dsimp only
    have hi := initLogger_rule l o.init1
    rcases hinit : l.initLogger o.init1 with ⟨l1, e⟩
    rw [hinit] at hi
    cases e with
    | some e => exact hi
    | none =>
      dsimp only
      rw [testWriteCheck_rule]
      exact hi

theorem healthAct_rule (l : ActiveLogger) (a : HealthAction) : (l.healthAct a).rule = l.rule := by
  cases a with
  | tick e => cases e <;> rfl
  | notice now =>
    show (match l.health.takeNotice now with
      | none => l
      | some (h, _) => { l with health := h }).rule = l.rule
    cases l.health.takeNotice now <;> rfl
  | round ts text o =>
    have ht := testWrite_rule l (recoverMsg ts text) o
    show (match l.testWrite (recoverMsg ts text) o with
      | (l1, none) => { l1 with health := l1.health.signalRecover }
      | (l1, some _) => l1).rule = l.rule
    rcases htw : l.testWrite (recoverMsg ts text) o with ⟨l1, e⟩
    rw [htw] at ht
    cases e <;> exact ht

theorem healthActs_rule (acts : List HealthAction) (l : ActiveLogger) :
    (acts.foldl ActiveLogger.healthAct l).rule = l.rule := by
  induction acts generalizing l with
  | nil => rfl
  | cons a rest ih => rw [List.foldl_cons, ih, healthAct_rule]

theorem MarkRotated_maxBytes (rule : RotateRule) (now : Time) :
    (rule.MarkRotated now).maxBytes = rule.maxBytes := by
  cases rule <;> rfl

theorem maybeRotate_maxBytes (l : ActiveLogger) (v : GoString) (o : WriteOutcomes) :
    (l.maybeRotate v o).1.rule.maxBytes = l.rule.maxBytes := by
  have hr := (rotate_rule l o.rotate).1
  unfold ActiveLogger.maybeRotate
  split_ifs
  · rcases hrot : l.rotate o.rotate with ⟨l1, e⟩
    rw [hrot] at hr
    cases e with
    | some e => exact congrArg RotateRule.maxBytes hr
    | none =>
      show (RotateRule.MarkRotated _ _).maxBytes = _
      rw [MarkRotated_maxBytes]
      exact congrArg RotateRule.maxBytes hr
  · rfl

theorem writePass_maxBytes (l : ActiveLogger) (v : GoString) (o : WriteOutcomes) :
    (l.writePass v o).logger.rule.maxBytes = l.rule.maxBytes := by
  have hm := maybeRotate_maxBytes l v o
  unfold ActiveLogger.writePass
  dsimp only
  cases (l.maybeRotate v o).1.fp with
  | none => exact hm
  | some f => cases o.write <;> exact hm

/-! ## The active file stays within the limit -/

/-- The state after the first statement of a pass that rotated without error
has `currentSize = 0`; without a rotation the state is unchanged and the rule
did not ask for one. -/
theorem maybeRotate_cases (l : ActiveLogger) (v : GoString) (o : WriteOutcomes) :
    ((l.maybeRotate v o).2 = none ∧ (l.maybeRotate v o).1 = l ∧
        l.rule.ShallRotate o.nowShall (wrap64 (l.currentSize + (v.length : Int))) = false) ∨
      ((l.maybeRotate v o).2 = some none ∧ (l.maybeRotate v o).1.currentSize = 0) ∨
      (∃ e, (l.maybeRotate v o).2 = some (some e)) := by
  unfold ActiveLogger.maybeRotate
  split_ifs with h
  · rcases hrot : l.rotate o.rotate with ⟨l1, e⟩
    cases e with
    | some e => exact Or.inr (Or.inr ⟨e, rfl⟩)
    | none => exact Or.inr (Or.inl ⟨rfl, rfl⟩)
  · exact Or.inl ⟨rfl, rfl, by simpa using h⟩

/-- What a pass that writes the record does to `currentSize`. -/
theorem writePass_wrote (l : ActiveLogger) (v : GoString) (o : WriteOutcomes)
    (hw : (l.writePass v o).wrote = true) :
    (l.writePass v o).rotated = (l.maybeRotate v o).2 ∧
      (l.writePass v o).logger.currentSize =
        wrap64 ((l.maybeRotate v o).1.currentSize + (v.length : Int)) := by
  unfold ActiveLogger.writePass at hw ⊢
  dsimp only at hw ⊢
  cases hfp : (l.maybeRotate v o).1.fp with
  | none => simp [hfp] at hw
  | some f =>
    simp only [hfp] at hw ⊢
    cases hwr : o.write with
    | ok => exact ⟨rfl, rfl⟩
    | fails n e => simp [hwr, OsFile.Write] at hw

/-- One pass: under the size-limit rule with a limit `m > 0`, a pass whose
rotation, if any, succeeded and that wrote the record leaves
`currentSize ≤ m` or `currentSize = len(v)`. -/
theorem writePass_bound (l : ActiveLogger) (v : GoString) (o : WriteOutcomes) (m : Int)
    (hrule : l.rule.maxBytes = some m) (hm : 0 < m) (hlen : (v.length : Int) ≤ maxInt64)
    (hrot : (l.writePass v o).rotated = none ∨ (l.writePass v o).rotated = some none)
    (hw : (l.writePass v o).wrote = true) :
    (l.writePass v o).logger.currentSize ≤ m ∨
      (l.writePass v o).logger.currentSize = (v.length : Int) := by
  obtain ⟨h1, h2⟩ := writePass_wrote l v o hw
  rw [h1] at hrot
  rw [h2]
  rcases maybeRotate_cases l v o with ⟨-, hl, hs⟩ | ⟨-, hz⟩ | ⟨e, he⟩
  · left
    rw [hl]
    cases hr : l.rule with
    | daily r => simp [hr, RotateRule.maxBytes] at hrule
    | sizeLimit r =>
      simp only [hr, RotateRule.maxBytes, Option.some.injEq] at hrule
      simp only [hr, RotateRule.ShallRotate, SizeLimitRotateRule.ShallRotate, hrule,
        decide_eq_false_iff_not, not_and, not_lt] at hs
      exact hs hm
  · right
    rw [hz, zero_add]
    exact wrap64_id _ (by have := Int.natCast_nonneg v.length; omega) hlen
  · rw [he] at hrot
    simp at hrot

/-- What does hold of the counter: under the size-limit rule with a limit of
`m > 0` bytes, along every schedule of `write(v)`, from every state of the
logger (so also when the file opened at start-up was over the limit): provided
every rotation the consumer attempts succeeds, the pass that writes the record
leaves `currentSize ≤ m` or `currentSize = len(v)`. -/
theorem write_size_bound (v : GoString) (m : Int) (schedule : List WriteTurn)
    (l : ActiveLogger) (hrule : l.rule.maxBytes = some m) (hm : 0 < m)
    (hlen : (v.length : Int) ≤ maxInt64)
    (hrot : ∀ q ∈ ActiveLogger.write v schedule l,
      q.rotated = none ∨ q.rotated = some none) :
    ∀ p ∈ ActiveLogger.write v schedule l, p.wrote = true →
      p.logger.currentSize ≤ m ∨ p.logger.currentSize = (v.length : Int) := by
  induction schedule generalizing l with
  | nil =>
    intro p hp
    simp [ActiveLogger.write] at hp
  | cons turn rest ih =>
    intro p hp hw
    unfold ActiveLogger.write at hp hrot
    dsimp only at hp hrot
    by_cases hwr : (l.writePass v turn.outcomes).wrote = true
    · simp only [hwr, if_true, List.mem_singleton] at hp hrot
      subst hp
      exact writePass_bound l v turn.outcomes m hrule hm hlen (hrot _ rfl) hwr
    · have hwf : (l.writePass v turn.outcomes).wrote = false := by simpa using hwr
      simp only [hwf, Bool.false_eq_true, if_false] at hp hrot
      have hl1 : (turn.health.foldl ActiveLogger.healthAct
          (l.writePass v turn.outcomes).logger).rule.maxBytes = some m := by
        rw [healthActs_rule, writePass_maxBytes]
        exact hrule
      generalize turn.health.foldl ActiveLogger.healthAct (l.writePass v turn.outcomes).logger = l1
        at hp hrot hl1
      rcases hwait : l1.health.WaitRecover l1.done turn.pick with _ | ⟨h, b⟩
      · simp only [hwait, List.mem_singleton] at hp
        subst hp
        exact absurd hw hwr
      · cases b with
        | false =>
          simp only [hwait, List.mem_singleton] at hp
          subst hp
          exact absurd hw hwr
        | true =>
          simp only [hwait, List.mem_cons] at hp hrot
          rcases hp with hp | hp
          · subst hp
            exact absurd hw hwr
          · exact ih { l1 with health := h } hl1 (fun q hq => hrot q (Or.inr hq)) p hp hw

/-- The bound on the counter for a file opened at start-up with 2000000 bytes,
over the limit of 1 MiB, and a record of 20 bytes: the pass rotates and
`currentSize` is 20. -/
theorem write_size_bound_witness :
    (mebiRule.maxBytes = some 1048576 ∧ (0 : Int) < 1048576 ∧
      ((record20.length : Int) ≤ maxInt64)) ∧
    (ActiveLogger.write record20 [{ outcomes := passOk, health := [], pick := 0 }]
      (openedLogger 2000000)).map (fun p => (p.wrote, p.logger.currentSize)) = [(true, 20)] ∧
    (∀ p ∈ ActiveLogger.write record20 [{ outcomes := passOk, health := [], pick := 0 }]
        (openedLogger 2000000),
      p.wrote = true → p.logger.currentSize ≤ 1048576 ∨ p.logger.currentSize = 20) :=
  ⟨⟨by decide, by decide, by decide⟩, by decide,
    write_size_bound record20 1048576 [{ outcomes := passOk, health := [], pick := 0 }]
      (openedLogger 2000000) (by decide) (by decide) (by decide) (by decide)⟩

/-- When the first pass writes the record, `write` returns after it. -/
theorem write_returns (v : GoString) (turn : WriteTurn) (rest : List WriteTurn)
    (l : ActiveLogger) (hw : (l.writePass v turn.outcomes).wrote = true) :
    ActiveLogger.write v (turn :: rest) l = [l.writePass v turn.outcomes] := by
  simp [ActiveLogger.write, hw]

/-! ## What does hold of `currentSize`, `initialize` and the reports -/

/-- What `initialize` does to `currentSize` when it succeeds: the size of the
file it opened, and no change when it created the file. -/
theorem initLogger_currentSize (l : ActiveLogger) (o : InitOutcomes)
    (h : (l.initLogger o).2 = none) :
    (∀ size, o.statFile = some size →
      (l.initLogger o).1.currentSize = size ∧
        (l.initLogger o).1.fp = some { sizeAtOpen := size, written := 0 }) ∧
    (o.statFile = none →
      (l.initLogger o).1.currentSize = l.currentSize ∧
        (l.initLogger o).1.fp = some { sizeAtOpen := 0, written := 0 }) := by
  constructor
  · intro size hsz
    unfold ActiveLogger.initLogger at h ⊢
    simp only [hsz] at h ⊢
    cases hc : o.openFileErr with
    | some e => simp [hc] at h
    | none => exact ⟨rfl, rfl⟩
  · intro hn
    unfold ActiveLogger.initLogger at h ⊢
    simp only [hn] at h ⊢
    generalize (if o.statDirErr.isSome = true then o.mkdirAllErr else none) = c at h ⊢
    cases c with
    | some e => simp at h
    | none =>
      cases hc : o.createErr with
      | some e => simp [hc] at h
      | none => exact ⟨rfl, rfl⟩

/-- A pass that reaches `WaitRecover` has called `ReportError` exactly when
`fp` was not nil after the rotation step. -/
theorem writePass_waits (l : ActiveLogger) (v : GoString) (o : WriteOutcomes)
    (hwait : (l.writePass v o).waits = true) :
    ((l.writePass v o).reported = none ↔ (l.maybeRotate v o).1.fp = none) ∧
    (∀ e, (l.writePass v o).reported = some e →
      (l.writePass v o).logger.health = (l.maybeRotate v o).1.health.ReportError e) := by
  unfold ActiveLogger.writePass at hwait ⊢
  dsimp only at hwait ⊢
  cases hfp : (l.maybeRotate v o).1.fp with
  | none => simp
  | some f =>
    simp only [hfp] at hwait ⊢
    cases hwr : o.write with
    | ok => simp [hwr, OsFile.Write] at hwait
    | fails n e => simp [OsFile.Write]

theorem rotateCreate_ok (l : ActiveLogger) (o : RotateOutcomes) (h : (l.rotateCreate o).2 = none) :
    (l.rotateCreate o).1.fp = some { sizeAtOpen := 0, written := 0 } := by
  unfold ActiveLogger.rotateCreate at h ⊢
  cases hc : o.createErr with
  | some e => simp [hc] at h
  | none => rfl

/-- After a rotation without error the active file is a new, empty file. -/
theorem rotate_ok (l : ActiveLogger) (o : RotateOutcomes) (h : (l.rotate o).2 = none) :
    (l.rotate o).1.fp = some { sizeAtOpen := 0, written := 0 } := by
  unfold ActiveLogger.rotate at h ⊢
  generalize (if l.fp.isSome = true then o.closeErr else none) = c at h ⊢
  cases c with
  | some e => simp at h
  | none =>
    dsimp only at h ⊢
    split_ifs at h ⊢
    · cases hr : o.renameErr with
      | some e => simp [hr] at h
      | none =>
        simp only [hr] at h ⊢
        exact rotateCreate_ok _ o h
    · exact rotateCreate_ok _ o h

/-- After the rotation step of a pass that rotated without error the active
file is a new, empty file and `currentSize` is 0. -/
theorem maybeRotate_ok (l : ActiveLogger) (v : GoString) (o : WriteOutcomes)
    (h : (l.maybeRotate v o).2 = some none) :
    (l.maybeRotate v o).1.currentSize = 0 ∧
      (l.maybeRotate v o).1.fp = some { sizeAtOpen := 0, written := 0 } := by
  have hok := rotate_ok l o.rotate
  unfold ActiveLogger.maybeRotate at h ⊢
  split_ifs at h ⊢ with hs
  · generalize l.rotate o.rotate = r at h hok ⊢
    obtain ⟨l1, e⟩ := r
    cases e with
    | some e => simp at h
    | none => exact ⟨rfl, hok rfl⟩

/-- The consumer keeps the size invariant: a pass that writes the record,
after no rotation or after a rotation without error, leaves `currentSize`
equal to the size of the active file, when the sum is an `int64`. -/
theorem writePass_sizeInvariant (l : ActiveLogger) (v : GoString) (o : WriteOutcomes)
    (hinv : l.sizeInvariant = true)
    (hlo : -(2 ^ 63) ≤ l.currentSize) (hhi : l.currentSize + (v.length : Int) ≤ maxInt64)
    (hlen : (v.length : Int) ≤ maxInt64)
    (hrot : (l.writePass v o).rotated = none ∨ (l.writePass v o).rotated = some none)
    (hw : (l.writePass v o).wrote = true) :
    (l.writePass v o).logger.sizeInvariant = true := by
  have hv : (0 : Int) ≤ (v.length : Int) := Int.natCast_nonneg _
  have hpass := writePass_wrote l v o hw
  rw [hpass.1] at hrot
  have hcases : ∀ f, (l.maybeRotate v o).1.fp = some f →
      (l.maybeRotate v o).1.currentSize = f.sizeAtOpen + f.written ∧
      -(2 ^ 63) ≤ (l.maybeRotate v o).1.currentSize ∧
      (l.maybeRotate v o).1.currentSize + (v.length : Int) ≤ maxInt64 := by
    intro f hfp
    rcases maybeRotate_cases l v o with ⟨-, hl, -⟩ | ⟨hsn, -⟩ | ⟨e, he⟩
    · rw [hl] at hfp ⊢
      simp only [ActiveLogger.sizeInvariant, hfp, decide_eq_true_eq] at hinv
      exact ⟨hinv, hlo, hhi⟩
    · obtain ⟨hz, hf⟩ := maybeRotate_ok l v o hsn
      rw [hf] at hfp
      simp only [Option.some.injEq] at hfp
      subst hfp
      rw [hz]
      simp only [maxInt64] at hlen ⊢
      refine ⟨by simp, by norm_num, ?_⟩
      omega
    · rw [he] at hrot
      simp at hrot
  unfold ActiveLogger.writePass at hw ⊢
  dsimp only at hw ⊢
  cases hfp : (l.maybeRotate v o).1.fp with
  | none => simp [hfp] at hw
  | some f =>
    obtain ⟨h1, h2, h3⟩ := hcases f hfp
    simp only [hfp] at hw ⊢
    cases hwr : o.write with
    | fails n e => simp [hwr, OsFile.Write] at hw
    | ok =>
      simp only [OsFile.Write, ActiveLogger.sizeInvariant, decide_eq_true_eq]
      rw [wrap64_id _ (by omega) h3, h1]
      ring

/-- C30, at the failing input: the size-limit rule of 1 MiB (1048576 bytes), a
file opened with 1048500 bytes, and a record of 20 bytes whose first write
fails on a full disk; the health checker recovers with a message of 72 bytes
and the consumer writes the record. No rotation is attempted in either pass.
After the pass that writes the record `currentSize` is 1048520, within the
limit, and the active file holds 1048592 bytes, over the limit, with the
records it had, the recovery message and the new record. -/
theorem write_file_over_limit :
    mebiRule.maxBytes = some 1048576 ∧
    overLimitRun.map
        (fun p => (p.rotated, p.wrote, p.logger.currentSize, p.logger.fp.map OsFile.size)) =
      [(none, false, 1048500, some 1048500), (none, true, 1048520, some 1048592)] ∧
    (1048576 : Int) < 1048592 ∧ (20 : Int) < 1048592 := by
  decide

/-! ## `strings.ToUpper`: the bound on the number of runes -/

/-- On a string that is not empty `utf8.DecodeRuneInString` reports a width of
at least one byte. -/
theorem DecodeRune_width_pos (b : Nat) (rest : GoString) : 1 ≤ (DecodeRune (b :: rest)).2 := by
  rcases rest with _ | ⟨b1, _ | ⟨b2, _ | ⟨b3, r3⟩⟩⟩ <;>
    simp only [DecodeRune] <;> split_ifs <;> simp

/-- The length of the string is enough fuel for `mapRunes`: more fuel gives
the same result. -/
theorem mapRunes_fuel (mapping : Nat → Nat) (n : Nat) (s : GoString) (h : s.length ≤ n) :
    mapRunes mapping n s = mapRunes mapping s.length s := by
  induction n using Nat.strong_induction_on generalizing s with
  | _ n ih =>
    cases s with
    | nil => cases n <;> rfl
    | cons b rest =>
      obtain ⟨k, rfl⟩ : ∃ k, n = k + 1 := ⟨n - 1, by simp at h; omega⟩
      have hw := DecodeRune_width_pos b rest
      have hlen : ((b :: rest).drop (DecodeRune (b :: rest)).2).length ≤ rest.length := by
        simp only [List.length_drop, List.length_cons]
        omega
      simp only [List.length_cons] at h
      show EncodeRune _ ++ mapRunes mapping k _ = EncodeRune _ ++ mapRunes mapping rest.length _
      rw [ih k (by omega) _ (by omega), ih rest.length (by omega) _ hlen]

end Qlog
